import Mathlib

/-!
# AI Scheduler: event validation, calendar-document encoding, the event collection

A shallow embedding of `apps/ai-scheduler/public/js/eventManager.js` and
`apps/ai-scheduler/public/js/icsGenerator.js`, and of the question validation and the
grading of `apps/quiz-app-version2/js/quizLoader.js` and `questionHandler.js`.

JavaScript strings are modelled as their sequences of UTF-16 code units, so that
`substring`, `replace`, `trim` and the relational operators act exactly as they do in
the language.  An event is a record of optional string fields (an absent field reads
as `undefined`).  Built-ins whose result is not fixed by the program text (the host's
`Date` parser outside the date-only forms, and the Unicode upper-case mapping) are
taken as parameters, collected in `Host`; the time value of a `Date`, `JSON.parse`,
`JSON.stringify` and `toLowerCase` are parameters of the functions that call them.
`jsonStringify`, `jsonParse` and `parseInt` are executable renderings of the built-ins
of those names.
-/

set_option maxRecDepth 20000

namespace Scheduler

/-! ## Strings -/

/-- A JavaScript string, as the list of its UTF-16 code units. -/
abbrev JSString := List Nat

/-- The UTF-16 code units of one Unicode scalar value. -/
def utf16Char (c : Char) : JSString :=
  if c.toNat < 65536 then [c.toNat]
  else [55296 + (c.toNat - 65536) / 1024, 56320 + (c.toNat - 65536) % 1024]

/-- The JavaScript string denoted by a source literal. -/
def lit (s : String) : JSString :=
  (s.toList.map utf16Char).flatten

/-- Truthiness of a value that is either `undefined` or a string: only a non-empty
string is truthy. -/
def truthy : Option JSString → Bool
  | some (_ :: _) => true
  | _ => false

/-- Code units that `String.prototype.trim` strips: WhiteSpace and LineTerminator. -/
def isWhiteSpace (c : Nat) : Bool :=
  c == 9 || c == 10 || c == 11 || c == 12 || c == 13 || c == 32 || c == 160 ||
  c == 5760 || (8192 ≤ c && c ≤ 8202) || c == 8232 || c == 8233 || c == 8239 ||
  c == 8287 || c == 12288 || c == 65279

/-- Model of `String.prototype.trim`. -/
def trim (s : JSString) : JSString :=
  ((s.dropWhile isWhiteSpace).reverse.dropWhile isWhiteSpace).reverse

/-- Model of `a < b` on strings: lexicographic order on code units. -/
def strLt : JSString → JSString → Bool
  | [], [] => false
  | [], _ :: _ => true
  | _ :: _, [] => false
  | a :: as, b :: bs => if a < b then true else if b < a then false else strLt as bs

/-- Model of `a >= b` on strings. -/
def strGe (a b : JSString) : Bool := !strLt a b

/-- Model of `s.replace(/c/g, r)` for a one-character pattern `c`. -/
def replaceAll (c : Nat) (r : JSString) (s : JSString) : JSString :=
  (s.map fun x => if x = c then r else [x]).flatten

/-- Model of `s.replace('c', '')` for a one-character string pattern: only the first
occurrence is removed. -/
def removeFirst (c : Nat) (s : JSString) : JSString :=
  s.erase c

/-! ## Regular expressions

The two patterns of the program use only character ranges, sequencing, alternation and
`?`.  `Regex.run r s` lists, in backtracking order, the remainders of `s` after each
way of matching `r` at its start; a pattern anchored with `^` and `$` matches when
one of the remainders is empty. -/

inductive Regex where
  | range (lo hi : Nat)
  | seq (r s : Regex)
  | alt (r s : Regex)
  | opt (r : Regex)

namespace Regex

/-- The single code unit `c`. -/
def char (c : Nat) : Regex := range c c

/-- The class `\d`. -/
def digit : Regex := range 48 57

def run : Regex → JSString → List JSString
  | range _ _, [] => []
  | range lo hi, c :: cs => if lo ≤ c ∧ c ≤ hi then [cs] else []
  | seq r s, cs => ((run r cs).map (run s)).flatten
  | alt r s, cs => run r cs ++ run s cs
  | opt r, cs => run r cs ++ [cs]

/-- Model of `/^r$/.test(s)`. -/
def test (r : Regex) (s : JSString) : Bool :=
  (run r s).any List.isEmpty

/-- The strings that a pattern denotes. -/
def Matches : Regex → JSString → Prop
  | range lo hi, s => ∃ c, s = [c] ∧ lo ≤ c ∧ c ≤ hi
  | seq a b, s => ∃ u v, s = u ++ v ∧ Matches a u ∧ Matches b v
  | alt a b, s => Matches a s ∨ Matches b s
  | opt a, s => s = [] ∨ Matches a s

end Regex

/-- The pattern `([01]?[0-9]|2[0-3]):[0-5][0-9]` between `^` and `$`. -/
def timeRegex : Regex :=
  .seq (.alt (.seq (.opt (.range 48 49)) (.range 48 57)) (.seq (.char 50) (.range 48 51)))
    (.seq (.char 58) (.seq (.range 48 53) (.range 48 57)))

/-- The pattern `\d{4}-\d{2}-\d{2}` between `^` and `$`. -/
def dateRegex : Regex :=
  .seq .digit (.seq .digit (.seq .digit (.seq .digit (.seq (.char 45)
    (.seq .digit (.seq .digit (.seq (.char 45) (.seq .digit .digit))))))))

/-! ## The host's built-ins -/

/-- Built-ins that the program calls and whose result the program text does not fix. -/
structure Host where
  /-- Whether `new Date(s)` is a valid date for a string `s` that is not one of the
  date-only forms `YYYY`, `YYYY-MM`, `YYYY-MM-DD` of the Date Time String Format
  (date-time forms, expanded years and implementation-specific formats). -/
  dateParsesOther : JSString → Bool
  /-- The built-in `String.prototype.toUpperCase`. -/
  toUpperCase : JSString → JSString

/-- Value of a decimal digit code unit. -/
def digitVal (c : Nat) : Option Nat :=
  if 48 ≤ c ∧ c ≤ 57 then some (c - 48) else none

def isLeapYear (y : Nat) : Bool :=
  (y % 4 == 0 && y % 100 != 0) || y % 400 == 0

def daysInMonth (y m : Nat) : Nat :=
  if m == 2 then (if isLeapYear y then 29 else 28)
  else if m == 4 || m == 6 || m == 9 || m == 11 then 30 else 31

/-- The date-only forms of the Date Time String Format with in-range fields: every
conforming `Date` parser yields a valid date for them. -/
def isDateOnlyForm (s : JSString) : Bool :=
  match s.map digitVal with
  | [some _, some _, some _, some _] => true
  | [some _, some _, some _, some _, none, some m1, some m2] =>
      s.get? 4 == some 45 && 1 ≤ m1 * 10 + m2 && m1 * 10 + m2 ≤ 12
  | [some y1, some y2, some y3, some y4, none, some m1, some m2, none, some d1, some d2] =>
      s.get? 4 == some 45 && s.get? 7 == some 45 &&
      1 ≤ m1 * 10 + m2 && m1 * 10 + m2 ≤ 12 && 1 ≤ d1 * 10 + d2 &&
      d1 * 10 + d2 ≤ daysInMonth (y1 * 1000 + y2 * 100 + y3 * 10 + y4) (m1 * 10 + m2)
  | _ => false

/-- Model of `!isNaN(new Date(s))` for a string `s`. -/
def dateIsValid (h : Host) (s : JSString) : Bool :=
  isDateOnlyForm s || h.dateParsesOther s

/-! ## Data model -/

/-- An event record: each field is absent (`none`, read as `undefined`) or a string. -/
structure Event where
  title : Option JSString := none
  date : Option JSString := none
  startTime : Option JSString := none
  endTime : Option JSString := none
  category : Option JSString := none
  description : Option JSString := none
  reminder : Option JSString := none
  deriving DecidableEq, Repr

/-- The string held by a field that has been found truthy. -/
def str (v : Option JSString) : JSString := v.getD []

/-! ## eventManager.js -/

namespace EventManager

def isValidDate (h : Host) (dateString : JSString) : Bool :=
  dateIsValid h dateString

def isValidTime (timeString : JSString) : Bool :=
  timeRegex.test timeString

/-- The object `{ valid, errors }` returned by `validateEvent`. -/
structure Validation where
  valid : Bool
  errors : List JSString

def validateEvent (h : Host) (event : Event) : Validation :=
  let errors : List JSString := []
  let errors :=
    if !truthy event.title || trim (str event.title) == [] then
      errors ++ [lit "Event title is required"]
    else errors
  let errors :=
    if !truthy event.date then errors ++ [lit "Event date is required"]
    else if !isValidDate h (str event.date) then errors ++ [lit "Invalid date format"]
    else errors
  let errors :=
    if !truthy event.startTime then errors ++ [lit "Start time is required"]
    else if !isValidTime (str event.startTime) then
      errors ++ [lit "Invalid start time format"]
    else errors
  let errors :=
    if !truthy event.endTime then errors ++ [lit "End time is required"]
    else if !isValidTime (str event.endTime) then errors ++ [lit "Invalid end time format"]
    else errors
  let errors :=
    if truthy event.startTime && truthy event.endTime &&
        strGe (str event.startTime) (str event.endTime) then
      errors ++ [lit "End time must be after start time"]
    else errors
  { valid := errors.length == 0, errors := errors }

end EventManager

/-! ## icsGenerator.js -/

namespace ICSGenerator

def productId : JSString := lit "-//AI Scheduler//AI Scheduler 1.0//EN"

def isValidDate (h : Host) (dateString : JSString) : Bool :=
  dateIsValid h dateString && dateRegex.test dateString

def isValidTime (timeString : JSString) : Bool :=
  timeRegex.test timeString

/-- Returns normally (`ok`) or throws an `Error` with the given message. -/
def validateEvent (h : Host) (event : Event) : Except JSString Unit :=
  if !truthy event.title || trim (str event.title) == [] then
    .error (lit "Event title is required")
  else if !truthy event.date then
    .error (lit "Event date is required")
  else if !isValidDate h (str event.date) then
    .error (lit "Invalid date format")
  else if !truthy event.startTime then
    .error (lit "Start time is required")
  else if !isValidTime (str event.startTime) then
    .error (lit "Invalid start time format")
  else if !truthy event.endTime then
    .error (lit "End time is required")
  else if !isValidTime (str event.endTime) then
    .error (lit "Invalid end time format")
  else if strGe (str event.startTime) (str event.endTime) then
    .error (lit "End time must be after start time")
  else
    .ok ()

def escapeICSValue (value : Option JSString) : JSString :=
  if !truthy value then []
  else
    (replaceAll 13 [] (replaceAll 10 (lit "\\n") (replaceAll 44 (lit "\\,")
      (replaceAll 59 (lit "\\;") (replaceAll 92 (lit "\\\\") (str value)))))).take 75

def generateAlarm (reminderMinutes : JSString) (eventTitle : Option JSString) : JSString :=
  let alarm := lit "BEGIN:VALARM\r\n"
  let alarm := alarm ++ (lit "TRIGGER:-PT" ++ reminderMinutes ++ lit "M\r\n")
  let alarm := alarm ++ lit "ACTION:DISPLAY\r\n"
  let alarm := alarm ++ (lit "DESCRIPTION:Reminder: " ++ escapeICSValue eventTitle ++ lit "\r\n")
  let alarm := alarm ++ lit "END:VALARM\r\n"
  alarm

def generateVEvent (h : Host) (event : Event) (index : Nat) (timestamp : JSString) :
    Except JSString JSString :=
  match validateEvent h event with
  | .error e => .error e
  | .ok () =>
    let eventDate := replaceAll 45 [] (str event.date)
    let startDateTime := eventDate ++ lit "T" ++ removeFirst 58 (str event.startTime) ++ lit "00"
    let endDateTime := eventDate ++ lit "T" ++ removeFirst 58 (str event.endTime) ++ lit "00"
    let uid := lit "event-" ++ lit (Nat.repr index) ++ lit "-" ++ timestamp ++ lit "@aischeduler.com"
    let vevent := lit "BEGIN:VEVENT\r\n"
    let vevent := vevent ++ (lit "UID:" ++ uid ++ lit "\r\n")
    let vevent := vevent ++ (lit "DTSTAMP:" ++ timestamp ++ lit "\r\n")
    let vevent := vevent ++ (lit "DTSTART:" ++ startDateTime ++ lit "\r\n")
    let vevent := vevent ++ (lit "DTEND:" ++ endDateTime ++ lit "\r\n")
    let vevent := vevent ++ (lit "SUMMARY:" ++ escapeICSValue event.title ++ lit "\r\n")
    let vevent := vevent ++ (lit "CATEGORIES:" ++
      h.toUpperCase (if truthy event.category then str event.category else lit "other") ++
      lit "\r\n")
    let vevent :=
      if truthy event.description && trim (str event.description) != [] then
        vevent ++ (lit "DESCRIPTION:" ++ escapeICSValue event.description ++ lit "\r\n")
      else vevent
    let vevent :=
      if truthy event.reminder && str event.reminder != lit "0" then
        vevent ++ generateAlarm (str event.reminder) event.title
      else vevent
    let vevent := vevent ++ lit "END:VEVENT\r\n"
    .ok vevent

/-- The argument of `generateICS`: `undefined`, `null`, some other value that is not
an array, or an array of event records. -/
inductive Events where
  | undefined
  | null
  | nonArray
  | array (events : List Event)

/-- The body of `events.forEach((event, index) => { try ... catch ... })`, from
position `index` on, threading the document built so far. -/
def forEachEvent (h : Host) (timestamp : JSString) : List Event → Nat → JSString → JSString
  | [], _, ics => ics
  | event :: rest, index, ics =>
    match generateVEvent h event index timestamp with
    | .ok vevent => forEachEvent h timestamp rest (index + 1) (ics ++ vevent)
    | .error _ => forEachEvent h timestamp rest (index + 1) ics

/-- `generateICS(events)`, where `timestamp` is `formatDateForICS(new Date())` read at
the call. -/
def generateICS (h : Host) (events : Events) (timestamp : JSString) :
    Except JSString JSString :=
  match events with
  | .undefined | .null | .nonArray | .array [] =>
    .error (lit "No events provided for ICS generation")
  | .array (e :: es) =>
    let ics := lit "BEGIN:VCALENDAR\r\n"
    let ics := ics ++ lit "VERSION:2.0\r\n"
    let ics := ics ++ (lit "PRODID:" ++ productId ++ lit "\r\n")
    let ics := ics ++ lit "CALSCALE:GREGORIAN\r\n"
    let ics := ics ++ lit "METHOD:PUBLISH\r\n"
    let ics := forEachEvent h timestamp (e :: es) 0 ics
    let ics := ics ++ lit "END:VCALENDAR\r\n"
    .ok ics

end ICSGenerator

/-- A host whose `Date` accepts nothing beyond the date-only forms and whose case
mapping is the ASCII one (what `toUpperCase` does on ASCII text). -/
def asciiHost : Host where
  dateParsesOther := fun _ => false
  toUpperCase := fun s => s.map fun c => if 97 ≤ c ∧ c ≤ 122 then c - 32 else c

def standup : Event :=
  { title := some (lit "Standup"), date := some (lit "2024-03-01"),
    startTime := some (lit "09:00"), endTime := some (lit "09:15"),
    category := some (lit "meeting"), reminder := some (lit "15") }

/-! ## Notions used to state the properties -/

/-- The lines of a document: the segments ended by a CR LF pair, then the unterminated
rest when there is one. -/
def crlfLinesFrom : JSString → JSString → List JSString
  | [], cur => if cur.isEmpty then [] else [cur]
  | 13 :: 10 :: rest, cur => cur :: crlfLinesFrom rest []
  | c :: rest, cur => crlfLinesFrom rest (cur ++ [c])

def crlfLines (doc : JSString) : List JSString := crlfLinesFrom doc []

/-- Every line feed directly follows a carriage return and every carriage return is
directly followed by a line feed; `prev` is the code unit before the text. -/
def crlfPaired : Option Nat → JSString → Bool
  | prev, [] => prev != some 13
  | prev, c :: rest =>
    (if c = 10 then prev == some 13 else prev != some 13) && crlfPaired (some c) rest

/-- CR LF is the only line terminator of the document, and the document ends with it. -/
def crlfOnly (doc : JSString) : Bool :=
  crlfPaired none doc && (doc.reverse.take 2 == [10, 13])

/-- The reading of a time of day written as an hour of one or two decimal digits, a
colon and a minute of two decimal digits: the pair (hour, minute). -/
def readClock (s : JSString) : Option (Nat × Nat) :=
  match s with
  | [h, 58, m1, m2] =>
    match digitVal h, digitVal m1, digitVal m2 with
    | some h, some m1, some m2 => some (h, m1 * 10 + m2)
    | _, _, _ => none
  | [h1, h2, 58, m1, m2] =>
    match digitVal h1, digitVal h2, digitVal m1, digitVal m2 with
    | some h1, some h2, some m1, some m2 => some (h1 * 10 + h2, m1 * 10 + m2)
    | _, _, _, _ => none
  | _ => none

/-- Minutes since midnight of a time of day, when it reads as one. -/
def minutesOfDay (s : JSString) : Option Nat :=
  (readClock s).map fun p => p.1 * 60 + p.2

/-- The five header lines of a calendar document. -/
def calendarHeader : JSString :=
  lit "BEGIN:VCALENDAR\r\nVERSION:2.0\r\nPRODID:-//AI Scheduler//AI Scheduler 1.0//EN\r\nCALSCALE:GREGORIAN\r\nMETHOD:PUBLISH\r\n"

/-- A batch of three candidates, the second of which ends before it starts. -/
def batchOfThree : List Event :=
  [standup,
   { title := some (lit "Review"), date := some (lit "2024-03-01"),
     startTime := some (lit "11:00"), endTime := some (lit "10:00") },
   { title := some (lit "Lunch"), date := some (lit "2024-03-02"),
     startTime := some (lit "12:00"), endTime := some (lit "13:00"),
     description := some (lit "Team lunch; bring badge"), reminder := some (lit "0") }]

/-- A valid event whose category carries a line break followed by `BEGIN:VEVENT`. -/
def categoryWithBlockLine : Event :=
  { standup with category := some (lit "x\r\nBEGIN:VEVENT") }

/-- A valid event whose category contains a bare line feed. -/
def categoryWithLineFeed : Event :=
  { standup with category := some (lit "a\nb") }

/-- A candidate whose date is a year and a month only. -/
def yearMonthDate : Event :=
  { standup with date := some (lit "2024-03") }

/-- A candidate that starts at ten o'clock and ends at half past nine. -/
def endsBeforeStart : Event :=
  { standup with startTime := some (lit "10:00"), endTime := some (lit "9:30") }

/-- A candidate whose date is a year only. -/
def yearOnlyDate : Event :=
  { standup with date := some (lit "2024") }

/-! ## Batch validation, escaping and the parts of a VEVENT -/

/-- The manager object of `eventManager.js`: its `events` array. -/
structure EventManager where
  events : List Event

namespace EventManager

/-- A record `{ index, title, errors }` pushed by `validateAllEvents`. -/
structure EventErrors where
  index : Nat
  title : Option JSString
  errors : List JSString

/-- The body of `this.events.forEach((event, index) => ...)` in `validateAllEvents`,
from position `index` on, threading `allErrors`. -/
def validateAllEventsFrom (h : Host) : List Event → Nat → List EventErrors → List EventErrors
  | [], _, allErrors => allErrors
  | event :: rest, index, allErrors =>
    let validation := validateEvent h event
    if !validation.valid then
      validateAllEventsFrom h rest (index + 1)
        (allErrors ++ [{ index := index, title := event.title, errors := validation.errors }])
    else validateAllEventsFrom h rest (index + 1) allErrors

/-- Returns `allErrors` and the manager after the call. -/
def validateAllEvents (h : Host) (self : EventManager) : List EventErrors × EventManager :=
  let allErrors := validateAllEventsFrom h self.events 0 []
  (allErrors, self)

end EventManager

/-- A candidate whose two times are present and fail the time pattern. -/
def malformedTimes : Event :=
  { standup with startTime := some (lit "zz"), endTime := some (lit "aa") }

/-- The escape table of `escapeICSValue`, applied to one code unit. -/
def escapeUnit (c : Nat) : JSString :=
  if c = 92 then [92, 92]
  else if c = 59 then [92, 59]
  else if c = 44 then [92, 44]
  else if c = 10 then [92, 110]
  else if c = 13 then []
  else [c]

/-- A text of ordinary code units and complete escape sequences: every backslash opens
one of the pairs backslash-backslash, backslash-semicolon, backslash-comma,
backslash-n, and outside these pairs there is no backslash, semicolon, comma or
line feed. -/
def wellEscaped : JSString → Bool
  | [] => true
  | [c] => c != 92 && c != 59 && c != 44 && c != 10
  | c :: d :: rest =>
    if c = 92 then (d == 92 || d == 59 || d == 44 || d == 110) && wellEscaped rest
    else c != 59 && c != 44 && c != 10 && wellEscaped (d :: rest)

/-- A title of seventy-four letters `a` followed by a semicolon. -/
def longTitle : JSString := List.replicate 74 97 ++ [59]

/-- The text that `generateVEvent` writes before the CATEGORIES line: the lines
BEGIN:VEVENT, UID, DTSTAMP, DTSTART, DTEND and SUMMARY. -/
def veventHead (event : Event) (index : Nat) (timestamp : JSString) : JSString :=
  lit "BEGIN:VEVENT\r\n" ++
  (lit "UID:" ++ (lit "event-" ++ lit (Nat.repr index) ++ lit "-" ++ timestamp ++
    lit "@aischeduler.com") ++ lit "\r\n") ++
  (lit "DTSTAMP:" ++ timestamp ++ lit "\r\n") ++
  (lit "DTSTART:" ++ (replaceAll 45 [] (str event.date) ++ lit "T" ++
    removeFirst 58 (str event.startTime) ++ lit "00") ++ lit "\r\n") ++
  (lit "DTEND:" ++ (replaceAll 45 [] (str event.date) ++ lit "T" ++
    removeFirst 58 (str event.endTime) ++ lit "00") ++ lit "\r\n") ++
  (lit "SUMMARY:" ++ ICSGenerator.escapeICSValue event.title ++ lit "\r\n")

/-- The CATEGORIES line that `generateVEvent` writes. -/
def categoriesLine (h : Host) (event : Event) : JSString :=
  lit "CATEGORIES:" ++
    h.toUpperCase (if truthy event.category then str event.category else lit "other") ++
    lit "\r\n"

/-- The event-level DESCRIPTION line that `generateVEvent` writes, or nothing. -/
def descriptionLine (event : Event) : JSString :=
  if truthy event.description && trim (str event.description) != [] then
    lit "DESCRIPTION:" ++ ICSGenerator.escapeICSValue event.description ++ lit "\r\n"
  else []

/-- The alarm block that `generateVEvent` writes, or nothing. -/
def alarmBlock (event : Event) : JSString :=
  if truthy event.reminder && str event.reminder != lit "0" then
    ICSGenerator.generateAlarm (str event.reminder) event.title
  else []

/-- A candidate whose times are written with a one-digit hour. -/
def oneDigitHour : Event :=
  { standup with startTime := some (lit "9:00"), endTime := some (lit "9:15") }

/-- A candidate whose reminder is a word. -/
def wordReminder : Event :=
  { standup with reminder := some (lit "soon") }

/-- A candidate with a description and the reminder '0'. -/
def teamLunch : Event :=
  { title := some (lit "Lunch"), date := some (lit "2024-03-02"),
    startTime := some (lit "12:00"), endTime := some (lit "13:00"),
    description := some (lit "Team lunch; bring badge"), reminder := some (lit "0") }

/-- The segments that `generateVEvent` writes, each followed by CR LF, for an event that
passes validation: seven fixed ones, the DESCRIPTION segment if any, the five of the
alarm block if any, and END:VEVENT. -/
def veventLines (h : Host) (event : Event) (index : Nat) (timestamp : JSString) :
    List JSString :=
  [lit "BEGIN:VEVENT",
   lit "UID:" ++ (lit "event-" ++ lit (Nat.repr index) ++ lit "-" ++ timestamp ++
     lit "@aischeduler.com"),
   lit "DTSTAMP:" ++ timestamp,
   lit "DTSTART:" ++ (replaceAll 45 [] (str event.date) ++ lit "T" ++
     removeFirst 58 (str event.startTime) ++ lit "00"),
   lit "DTEND:" ++ (replaceAll 45 [] (str event.date) ++ lit "T" ++
     removeFirst 58 (str event.endTime) ++ lit "00"),
   lit "SUMMARY:" ++ ICSGenerator.escapeICSValue event.title,
   lit "CATEGORIES:" ++
     h.toUpperCase (if truthy event.category then str event.category else lit "other")] ++
  (if truthy event.description && trim (str event.description) != [] then
    [lit "DESCRIPTION:" ++ ICSGenerator.escapeICSValue event.description]
   else []) ++
  (if truthy event.reminder && str event.reminder != lit "0" then
    [lit "BEGIN:VALARM",
     lit "TRIGGER:-PT" ++ str event.reminder ++ lit "M",
     lit "ACTION:DISPLAY",
     lit "DESCRIPTION:Reminder: " ++ ICSGenerator.escapeICSValue event.title,
     lit "END:VALARM"]
   else []) ++
  [lit "END:VEVENT"]

/-- The value of the constant `uid` in `generateVEvent`. -/
def eventUid (index : Nat) (timestamp : JSString) : JSString :=
  lit "event-" ++ lit (Nat.repr index) ++ lit "-" ++ timestamp ++ lit "@aischeduler.com"

/-- The five header lines of a calendar document, without their line ends. -/
def headerLines : List JSString :=
  [lit "BEGIN:VCALENDAR", lit "VERSION:2.0", lit "PRODID:-//AI Scheduler//AI Scheduler 1.0//EN",
   lit "CALSCALE:GREGORIAN", lit "METHOD:PUBLISH"]

/-! ## The manager's collection -/

/-- A field as it reads inside a template literal or a string concatenation: an absent
field gives the text `undefined`. -/
def interpolate (v : Option JSString) : JSString :=
  match v with
  | some s => s
  | none => lit "undefined"

/-- The expression `value || fallback` on a field. -/
def orDefault (value : Option JSString) (fallback : JSString) : Option JSString :=
  if truthy value then value else some fallback

/-- A value as `JSON.parse` returns it; a number keeps its text. -/
inductive Json where
  | null
  | bool (b : Bool)
  | number (text : JSString)
  | string (s : JSString)
  | array (items : List Json)
  | object (members : List (JSString × Json))

/-- The member `key` of an object read as an event field: the string it holds (the last
one, when the key is repeated), absent when there is no such member or it holds no
string. -/
def Json.field (members : List (JSString × Json)) (key : JSString) : Option JSString :=
  match members.reverse.find? fun p => p.1 == key with
  | some (_, .string s) => some s
  | _ => none

/-- An element of a parsed array read as an event record. -/
def Json.toEvent : Json → Event
  | .object members =>
    { title := Json.field members (lit "title"),
      date := Json.field members (lit "date"),
      startTime := Json.field members (lit "startTime"),
      endTime := Json.field members (lit "endTime"),
      category := Json.field members (lit "category"),
      description := Json.field members (lit "description"),
      reminder := Json.field members (lit "reminder") }
  | _ => {}

/-- The built-in `Array.prototype.sort(comparefn)` for a comparator that returns a number
or NaN (`none`), which counts as 0.  For a consistent comparator the language fixes
the result: the stable sort, in which an element comes before another when the
comparator is negative towards it and elements that compare as equal keep their
order; insertion from the right computes it.  A comparator that returns NaN for some
pairs only is not consistent; the language then leaves the order to the engine, and
this definition gives the order of the same insertion. -/
def arraySort {α : Type} (comparefn : α → α → Option Int) (l : List α) : List α :=
  l.insertionSort fun a b => (comparefn a b).getD 0 ≤ 0

namespace EventManager

def setEvents (self : EventManager) (events : List Event) : EventManager :=
  { self with
    events := events.map fun event =>
      { event with reminder := orDefault event.reminder (lit "60") } }

/-- Returns the result and the manager after the call, for an integer `index`. -/
def deleteEvent (self : EventManager) (index : Int) : Bool × EventManager :=
  if 0 ≤ index ∧ index < self.events.length then
    (true, { self with events := self.events.eraseIdx index.toNat })
  else (false, self)

/-- Returns the index of the new event and the manager after the call; `today` is what
`getTodayDate()` gives at the call. -/
def addEvent (self : EventManager) (today : JSString) (event : Event) : Nat × EventManager :=
  let newEvent : Event :=
    { title := orDefault event.title (lit "New Event"),
      date := orDefault event.date today,
      startTime := orDefault event.startTime (lit "09:00"),
      endTime := orDefault event.endTime (lit "10:00"),
      category := orDefault event.category (lit "other"),
      description := orDefault event.description (lit ""),
      reminder := orDefault event.reminder (lit "60") }
  let events := self.events ++ [newEvent]
  (events.length - 1, { self with events := events })

def clearEvents (self : EventManager) : EventManager :=
  { self with events := [] }

/-- The comparator of `sortEvents`, `dateA - dateB`; `timeValue` is the time value of
`new Date(text)`, `none` for an invalid date, and the difference is then NaN. -/
def compareEvents (timeValue : JSString → Option Int) (a b : Event) : Option Int :=
  let dateA := timeValue (interpolate a.date ++ lit "T" ++ interpolate a.startTime)
  let dateB := timeValue (interpolate b.date ++ lit "T" ++ interpolate b.startTime)
  match dateA, dateB with
  | some x, some y => some (x - y)
  | _, _ => none

def sortEvents (timeValue : JSString → Option Int) (self : EventManager) : EventManager :=
  { self with events := arraySort (compareEvents timeValue) self.events }

/-- The argument `stringify` is `JSON.stringify(value, null, 2)` on an array of event
records. -/
def exportToJSON (stringify : List Event → JSString) (self : EventManager) : JSString :=
  stringify self.events

/-- The record `{ success, error }` that `importFromJSON` returns. -/
structure ImportResult where
  success : Bool
  error : Option JSString
deriving DecidableEq

/-- Returns the result and the manager after the call; `parse` is `JSON.parse`, `none`
when it throws. -/
def importFromJSON (parse : JSString → Option Json) (self : EventManager)
    (jsonString : JSString) : ImportResult × EventManager :=
  match parse jsonString with
  | some (.array events) =>
    ({ success := true, error := none }, { self with events := events.map Json.toEvent })
  | some _ => ({ success := false, error := some (lit "Invalid JSON format") }, self)
  | none => ({ success := false, error := some (lit "Failed to parse JSON") }, self)

end EventManager

/-! ## The quiz application: `quizLoader.js` and `questionHandler.js` -/

namespace QuizApp

/-- A correct answer, an option or a given answer: a boolean or a string. -/
inductive Answer where
  | boolean (b : Bool)
  | string (s : JSString)
deriving DecidableEq

/-- A question record; an absent field reads as `undefined`. -/
structure Question where
  id : Option JSString := none
  type : Option JSString := none
  question : Option JSString := none
  correctAnswer : Option Answer := none
  options : Option (List Answer) := none

/-- A quiz record; `questions` is absent when the field holds no array. -/
structure Quiz where
  title : Option JSString := none
  description : Option JSString := none
  questions : Option (List Question) := none

/-- The record `{ isValid, error }` that `validateQuizFormat` returns. -/
structure Validation where
  isValid : Bool
  error : Option JSString
deriving DecidableEq

end QuizApp

namespace QuizLoader

open QuizApp

/-- The checks that the loop of `validateQuizFormat` makes on one question, whose
number is `questionNum`: the error found, if any.  `toLowerCase` is the built-in. -/
def validateQuestion (toLowerCase : JSString → JSString) (question : Question)
    (questionNum : Nat) : Option JSString :=
  let num := lit "Question " ++ lit (Nat.repr questionNum)
  if !truthy question.id then some (num ++ lit " is missing an ID")
  else if !truthy question.type then some (num ++ lit " is missing a type")
  else if !truthy question.question then some (num ++ lit " is missing question text")
  else
    match question.correctAnswer with
    | none => some (num ++ lit " is missing a correct answer")
    | some correctAnswer =>
      if question.type = some (lit "multiple-choice") then
        match question.options with
        | none => some (num ++ lit ": multiple-choice requires options array")
        | some options =>
          if options.length ≠ 4 then
            some (num ++ lit ": multiple-choice requires exactly 4 options")
          else if !options.contains correctAnswer then
            some (num ++ lit ": correct answer must be one of the options")
          else none
      else if question.type = some (lit "text") then
        match correctAnswer with
        | .string _ => none
        | .boolean _ => some (num ++ lit ": text question requires string answer")
      else if question.type = some (lit "true-false") then
        let validAnswer :=
          match correctAnswer with
          | .boolean _ => true
          | .string s => [lit "true", lit "false"].contains (toLowerCase s)
        if !validAnswer then some (num ++ lit ": true-false question requires boolean answer")
        else none
      else
        some (num ++ lit ": invalid question type \"" ++ str question.type ++ lit "\"")

/-- The loop `for (let i = 0; i < quiz.questions.length; i++)` from position `i` on. -/
def validateQuestions (toLowerCase : JSString → JSString) :
    List Question → Nat → Validation
  | [], _ => { isValid := true, error := none }
  | question :: rest, i =>
    match validateQuestion toLowerCase question (i + 1) with
    | some error => { isValid := false, error := some error }
    | none => validateQuestions toLowerCase rest (i + 1)

/-- The argument is absent for `null` or `undefined`. -/
def validateQuizFormat (toLowerCase : JSString → JSString) (quiz : Option Quiz) :
    Validation :=
  match quiz with
  | none => { isValid := false, error := some (lit "Quiz data is null or undefined") }
  | some quiz =>
    if !truthy quiz.title then
      { isValid := false, error := some (lit "Quiz title is required") }
    else if !truthy quiz.description then
      { isValid := false, error := some (lit "Quiz description is required") }
    else
      match quiz.questions with
      | none => { isValid := false, error := some (lit "Questions must be an array") }
      | some [] =>
        { isValid := false, error := some (lit "Quiz must contain at least one question") }
      | some questions => validateQuestions toLowerCase questions 0

end QuizLoader

namespace QuestionHandler

open QuizApp

/-- The result of `checkAnswer`, `none` when the call throws a TypeError (an answer
that has no `toLowerCase`). -/
def checkAnswer (toLowerCase : JSString → JSString) (question : Question)
    (userAnswer : Answer) : Option Bool :=
  if question.type = some (lit "true-false") then
    some (userAnswer == .boolean (question.correctAnswer == some (.boolean true)))
  else
    match userAnswer, question.correctAnswer with
    | .string u, some (.string c) => some (toLowerCase u == toLowerCase c)
    | _, _ => none

end QuestionHandler

namespace QuizApp

/-- The ASCII part of `toLowerCase`. -/
def asciiLower (s : JSString) : JSString :=
  s.map fun c => if 65 ≤ c ∧ c ≤ 90 then c + 32 else c

/-- The truth value that a boolean or one of the strings 'true' and 'false', in any
letter case, denotes. -/
def denotes (toLowerCase : JSString → JSString) : Answer → Option Bool
  | .boolean b => some b
  | .string s =>
    if toLowerCase s = lit "true" then some true
    else if toLowerCase s = lit "false" then some false
    else none

/-- A true-false question whose correct answer is the string 'true'. -/
def waterIsWet : Question :=
  { id := some (lit "q1"), type := some (lit "true-false"),
    question := some (lit "Water is wet."), correctAnswer := some (.string (lit "true")) }

/-- A quiz of that one question. -/
def oneQuestionQuiz : Quiz :=
  { title := some (lit "Science"), description := some (lit "One question"),
    questions := some [waterIsWet] }

end QuizApp

/-! ## The preview text -/

/-- The value of a digit of radix 10 or 16. -/
def radixDigit (radix c : Nat) : Option Nat :=
  if 48 ≤ c ∧ c ≤ 57 then some (c - 48)
  else if radix = 16 ∧ 97 ≤ c ∧ c ≤ 102 then some (c - 87)
  else if radix = 16 ∧ 65 ≤ c ∧ c ≤ 70 then some (c - 55)
  else none

/-- The longest run of digits at the start of a text, read in the radix, from the value
`acc` read so far; `seen` says whether a digit has been read. -/
def readDigits (radix : Nat) : JSString → Nat → Bool → Option Nat
  | [], acc, seen => if seen then some acc else none
  | c :: rest, acc, seen =>
    match radixDigit radix c with
    | some d => readDigits radix rest (acc * radix + d) true
    | none => if seen then some acc else none

/-- The built-in `parseInt(string)` with no radix: leading white space is skipped, a sign
is read, `0x` or `0X` selects radix 16, and the digits up to the first other code unit
give the value; `none` is NaN.  The value is the exact integer, which is what the
built-in returns below 2^53. -/
def parseInt (string : JSString) : Option Int :=
  let s := string.dropWhile isWhiteSpace
  let sign : Int := if s.head? = some 45 then -1 else 1
  let s := if s.head? = some 43 ∨ s.head? = some 45 then s.drop 1 else s
  let value :=
    match s with
    | 48 :: 120 :: rest => readDigits 16 rest 0 false
    | 48 :: 88 :: rest => readDigits 16 rest 0 false
    | _ => readDigits 10 s 0 false
  value.map fun mathInt => sign * mathInt

/-- An integer inside a template literal (its decimal numeral; exact below 10^21). -/
def numberText (n : Int) : JSString := lit (toString n)

namespace ICSGenerator

def getReminderText (minutes : JSString) : JSString :=
  match parseInt minutes with
  | none => lit "NaN week" ++ lit "s"
  | some num =>
    if num = 0 then lit "No reminder"
    else if num < 60 then
      numberText num ++ lit " minute" ++ (if num ≠ 1 then lit "s" else lit "")
    else if num < 1440 then
      numberText (num / 60) ++ lit " hour" ++ (if num / 60 ≠ 1 then lit "s" else lit "")
    else if num < 10080 then
      numberText (num / 1440) ++ lit " day" ++ (if num / 1440 ≠ 1 then lit "s" else lit "")
    else
      numberText (num / 10080) ++ lit " week" ++ (if num / 10080 ≠ 1 then lit "s" else lit "")

/-- The body of `previewEvents.forEach((event, index) => ...)`, from position `index`
on, threading `preview`. -/
def forEachPreview : List Event → Nat → JSString → JSString
  | [], _, preview => preview
  | event :: rest, index, preview =>
    let preview := preview ++
      (lit (Nat.repr (index + 1)) ++ lit ". " ++ interpolate event.title ++ lit "\n")
    let preview := preview ++ (lit "   Date: " ++ interpolate event.date ++ lit "\n")
    let preview := preview ++ (lit "   Time: " ++ interpolate event.startTime ++ lit " - " ++
      interpolate event.endTime ++ lit "\n")
    let preview := preview ++ (lit "   Category: " ++ interpolate event.category ++ lit "\n")
    let preview :=
      if truthy event.description then
        preview ++ (lit "   Description: " ++ str event.description ++ lit "\n")
      else preview
    let preview :=
      if truthy event.reminder && str event.reminder != lit "0" then
        let reminderText := getReminderText (str event.reminder)
        preview ++ (lit "   Reminder: " ++ reminderText ++ lit "\n")
      else preview
    let preview := preview ++ lit "\n"
    forEachPreview rest (index + 1) preview

/-- The argument `events` is absent for `undefined` or `null`; `maxEvents` is absent when
the argument is left out and then defaults to 5. -/
def generatePreview (events : Option (List Event)) (maxEvents : Option Nat) : JSString :=
  let maxEvents := maxEvents.getD 5
  match events with
  | none | some [] => lit "No events to preview"
  | some (e :: es) =>
    let events := e :: es
    let previewEvents := events.take maxEvents
    let preview := lit "Calendar Preview (" ++ lit (Nat.repr events.length) ++ lit " event" ++
      (if events.length ≠ 1 then lit "s" else lit "") ++ lit "):\n\n"
    let preview := forEachPreview previewEvents 0 preview
    let preview :=
      if events.length > maxEvents then
        preview ++ (lit "... and " ++ lit (Nat.repr (events.length - maxEvents)) ++
          lit " more event" ++ (if events.length - maxEvents ≠ 1 then lit "s" else lit ""))
      else preview
    preview

end ICSGenerator

/-- The text that `generatePreview` writes for the event at position `index`. -/
def previewEntry (event : Event) (index : Nat) : JSString :=
  lit (Nat.repr (index + 1)) ++ lit ". " ++ interpolate event.title ++ lit "\n" ++
  (lit "   Date: " ++ interpolate event.date ++ lit "\n") ++
  (lit "   Time: " ++ interpolate event.startTime ++ lit " - " ++ interpolate event.endTime ++
    lit "\n") ++
  (lit "   Category: " ++ interpolate event.category ++ lit "\n") ++
  (if truthy event.description then
    lit "   Description: " ++ str event.description ++ lit "\n" else []) ++
  (if truthy event.reminder ∧ str event.reminder ≠ lit "0" then
    lit "   Reminder: " ++ ICSGenerator.getReminderText (str event.reminder) ++ lit "\n"
   else []) ++
  lit "\n"

/-! ## Time values -/

/-- The time value that `sortEvents` reads for an event: that of
`new Date(a.date + 'T' + a.startTime)`, `none` for an invalid date. -/
def startValue (timeValue : JSString → Option Int) (event : Event) : Option Int :=
  timeValue (interpolate event.date ++ lit "T" ++ interpolate event.startTime)

/-- Whether both time values are valid and that of `a` is not greater than that of `b`. -/
def notAfter (timeValue : JSString → Option Int) (a b : Event) : Bool :=
  match startValue timeValue a, startValue timeValue b with
  | some x, some y => decide (x ≤ y)
  | _, _ => false

/-- Whether the start of `a` is not after the start of `b` when the dates and then the
start times are compared as strings. -/
def startsNoLater (a b : Event) : Bool :=
  strLt (str a.date) (str b.date) ||
    (str a.date == str b.date && !strLt (str b.startTime) (str a.startTime))

/-- Days from 1970-01-01 to a day of the Gregorian calendar. -/
def daysFromEpoch (y m d : Nat) : Int :=
  let year : Int := if m ≤ 2 then (y : Int) - 1 else y
  let era := year / 400
  let yearOfEra := year - era * 400
  let shifted : Int := if m > 2 then (m : Int) - 3 else (m : Int) + 9
  let dayOfYear := (153 * shifted + 2) / 5 + (d : Int) - 1
  let dayOfEra := yearOfEra * 365 + yearOfEra / 4 - yearOfEra / 100 + dayOfYear
  era * 146097 + dayOfEra - 719468

/-- The minutes from 1970-01-01T00:00 to the wall-clock reading `YYYY-MM-DDTHH:mm`, a
date-time form without offset, which `Date` reads as local time; `none` for any other
text. -/
def wallClockMinutes (s : JSString) : Option Int :=
  match s.map digitVal with
  | [some y1, some y2, some y3, some y4, none, some m1, some m2, none, some d1, some d2,
      none, some h1, some h2, none, some n1, some n2] =>
    let y := y1 * 1000 + y2 * 100 + y3 * 10 + y4
    let m := m1 * 10 + m2
    let d := d1 * 10 + d2
    let hour := h1 * 10 + h2
    let minute := n1 * 10 + n2
    if s.get? 4 == some 45 && s.get? 7 == some 45 && s.get? 10 == some 84 &&
        s.get? 13 == some 58 && 1 ≤ m && m ≤ 12 && 1 ≤ d && d ≤ daysInMonth y m &&
        (hour ≤ 23 && minute ≤ 59 || hour == 24 && minute == 0) then
      some ((daysFromEpoch y m d * 24 + (hour : Int)) * 60 + (minute : Int))
    else none
  | _ => none

/-- Time values on a host whose local time is UTC, for the texts that `wallClockMinutes`
reads. -/
def utcTimeValue (s : JSString) : Option Int :=
  (wallClockMinutes s).map fun w => w * 60000

/-- Time values on a host in New York under the rules of 2024, for the texts that
`wallClockMinutes` reads: local time is UTC-5 until the clocks go from 02:00 to 03:00
on 10 March, UTC-4 from then until they go back at 02:00 on 3 November, UTC-5 after
(the summer time of other years is left out).  A local time that the change skips or
repeats is read with the offset in force before the change, as the language
prescribes. -/
def newYorkTimeValue (s : JSString) : Option Int :=
  (wallClockMinutes s).map fun w =>
    if w < (wallClockMinutes (lit "2024-03-10T03:00")).getD 0 then (w + 300) * 60000
    else if w < (wallClockMinutes (lit "2024-11-03T02:00")).getD 0 then (w + 240) * 60000
    else (w + 300) * 60000

/-- An event on 10 March 2024 that starts at 02:45, inside the hour that the clocks of
New York skip. -/
def skippedHour : Event :=
  { title := some (lit "Night shift"), date := some (lit "2024-03-10"),
    startTime := some (lit "02:45"), endTime := some (lit "03:30") }

/-- An event on the same day that starts at 03:15. -/
def afterChange : Event :=
  { title := some (lit "Handover"), date := some (lit "2024-03-10"),
    startTime := some (lit "03:15"), endTime := some (lit "04:00") }

/-! ## JSON text -/

def isHighSurrogate (c : Nat) : Bool := 55296 ≤ c && c ≤ 56319

def isLowSurrogate (c : Nat) : Bool := 56320 ≤ c && c ≤ 57343

/-- The code unit of a hexadecimal digit, in lower case. -/
def hexDigit (n : Nat) : Nat := if n < 10 then 48 + n else 87 + n

/-- The escape `\uXXXX` of a code unit. -/
def unicodeEscape (c : Nat) : JSString :=
  [92, 117, hexDigit (c / 4096 % 16), hexDigit (c / 256 % 16), hexDigit (c / 16 % 16),
    hexDigit (c % 16)]

/-- What `JSON.stringify` writes for one code unit that is not part of a surrogate
pair: a short escape, a `\uXXXX` escape for the other control characters and for a
lone surrogate, the code unit itself otherwise. -/
def quoteUnit (c : Nat) : JSString :=
  if c = 8 then [92, 98]
  else if c = 9 then [92, 116]
  else if c = 10 then [92, 110]
  else if c = 12 then [92, 102]
  else if c = 13 then [92, 114]
  else if c = 34 then [92, 34]
  else if c = 92 then [92, 92]
  else if c < 32 || isHighSurrogate c || isLowSurrogate c then unicodeEscape c
  else [c]

/-- The text of a string between its quotes; a surrogate pair is copied. -/
def quoteUnits : JSString → JSString
  | [] => []
  | [c] => quoteUnit c
  | c :: d :: rest =>
    if isHighSurrogate c && isLowSurrogate d then c :: d :: quoteUnits rest
    else quoteUnit c ++ quoteUnits (d :: rest)

/-- The operation QuoteJSONString of `JSON.stringify`. -/
def quoteJSONString (s : JSString) : JSString :=
  [34] ++ quoteUnits s ++ [34]

/-- The member that `JSON.stringify`, with an indentation, writes for a field: nothing
for an absent field. -/
def jsonProperty (key : JSString) (value : Option JSString) : List JSString :=
  match value with
  | some v => [quoteJSONString key ++ lit ": " ++ quoteJSONString v]
  | none => []

/-- The texts joined by a separator. -/
def joinWith (separator : JSString) : List JSString → JSString
  | [] => []
  | [x] => x
  | x :: y :: rest => x ++ separator ++ joinWith separator (y :: rest)

/-- What `JSON.stringify(value, null, 2)` writes for an event record inside an array. -/
def stringifyEvent (event : Event) : JSString :=
  let properties :=
    jsonProperty (lit "title") event.title ++ jsonProperty (lit "date") event.date ++
    jsonProperty (lit "startTime") event.startTime ++
    jsonProperty (lit "endTime") event.endTime ++
    jsonProperty (lit "category") event.category ++
    jsonProperty (lit "description") event.description ++
    jsonProperty (lit "reminder") event.reminder
  if properties.isEmpty then lit "\x7b\x7d"
  else lit "\x7b\n    " ++ joinWith (lit ",\n    ") properties ++ lit "\n  \x7d"

/-- The built-in `JSON.stringify(events, null, 2)` on an array of event records. -/
def jsonStringify (events : List Event) : JSString :=
  if events.isEmpty then lit "[]"
  else lit "[\n  " ++ joinWith (lit ",\n  ") (events.map stringifyEvent) ++ lit "\n]"

def isJsonSpace (c : Nat) : Bool := c == 9 || c == 10 || c == 13 || c == 32

def skipSpace (s : JSString) : JSString := s.dropWhile isJsonSpace

def hexValue (c : Nat) : Option Nat :=
  if 48 ≤ c ∧ c ≤ 57 then some (c - 48)
  else if 97 ≤ c ∧ c ≤ 102 then some (c - 87)
  else if 65 ≤ c ∧ c ≤ 70 then some (c - 55)
  else none

/-- The code unit that the escape of a backslash and `c` denotes. -/
def escapeValue (c : Nat) : Option Nat :=
  if c = 34 then some 34
  else if c = 92 then some 92
  else if c = 47 then some 47
  else if c = 98 then some 8
  else if c = 102 then some 12
  else if c = 110 then some 10
  else if c = 114 then some 13
  else if c = 116 then some 9
  else none

/-- Reads a JSON string after its opening quote: the string and the text after the
closing quote. -/
def parseChars : JSString → Option (JSString × JSString)
  | [] => none
  | c :: rest =>
    if c = 34 then some ([], rest)
    else if c = 92 then
      match rest with
      | 117 :: h1 :: h2 :: h3 :: h4 :: rest =>
        match hexValue h1, hexValue h2, hexValue h3, hexValue h4 with
        | some a, some b, some c, some d =>
          (parseChars rest).map fun p => ((a * 4096 + b * 256 + c * 16 + d) :: p.1, p.2)
        | _, _, _, _ => none
      | e :: rest =>
        match escapeValue e with
        | some u => (parseChars rest).map fun p => (u :: p.1, p.2)
        | none => none
      | [] => none
    else if c < 32 then none
    else (parseChars rest).map fun p => (c :: p.1, p.2)

/-- The decimal digits at the start of a text, and the rest. -/
def spanDigits (s : JSString) : JSString × JSString :=
  s.span fun c => 48 ≤ c && c ≤ 57

/-- Reads a JSON number: its text and the text after it. -/
def parseNumber (s : JSString) : Option (JSString × JSString) :=
  let (sign, s) := if s.head? = some 45 then ([45], s.drop 1) else ([], s)
  let whole :=
    match s with
    | 48 :: rest => some ([48], rest)
    | _ => if (spanDigits s).1.isEmpty then none else some (spanDigits s)
  match whole with
  | none => none
  | some (whole, s) =>
    let fraction :=
      match s with
      | 46 :: rest =>
        if (spanDigits rest).1.isEmpty then none
        else some (46 :: (spanDigits rest).1, (spanDigits rest).2)
      | _ => some ([], s)
    match fraction with
    | none => none
    | some (fraction, s) =>
      let exponent :=
        if s.head? = some 101 ∨ s.head? = some 69 then
          let t := s.drop 1
          let (mark, t) :=
            if t.head? = some 43 ∨ t.head? = some 45 then (t.take 1, t.drop 1) else ([], t)
          if (spanDigits t).1.isEmpty then none
          else some (s.take 1 ++ mark ++ (spanDigits t).1, (spanDigits t).2)
        else some ([], s)
      match exponent with
      | none => none
      | some (exponent, s) => some (sign ++ whole ++ fraction ++ exponent, s)

mutual

/-- Reads one JSON value: the value and the text after it. -/
def parseValue : Nat → JSString → Option (Json × JSString)
  | 0, _ => none
  | fuel + 1, input =>
    match skipSpace input with
    | [] => none
    | c :: rest =>
      if c = 34 then (parseChars rest).map fun p => (Json.string p.1, p.2)
      else if c = 91 then
        if (skipSpace rest).head? = some 93 then some (Json.array [], (skipSpace rest).drop 1)
        else (parseElements fuel rest).map fun p => (Json.array p.1, p.2)
      else if c = 123 then
        if (skipSpace rest).head? = some 125 then
          some (Json.object [], (skipSpace rest).drop 1)
        else (parseMembers fuel rest).map fun p => (Json.object p.1, p.2)
      else if (lit "true").isPrefixOf (c :: rest) then some (Json.bool true, rest.drop 3)
      else if (lit "false").isPrefixOf (c :: rest) then some (Json.bool false, rest.drop 4)
      else if (lit "null").isPrefixOf (c :: rest) then some (Json.null, rest.drop 3)
      else (parseNumber (c :: rest)).map fun p => (Json.number p.1, p.2)

/-- Reads the elements of an array up to its closing bracket. -/
def parseElements : Nat → JSString → Option (List Json × JSString)
  | 0, _ => none
  | fuel + 1, input =>
    match parseValue fuel input with
    | none => none
    | some (value, rest) =>
      match skipSpace rest with
      | [] => none
      | c :: rest =>
        if c = 44 then (parseElements fuel rest).map fun p => (value :: p.1, p.2)
        else if c = 93 then some ([value], rest)
        else none

/-- Reads the members of an object up to its closing brace. -/
def parseMembers : Nat → JSString → Option (List (JSString × Json) × JSString)
  | 0, _ => none
  | fuel + 1, input =>
    match skipSpace input with
    | [] => none
    | q :: rest =>
      if q = 34 then
        match parseChars rest with
        | none => none
        | some (key, rest) =>
          match skipSpace rest with
          | [] => none
          | c :: rest =>
            if c = 58 then
              match parseValue fuel rest with
              | none => none
              | some (value, rest) =>
                match skipSpace rest with
                | [] => none
                | c :: rest =>
                  if c = 44 then
                    (parseMembers fuel rest).map fun p => ((key, value) :: p.1, p.2)
                  else if c = 125 then some ([(key, value)], rest)
                  else none
            else none
      else none

end

/-- The built-in `JSON.parse(text)`: `none` when it throws a SyntaxError. -/
def jsonParse (text : JSString) : Option Json :=
  match parseValue (2 * text.length + 2) text with
  | some (value, rest) => if skipSpace rest = [] then some value else none
  | none => none

/-- The events of a parsed array, when the value is one. -/
def Json.events : Json → Option (List Event)
  | .array items => some (items.map Json.toEvent)
  | _ => none

/-- The member that a field is read back as from the text of `jsonProperty`. -/
def jsonMember (key : JSString) (value : Option JSString) : List (JSString × Json) :=
  match value with
  | some v => [(key, Json.string v)]
  | none => []

/-- The value that the text `stringifyEvent event` denotes. -/
def Json.ofEvent (event : Event) : Json :=
  Json.object
    (jsonMember (lit "title") event.title ++ jsonMember (lit "date") event.date ++
     jsonMember (lit "startTime") event.startTime ++
     jsonMember (lit "endTime") event.endTime ++
     jsonMember (lit "category") event.category ++
     jsonMember (lit "description") event.description ++
     jsonMember (lit "reminder") event.reminder)

/-- The fields that an event record holds, with their names, in the order in which
`stringifyEvent` writes them. -/
def presentFields (event : Event) : List (JSString × JSString) :=
  (event.title.toList.map fun v => (lit "title", v)) ++
  (event.date.toList.map fun v => (lit "date", v)) ++
  (event.startTime.toList.map fun v => (lit "startTime", v)) ++
  (event.endTime.toList.map fun v => (lit "endTime", v)) ++
  (event.category.toList.map fun v => (lit "category", v)) ++
  (event.description.toList.map fun v => (lit "description", v)) ++
  (event.reminder.toList.map fun v => (lit "reminder", v))

/-! ## Document structure -/

namespace ICSGenerator

theorem forEachEvent_eq (h : Host) (t : JSString) (events : List Event) (i : Nat)
    (ics : JSString) :
    forEachEvent h t events i ics =
      ics ++ ((events.enumFrom i).filterMap
        fun p => (generateVEvent h p.2 p.1 t).toOption).flatten := by
  induction events generalizing i ics with
  | nil => simp [forEachEvent]
  | cons e es ih =>
    rw [forEachEvent]
    cases hg : generateVEvent h e i t with
    | error m => simp [ih, List.enumFrom, hg, Except.toOption]
    | ok b => simp [ih, List.enumFrom, hg, Except.toOption]

theorem generateVEvent_ok_iff (h : Host) (e : Event) (i : Nat) (t : JSString) :
    (∃ b, generateVEvent h e i t = .ok b) ↔ validateEvent h e = .ok () := by
  unfold generateVEvent
  cases hv : validateEvent h e with
  | error m => simp
  | ok u => simp

theorem length_blocks (h : Host) (t : JSString) (events : List Event) (i : Nat) :
    ((events.enumFrom i).filterMap
        fun p => (generateVEvent h p.2 p.1 t).toOption).length =
      (events.filter fun e => (validateEvent h e).toBool).length := by
  induction events generalizing i with
  | nil => simp
  | cons e es ih =>
    have hiff := generateVEvent_ok_iff h e i t
    cases hg : generateVEvent h e i t with
    | error m =>
      cases hv : validateEvent h e with
      | error m2 =>
        simp only [List.enumFrom, List.filterMap_cons, hg, Except.toOption, List.filter_cons,
          hv, Except.toBool]
        simpa [Except.toOption, Except.toBool] using ih (i + 1)
      | ok u => exact absurd (hiff.mpr hv) (by simp [hg])
    | ok b =>
      have hv : validateEvent h e = .ok () := hiff.mp ⟨b, hg⟩
      simp only [List.enumFrom, List.filterMap_cons, hg, Except.toOption, List.filter_cons,
        hv, Except.toBool]
      simpa [Except.toOption, Except.toBool] using ih (i + 1)

end ICSGenerator

/-- C1: for a non-empty array of events and generation timestamp `t`, `generateICS`
returns the five header lines, then in input order the block
`generateVEvent(e_i, i, t)` of each event that passes the encoder's `validateEvent`
(and nothing for the others), then `END:VCALENDAR`; `generateVEvent` yields a block
exactly for the events that pass `validateEvent`, so the number of blocks is the
number of valid events. -/
theorem generateICS_skips_invalid_events (h : Host) (events : List Event) (t : JSString)
    (hne : events ≠ []) :
    ∃ blocks : List JSString,
      ICSGenerator.generateICS h (.array events) t =
        .ok (calendarHeader ++ blocks.flatten ++ lit "END:VCALENDAR\r\n") ∧
      blocks = events.enum.filterMap
        (fun p => (ICSGenerator.generateVEvent h p.2 p.1 t).toOption) ∧
      (∀ e i, (∃ b, ICSGenerator.generateVEvent h e i t = .ok b) ↔
        ICSGenerator.validateEvent h e = .ok ()) ∧
      blocks.length = (events.filter fun e => (ICSGenerator.validateEvent h e).toBool).length := by
  refine ⟨_, ?_, rfl, fun e i => ICSGenerator.generateVEvent_ok_iff h e i t, ?_⟩
  · cases events with
    | nil => exact absurd rfl hne
    | cons e es =>
      simp only [ICSGenerator.generateICS, ICSGenerator.forEachEvent_eq, List.enum]
      have hh : lit "BEGIN:VCALENDAR\r\n" ++ lit "VERSION:2.0\r\n" ++
          (lit "PRODID:" ++ ICSGenerator.productId ++ lit "\r\n") ++
          lit "CALSCALE:GREGORIAN\r\n" ++ lit "METHOD:PUBLISH\r\n" = calendarHeader := by
        decide
      rw [hh]
  · exact ICSGenerator.length_blocks h t events 0

/-- Witness for C1: the batch of three candidates, one ending before it starts, gives
a document with two blocks. -/
theorem generateICS_skips_invalid_events_witness :
    batchOfThree ≠ [] ∧
    ∃ blocks : List JSString,
      ICSGenerator.generateICS asciiHost (.array batchOfThree) (lit "20240301T120000Z") =
        .ok (calendarHeader ++ blocks.flatten ++ lit "END:VCALENDAR\r\n") ∧
      blocks.length = 2 := by
  refine ⟨by simp [batchOfThree], ?_⟩
  obtain ⟨blocks, h1, _, _, h4⟩ :=
    generateICS_skips_invalid_events asciiHost batchOfThree (lit "20240301T120000Z")
      (by simp [batchOfThree])
  refine ⟨blocks, h1, ?_⟩
  rw [h4]
  decide

/-- C2: `generateICS` throws 'No events provided for ICS generation' exactly when its
argument is `undefined`, `null`, not an array, or an empty array, and returns a
document exactly when it is a non-empty array. -/
theorem generateICS_fails_iff_no_events (h : Host) (events : ICSGenerator.Events)
    (t : JSString) :
    (ICSGenerator.generateICS h events t =
        .error (lit "No events provided for ICS generation") ↔
      events = .undefined ∨ events = .null ∨ events = .nonArray ∨ events = .array []) ∧
    ((∃ doc, ICSGenerator.generateICS h events t = .ok doc) ↔
      ∃ e es, events = .array (e :: es)) ∧
    ((∃ msg, ICSGenerator.generateICS h events t = .error msg) ↔
      ICSGenerator.generateICS h events t =
        .error (lit "No events provided for ICS generation")) := by
  cases events with
  | undefined => simp [ICSGenerator.generateICS]
  | null => simp [ICSGenerator.generateICS]
  | nonArray => simp [ICSGenerator.generateICS]
  | array es =>
    cases es with
    | nil => simp [ICSGenerator.generateICS]
    | cons e es => simp [ICSGenerator.generateICS]

/-- C3, at the failing input: the single valid event `categoryWithBlockLine` gives a
document with two lines `BEGIN:VEVENT`, because the category is written unescaped. -/
theorem generateICS_category_adds_begin_line :
    ICSGenerator.validateEvent asciiHost categoryWithBlockLine = .ok () ∧
    ∃ doc, ICSGenerator.generateICS asciiHost (.array [categoryWithBlockLine])
        (lit "20240301T120000Z") = .ok doc ∧
      (crlfLines doc).count (lit "BEGIN:VEVENT") = 2 ∧
      (crlfLines doc).count (lit "END:VEVENT") = 1 := by
  refine ⟨rfl, _, rfl, by decide, by decide⟩

/-- C4, at the failing input: the document of the single valid event
`categoryWithLineFeed` contains a line feed that no carriage return precedes. -/
theorem generateICS_category_bare_line_feed :
    ICSGenerator.validateEvent asciiHost categoryWithLineFeed = .ok () ∧
    ∃ doc before after, ICSGenerator.generateICS asciiHost (.array [categoryWithLineFeed])
        (lit "20240301T120000Z") = .ok doc ∧
      doc = before ++ lit "CATEGORIES:A\nB\r\n" ++ after ∧
      crlfOnly doc = false := by
  refine ⟨rfl, _, lit "BEGIN:VCALENDAR\r\nVERSION:2.0\r\nPRODID:-//AI Scheduler//AI Scheduler 1.0//EN\r\nCALSCALE:GREGORIAN\r\nMETHOD:PUBLISH\r\nBEGIN:VEVENT\r\nUID:event-0-20240301T120000Z@aischeduler.com\r\nDTSTAMP:20240301T120000Z\r\nDTSTART:20240301T090000\r\nDTEND:20240301T091500\r\nSUMMARY:Standup\r\n",
    lit "BEGIN:VALARM\r\nTRIGGER:-PT15M\r\nACTION:DISPLAY\r\nDESCRIPTION:Reminder: Standup\r\nEND:VALARM\r\nEND:VEVENT\r\nEND:VCALENDAR\r\n",
    rfl, rfl, rfl⟩

namespace EventManager

theorem errors_eq (h : Host) (event : Event) :
    (validateEvent h event).errors =
      (if !truthy event.title || trim (str event.title) == [] then
        [lit "Event title is required"] else []) ++
      ((if !truthy event.date then [lit "Event date is required"]
        else if !isValidDate h (str event.date) then [lit "Invalid date format"] else []) ++
      ((if !truthy event.startTime then [lit "Start time is required"]
        else if !isValidTime (str event.startTime) then [lit "Invalid start time format"]
        else []) ++
      ((if !truthy event.endTime then [lit "End time is required"]
        else if !isValidTime (str event.endTime) then [lit "Invalid end time format"]
        else []) ++
      (if truthy event.startTime && truthy event.endTime &&
          strGe (str event.startTime) (str event.endTime) then
        [lit "End time must be after start time"] else [])))) := by
  unfold validateEvent
  generalize (!truthy event.title || trim (str event.title) == []) = c1
  generalize (!truthy event.date) = c2
  generalize (!isValidDate h (str event.date)) = c3
  generalize (!truthy event.startTime) = c4
  generalize (!isValidTime (str event.startTime)) = c5
  generalize (!truthy event.endTime) = c6
  generalize (!isValidTime (str event.endTime)) = c7
  generalize (truthy event.startTime && truthy event.endTime &&
          strGe (str event.startTime) (str event.endTime)) = c8
  generalize lit "Event title is required" = m1
  generalize lit "Event date is required" = m2
  generalize lit "Invalid date format" = m3
  generalize lit "Start time is required" = m4
  generalize lit "Invalid start time format" = m5
  generalize lit "End time is required" = m6
  generalize lit "Invalid end time format" = m7
  generalize lit "End time must be after start time" = m8
  cases c1 <;> cases c2 <;> cases c3 <;> cases c4 <;> cases c5 <;> cases c6 <;> cases c7 <;>
    cases c8 <;> rfl

theorem valid_iff (h : Host) (event : Event) :
    (validateEvent h event).valid = true ↔ (validateEvent h event).errors = [] := by
  have hv : (validateEvent h event).valid = ((validateEvent h event).errors.length == 0) := rfl
  rw [hv]
  cases (validateEvent h event).errors <;> simp

theorem collected {α : Type} (m1 m2 m3 m4 m5 m6 m7 m8 : α)
    (hnd : [m1, m2, m3, m4, m5, m6, m7, m8].Nodup) (c1 c2 c3 c4 c5 c6 c7 c8 : Bool)
    (errs : List α)
    (he : errs = (if c1 then [m1] else []) ++
      ((if c2 then [m2] else if c3 then [m3] else []) ++
      ((if c4 then [m4] else if c5 then [m5] else []) ++
      ((if c6 then [m6] else if c7 then [m7] else []) ++
      (if c8 then [m8] else []))))) :
    errs.Sublist [m1, m2, m3, m4, m5, m6, m7, m8] ∧
    (m1 ∈ errs ↔ c1 = true) ∧ (m2 ∈ errs ↔ c2 = true) ∧
    (m3 ∈ errs ↔ c2 = false ∧ c3 = true) ∧ (m4 ∈ errs ↔ c4 = true) ∧
    (m5 ∈ errs ↔ c4 = false ∧ c5 = true) ∧ (m6 ∈ errs ↔ c6 = true) ∧
    (m7 ∈ errs ↔ c6 = false ∧ c7 = true) ∧ (m8 ∈ errs ↔ c8 = true) := by
  subst he
  simp only [List.nodup_cons, List.mem_cons, List.mem_singleton, not_or, List.not_mem_nil,
    not_false_eq_true, List.nodup_nil, and_true] at hnd
  obtain ⟨⟨h12, h13, h14, h15, h16, h17, h18⟩, ⟨h23, h24, h25, h26, h27, h28⟩,
    ⟨h34, h35, h36, h37, h38⟩, ⟨h45, h46, h47, h48⟩, ⟨h56, h57, h58⟩, ⟨h67, h68⟩, h78⟩ := hnd
  have s1 : (if c1 then [m1] else []).Sublist [m1] := by cases c1 <;> simp
  have s2 : (if c2 then [m2] else if c3 then [m3] else []).Sublist [m2, m3] := by
    cases c2 <;> cases c3 <;> simp
  have s3 : (if c4 then [m4] else if c5 then [m5] else []).Sublist [m4, m5] := by
    cases c4 <;> cases c5 <;> simp
  have s4 : (if c6 then [m6] else if c7 then [m7] else []).Sublist [m6, m7] := by
    cases c6 <;> cases c7 <;> simp
  have s5 : (if c8 then [m8] else []).Sublist [m8] := by cases c8 <;> simp
  have g1 : ∀ x, x ∈ (if c1 then [m1] else []) ↔ (c1 = true ∧ x = m1) := by
    intro x; cases c1 <;> simp
  have g2 : ∀ x, x ∈ (if c2 then [m2] else if c3 then [m3] else []) ↔
      (c2 = true ∧ x = m2) ∨ (c2 = false ∧ c3 = true ∧ x = m3) := by
    intro x; cases c2 <;> cases c3 <;> simp
  have g3 : ∀ x, x ∈ (if c4 then [m4] else if c5 then [m5] else []) ↔
      (c4 = true ∧ x = m4) ∨ (c4 = false ∧ c5 = true ∧ x = m5) := by
    intro x; cases c4 <;> cases c5 <;> simp
  have g4 : ∀ x, x ∈ (if c6 then [m6] else if c7 then [m7] else []) ↔
      (c6 = true ∧ x = m6) ∨ (c6 = false ∧ c7 = true ∧ x = m7) := by
    intro x; cases c6 <;> cases c7 <;> simp
  have g5 : ∀ x, x ∈ (if c8 then [m8] else []) ↔ (c8 = true ∧ x = m8) := by
    intro x; cases c8 <;> simp
  refine ⟨s1.append (s2.append (s3.append (s4.append s5))), ?_, ?_, ?_, ?_, ?_, ?_, ?_, ?_⟩ <;>
    simp only [List.mem_append, g1, g2, g3, g4, g5] <;>
    simp [*, Ne.symm]

end EventManager

/-- C5: `EventManager.validateEvent` returns `valid = true` exactly when its error list
is empty; the list holds every applicable error, each exactly when its rule fires, in
rule order (title, date, start time, end time, ordering); for a candidate with no
fields the list is the four "required" errors. -/
theorem validateEvent_collects_every_error (h : Host) (event : Event) :
    ((EventManager.validateEvent h event).valid = true ↔
      (EventManager.validateEvent h event).errors = []) ∧
    (EventManager.validateEvent h event).errors.Sublist
      [lit "Event title is required", lit "Event date is required",
       lit "Invalid date format", lit "Start time is required",
       lit "Invalid start time format", lit "End time is required",
       lit "Invalid end time format", lit "End time must be after start time"] ∧
    (lit "Event title is required" ∈ (EventManager.validateEvent h event).errors ↔
      event.title = none ∨ trim (str event.title) = []) ∧
    (lit "Event date is required" ∈ (EventManager.validateEvent h event).errors ↔
      truthy event.date = false) ∧
    (lit "Invalid date format" ∈ (EventManager.validateEvent h event).errors ↔
      truthy event.date = true ∧ EventManager.isValidDate h (str event.date) = false) ∧
    (lit "Start time is required" ∈ (EventManager.validateEvent h event).errors ↔
      truthy event.startTime = false) ∧
    (lit "Invalid start time format" ∈ (EventManager.validateEvent h event).errors ↔
      truthy event.startTime = true ∧
        EventManager.isValidTime (str event.startTime) = false) ∧
    (lit "End time is required" ∈ (EventManager.validateEvent h event).errors ↔
      truthy event.endTime = false) ∧
    (lit "Invalid end time format" ∈ (EventManager.validateEvent h event).errors ↔
      truthy event.endTime = true ∧ EventManager.isValidTime (str event.endTime) = false) ∧
    (lit "End time must be after start time" ∈ (EventManager.validateEvent h event).errors ↔
      truthy event.startTime = true ∧ truthy event.endTime = true ∧
        strGe (str event.startTime) (str event.endTime) = true) ∧
    (EventManager.validateEvent h {}).errors =
      [lit "Event title is required", lit "Event date is required",
       lit "Start time is required", lit "End time is required"] := by
  obtain ⟨hs, h1, h2, h3, h4, h5, h6, h7, h8⟩ :=
    EventManager.collected _ _ _ _ _ _ _ _ (by decide) _ _ _ _ _ _ _ _ _
      (EventManager.errors_eq h event)
  refine ⟨EventManager.valid_iff h event, hs, ?_, ?_, ?_, ?_, ?_, ?_, ?_, ?_, rfl⟩
  · rw [h1]
    rcases ht : event.title with _ | ⟨_ | ⟨c, cs⟩⟩ <;> simp [truthy, str, trim]
  · rw [h2]; simp
  · rw [h3]; simp
  · rw [h4]; simp
  · rw [h5]; simp
  · rw [h6]; simp
  · rw [h7]; simp
  · rw [h8]; simp [and_assoc]

/-! ## The time pattern -/

namespace Regex

theorem mem_run_range {lo hi : Nat} {s r : JSString} :
    r ∈ run (range lo hi) s ↔ ∃ c, s = c :: r ∧ lo ≤ c ∧ c ≤ hi := by
  cases s with
  | nil => simp [run]
  | cons c cs =>
    simp only [run]
    split_ifs with hc
    · simp only [List.mem_singleton, List.cons.injEq]
      constructor
      · rintro rfl; exact ⟨c, ⟨rfl, rfl⟩, hc.1, hc.2⟩
      · rintro ⟨d, ⟨rfl, rfl⟩, _⟩; rfl
    · simp only [List.not_mem_nil, false_iff, not_exists, not_and]
      rintro d ⟨rfl, rfl⟩ h1 h2
      exact hc ⟨h1, h2⟩

theorem mem_run_seq {a b : Regex} {s r : JSString} :
    r ∈ run (seq a b) s ↔ ∃ m, m ∈ run a s ∧ r ∈ run b m := by
  simp [run]

theorem mem_run_alt {a b : Regex} {s r : JSString} :
    r ∈ run (alt a b) s ↔ r ∈ run a s ∨ r ∈ run b s := by
  simp [run]

theorem mem_run_opt {a : Regex} {s r : JSString} :
    r ∈ run (opt a) s ↔ r ∈ run a s ∨ r = s := by
  simp [run]

theorem mem_run_iff (r : Regex) (s rest : JSString) :
    rest ∈ run r s ↔ ∃ u, Matches r u ∧ s = u ++ rest := by
  induction r generalizing s rest with
  | range lo hi =>
    rw [mem_run_range]
    constructor
    · rintro ⟨c, rfl, hc⟩
      exact ⟨[c], ⟨c, rfl, hc⟩, rfl⟩
    · rintro ⟨u, ⟨c, rfl, hc⟩, rfl⟩
      exact ⟨c, rfl, hc⟩
  | seq a b iha ihb =>
    rw [mem_run_seq]
    constructor
    · rintro ⟨m, hm, hr⟩
      obtain ⟨u, hu, rfl⟩ := (iha _ _).mp hm
      obtain ⟨v, hv, rfl⟩ := (ihb _ _).mp hr
      exact ⟨u ++ v, ⟨u, v, rfl, hu, hv⟩, by simp⟩
    · rintro ⟨w, ⟨u, v, rfl, hu, hv⟩, rfl⟩
      exact ⟨v ++ rest, (iha _ _).mpr ⟨u, hu, by simp⟩, (ihb _ _).mpr ⟨v, hv, rfl⟩⟩
  | alt a b iha ihb =>
    rw [mem_run_alt, iha, ihb]
    constructor
    · rintro (⟨u, hu, rfl⟩ | ⟨u, hu, rfl⟩)
      · exact ⟨u, Or.inl hu, rfl⟩
      · exact ⟨u, Or.inr hu, rfl⟩
    · rintro ⟨u, hu | hu, rfl⟩
      · exact Or.inl ⟨u, hu, rfl⟩
      · exact Or.inr ⟨u, hu, rfl⟩
  | opt a iha =>
    rw [mem_run_opt, iha]
    constructor
    · rintro (⟨u, hu, rfl⟩ | rfl)
      · exact ⟨u, Or.inr hu, rfl⟩
      · exact ⟨[], Or.inl rfl, rfl⟩
    · rintro ⟨u, rfl | hu, rfl⟩
      · exact Or.inr rfl
      · exact Or.inl ⟨u, hu, rfl⟩

theorem test_iff {r : Regex} {s : JSString} : test r s = true ↔ [] ∈ run r s := by
  simp only [test, List.any_eq_true, List.isEmpty_iff]
  constructor
  · rintro ⟨x, hx, rfl⟩; exact hx
  · intro hx; exact ⟨[], hx, rfl⟩

theorem test_iff_matches (r : Regex) (s : JSString) : test r s = true ↔ Matches r s := by
  rw [test_iff, mem_run_iff]
  constructor
  · rintro ⟨u, hu, rfl⟩
    simpa using hu
  · intro hs
    exact ⟨s, hs, by simp⟩

end Regex

theorem timeRegex_test_iff_shape (s : JSString) :
    timeRegex.test s = true ↔
      ∃ m1 m2, 48 ≤ m1 ∧ m1 ≤ 53 ∧ 48 ≤ m2 ∧ m2 ≤ 57 ∧
        ((∃ a, s = [a, 58, m1, m2] ∧ 48 ≤ a ∧ a ≤ 57) ∨
         (∃ a b, s = [a, b, 58, m1, m2] ∧
           ((48 ≤ a ∧ a ≤ 49 ∧ 48 ≤ b ∧ b ≤ 57) ∨ (a = 50 ∧ 48 ≤ b ∧ b ≤ 51)))) := by
  simp only [Regex.test_iff, timeRegex, Regex.char, Regex.mem_run_seq, Regex.mem_run_alt,
    Regex.mem_run_opt, Regex.mem_run_range]
  constructor
  · rintro ⟨m, hm, n, ⟨c, rfl, hc1, hc2⟩, k, ⟨m1, rfl, hm1⟩, ⟨m2, rfl, hm2⟩⟩
    obtain rfl : c = 58 := by omega
    refine ⟨m1, m2, hm1.1, hm1.2, hm2.1, hm2.2, ?_⟩
    rcases hm with ⟨p, hp, b, rfl, hb⟩ | ⟨p, ⟨a, rfl, ha⟩, b, rfl, hb⟩
    · rcases hp with ⟨a, rfl, ha⟩ | rfl
      · exact Or.inr ⟨a, b, rfl, Or.inl ⟨ha.1, ha.2, hb.1, hb.2⟩⟩
      · exact Or.inl ⟨b, rfl, hb.1, hb.2⟩
    · exact Or.inr ⟨a, b, rfl, Or.inr ⟨by omega, hb.1, hb.2⟩⟩
  · rintro ⟨m1, m2, h1, h2, h3, h4, ⟨a, rfl, ha⟩ | ⟨a, b, rfl, ⟨ha1, ha2, hb1, hb2⟩ | ⟨rfl, hb1, hb2⟩⟩⟩
    · exact ⟨_, Or.inl ⟨_, Or.inr rfl, a, rfl, ha⟩, _, ⟨58, rfl, le_refl _, le_refl _⟩, _,
        ⟨m1, rfl, h1, h2⟩, ⟨m2, rfl, h3, h4⟩⟩
    · exact ⟨_, Or.inl ⟨_, Or.inl ⟨a, rfl, ha1, ha2⟩, b, rfl, hb1, hb2⟩, _,
        ⟨58, rfl, le_refl _, le_refl _⟩, _, ⟨m1, rfl, h1, h2⟩, ⟨m2, rfl, h3, h4⟩⟩
    · exact ⟨_, Or.inr ⟨_, ⟨50, rfl, le_refl _, le_refl _⟩, b, rfl, hb1, hb2⟩, _,
        ⟨58, rfl, le_refl _, le_refl _⟩, _, ⟨m1, rfl, h1, h2⟩, ⟨m2, rfl, h3, h4⟩⟩

theorem readClock_four (a m1 m2 : Nat) :
    readClock [a, 58, m1, m2] =
      if 48 ≤ a ∧ a ≤ 57 ∧ 48 ≤ m1 ∧ m1 ≤ 57 ∧ 48 ≤ m2 ∧ m2 ≤ 57 then
        some (a - 48, (m1 - 48) * 10 + (m2 - 48)) else none := by
  simp only [readClock, digitVal]
  split_ifs <;> first | rfl | (exfalso; omega)

theorem readClock_five (a b m1 m2 : Nat) :
    readClock [a, b, 58, m1, m2] =
      if 48 ≤ a ∧ a ≤ 57 ∧ 48 ≤ b ∧ b ≤ 57 ∧ 48 ≤ m1 ∧ m1 ≤ 57 ∧ 48 ≤ m2 ∧ m2 ≤ 57 then
        some ((a - 48) * 10 + (b - 48), (m1 - 48) * 10 + (m2 - 48)) else none := by
  simp only [readClock, digitVal]
  split_ifs <;> first | rfl | (exfalso; omega)

theorem readClock_shape {s : JSString} {p : Nat × Nat} (hp : readClock s = some p) :
    (∃ a m1 m2, s = [a, 58, m1, m2]) ∨ (∃ a b m1 m2, s = [a, b, 58, m1, m2]) := by
  unfold readClock at hp
  split at hp
  · exact Or.inl ⟨_, _, _, rfl⟩
  · exact Or.inr ⟨_, _, _, _, rfl⟩
  · exact absurd hp (by simp)

theorem timeRegex_test_iff_readClock (s : JSString) :
    timeRegex.test s = true ↔
      ∃ hr mn, readClock s = some (hr, mn) ∧ hr ≤ 23 ∧ mn ≤ 59 := by
  rw [timeRegex_test_iff_shape]
  constructor
  · rintro ⟨m1, m2, h1, h2, h3, h4, ⟨a, rfl, ha⟩ | ⟨a, b, rfl, hab⟩⟩
    · rw [readClock_four, if_pos (by omega)]
      exact ⟨_, _, rfl, by omega, by omega⟩
    · rw [readClock_five, if_pos (by omega)]
      exact ⟨_, _, rfl, by omega, by omega⟩
  · rintro ⟨hr, mn, hrd, hhr, hmn⟩
    rcases readClock_shape hrd with ⟨a, m1, m2, rfl⟩ | ⟨a, b, m1, m2, rfl⟩
    · rw [readClock_four] at hrd
      split_ifs at hrd with hc
      simp only [Option.some.injEq, Prod.mk.injEq] at hrd
      exact ⟨m1, m2, by omega, by omega, by omega, by omega, Or.inl ⟨a, rfl, by omega, by omega⟩⟩
    · rw [readClock_five] at hrd
      split_ifs at hrd with hc
      simp only [Option.some.injEq, Prod.mk.injEq] at hrd
      refine ⟨m1, m2, by omega, by omega, by omega, by omega, Or.inr ⟨a, b, rfl, ?_⟩⟩
      omega

theorem strLt_irrefl (s : JSString) : strLt s s = false := by
  induction s with
  | nil => rfl
  | cons a as ih => simp [strLt, ih]

theorem strLt_cons_iff (a b : Nat) (as bs : JSString) :
    strLt (a :: as) (b :: bs) = true ↔ a < b ∨ (a = b ∧ strLt as bs = true) := by
  simp only [strLt]
  split_ifs with h1 h2
  · simp [h1]
  · have : a ≠ b := by omega
    simp [h1, this]
  · have : a = b := by omega
    simp [h1, this]

theorem strLt_nil_iff : strLt [] [] = true ↔ False := by
  simp [strLt]

theorem minutesOfDay_four {a m1 m2 : Nat} (h : 48 ≤ a ∧ a ≤ 57 ∧ 48 ≤ m1 ∧ m1 ≤ 57 ∧ 48 ≤ m2 ∧ m2 ≤ 57) :
    minutesOfDay [a, 58, m1, m2] = some ((a - 48) * 60 + ((m1 - 48) * 10 + (m2 - 48))) := by
  rw [minutesOfDay, readClock_four, if_pos h]; rfl

theorem minutesOfDay_five {a b m1 m2 : Nat}
    (h : 48 ≤ a ∧ a ≤ 57 ∧ 48 ≤ b ∧ b ≤ 57 ∧ 48 ≤ m1 ∧ m1 ≤ 57 ∧ 48 ≤ m2 ∧ m2 ≤ 57) :
    minutesOfDay [a, b, 58, m1, m2] =
      some (((a - 48) * 10 + (b - 48)) * 60 + ((m1 - 48) * 10 + (m2 - 48))) := by
  rw [minutesOfDay, readClock_five, if_pos h]; rfl

theorem strLt_iff_minutes {s e : JSString} (hs : timeRegex.test s = true)
    (he : timeRegex.test e = true) (hlen : s.length = e.length) :
    ∃ ms me, minutesOfDay s = some ms ∧ minutesOfDay e = some me ∧
      (strLt s e = true ↔ ms < me) := by
  rw [timeRegex_test_iff_shape] at hs he
  obtain ⟨m1, m2, h1, h2, h3, h4, ⟨a, rfl, ha⟩ | ⟨a, b, rfl, hab⟩⟩ := hs <;>
  obtain ⟨n1, n2, k1, k2, k3, k4, ⟨c, rfl, hc⟩ | ⟨c, d, rfl, hcd⟩⟩ := he
  · refine ⟨_, _, minutesOfDay_four (by omega), minutesOfDay_four (by omega), ?_⟩
    simp only [strLt_cons_iff, strLt_nil_iff, and_false, or_false, true_and, Nat.lt_irrefl,
      false_or]
    constructor <;> intro hx <;> omega
  · simp at hlen
  · simp at hlen
  · refine ⟨_, _, minutesOfDay_five (by omega), minutesOfDay_five (by omega), ?_⟩
    simp only [strLt_cons_iff, strLt_nil_iff, and_false, or_false, true_and, Nat.lt_irrefl,
      false_or]
    constructor <;> intro hx <;> omega

namespace EventManager

theorem single_eq_nil {α : Type} (c : Bool) (m : α) :
    (if c then [m] else []) = [] ↔ c = false := by
  cases c <;> simp

theorem double_eq_nil {α : Type} (c d : Bool) (m n : α) :
    (if c then [m] else if d then [n] else []) = [] ↔ c = false ∧ d = false := by
  cases c <;> cases d <;> simp

theorem valid_iff_rules (h : Host) (event : Event) :
    (validateEvent h event).valid = true ↔
      (truthy event.title = true ∧ trim (str event.title) ≠ []) ∧
      (truthy event.date = true ∧ isValidDate h (str event.date) = true) ∧
      (truthy event.startTime = true ∧ isValidTime (str event.startTime) = true) ∧
      (truthy event.endTime = true ∧ isValidTime (str event.endTime) = true) ∧
      strLt (str event.startTime) (str event.endTime) = true := by
  rw [valid_iff, errors_eq]
  simp only [List.append_eq_nil, single_eq_nil, double_eq_nil, strGe]
  cases truthy event.title <;> cases truthy event.date <;> cases truthy event.startTime <;>
    cases truthy event.endTime <;> simp

end EventManager

namespace ICSGenerator

theorem validateEvent_ok_iff (h : Host) (event : Event) :
    validateEvent h event = .ok () ↔
      (truthy event.title = true ∧ trim (str event.title) ≠ []) ∧
      (truthy event.date = true ∧ isValidDate h (str event.date) = true) ∧
      (truthy event.startTime = true ∧ isValidTime (str event.startTime) = true) ∧
      (truthy event.endTime = true ∧ isValidTime (str event.endTime) = true) ∧
      strLt (str event.startTime) (str event.endTime) = true := by
  unfold validateEvent
  split_ifs with h1 <;> simp_all [strGe]
  rcases h1 with h1 | h1 <;> simp [h1]

end ICSGenerator

theorem truthy_of_test {s : JSString} (hs : timeRegex.test s = true) :
    truthy (some s) = true := by
  rw [timeRegex_test_iff_shape] at hs
  obtain ⟨m1, m2, -, -, -, -, ⟨a, rfl, -⟩ | ⟨a, b, rfl, -⟩⟩ := hs <;> rfl

theorem truthy_eq_some {v : Option JSString} (hv : truthy v = true) : v = some (str v) := by
  rcases v with _ | ⟨_ | ⟨c, cs⟩⟩
  · simp [truthy] at hv
  · simp [truthy] at hv
  · rfl

/-- C6, at the failing input: for the candidate `yearMonthDate`, whose date is
'2024-03', `EventManager.validateEvent` reports no error on any host while
`ICSGenerator.validateEvent` throws 'Invalid date format'. -/
theorem validators_disagree_on_year_month_date :
    ∀ h : Host,
      (EventManager.validateEvent h yearMonthDate).valid = true ∧
      (EventManager.validateEvent h yearMonthDate).errors = [] ∧
      ICSGenerator.validateEvent h yearMonthDate = .error (lit "Invalid date format") :=
  fun _ => ⟨rfl, rfl, rfl⟩

/-- C7, at the failing input: the date '2024' is not of the form YYYY-MM-DD, yet on
every host `EventManager.isValidDate` accepts it and `EventManager.validateEvent`
reports no 'Invalid date format' for the candidate `yearOnlyDate`. -/
theorem validateEvent_accepts_year_only_date :
    ∀ h : Host,
      yearOnlyDate.date = some (lit "2024") ∧
      dateRegex.test (lit "2024") = false ∧
      EventManager.isValidDate h (lit "2024") = true ∧
      (EventManager.validateEvent h yearOnlyDate).errors = [] :=
  fun _ => ⟨rfl, rfl, rfl, rfl⟩

/-- C8, at the failing input: the candidate `endsBeforeStart`, from '10:00' to '9:30',
passes both validators although it ends before it starts: its start is 600 minutes
after midnight and its end 570, and its two times are not of one width. -/
theorem validateEvent_accepts_end_before_start :
    (EventManager.validateEvent asciiHost endsBeforeStart).valid = true ∧
    ICSGenerator.validateEvent asciiHost endsBeforeStart = .ok () ∧
    endsBeforeStart.startTime = some (lit "10:00") ∧
    endsBeforeStart.endTime = some (lit "9:30") ∧
    (lit "10:00").length = 5 ∧ (lit "9:30").length = 4 ∧
    minutesOfDay (lit "10:00") = some 600 ∧ minutesOfDay (lit "9:30") = some 570 :=
  ⟨rfl, rfl, rfl, rfl, rfl, rfl, rfl, rfl⟩

/-- Where the comparison of the validator is right: for every event that passes
`EventManager.validateEvent`, startTime and endTime both match the time pattern and
startTime is below endTime in string order; when the two strings have the same length
the start is strictly earlier in minutes since midnight.  For every pair of accepted
times of the same length the comparison `startTime >= endTime` holds exactly when the
start is not earlier than the end. -/
theorem validated_times_ordered (h : Host) (event : Event)
    (hv : (EventManager.validateEvent h event).valid = true) :
    (∃ s e, event.startTime = some s ∧ event.endTime = some e ∧
      EventManager.isValidTime s = true ∧ EventManager.isValidTime e = true ∧
      strLt s e = true ∧
      (s.length = e.length →
        ∃ ms me, minutesOfDay s = some ms ∧ minutesOfDay e = some me ∧ ms < me)) ∧
    (∀ s e, EventManager.isValidTime s = true → EventManager.isValidTime e = true →
      s.length = e.length →
        ∃ ms me, minutesOfDay s = some ms ∧ minutesOfDay e = some me ∧
          (strGe s e = true ↔ me ≤ ms)) := by
  obtain ⟨-, -, ⟨hs1, hs2⟩, ⟨he1, he2⟩, hlt⟩ := (EventManager.valid_iff_rules h event).mp hv
  refine ⟨⟨str event.startTime, str event.endTime, truthy_eq_some hs1, truthy_eq_some he1,
    hs2, he2, hlt, fun hlen => ?_⟩, fun s e hs he hlen => ?_⟩
  · obtain ⟨ms, me, h1, h2, h3⟩ := strLt_iff_minutes hs2 he2 hlen
    exact ⟨ms, me, h1, h2, h3.mp hlt⟩
  · obtain ⟨ms, me, h1, h2, h3⟩ := strLt_iff_minutes hs he hlen
    refine ⟨ms, me, h1, h2, ?_⟩
    cases hl : strLt s e
    · have : ¬ ms < me := fun hc => by simp [h3.mpr hc] at hl
      simp only [strGe, hl, Bool.not_false, true_iff]
      omega
    · have : ms < me := h3.mp hl
      simp only [strGe, hl, Bool.not_true, Bool.false_eq_true, false_iff]
      omega

/-- An instance of it: the stand-up from '09:00' to '09:15'. -/
theorem validated_times_ordered_witness :
    (EventManager.validateEvent asciiHost standup).valid = true ∧
    ((∃ s e, standup.startTime = some s ∧ standup.endTime = some e ∧
      EventManager.isValidTime s = true ∧ EventManager.isValidTime e = true ∧
      strLt s e = true ∧
      (s.length = e.length →
        ∃ ms me, minutesOfDay s = some ms ∧ minutesOfDay e = some me ∧ ms < me)) ∧
    (∀ s e, EventManager.isValidTime s = true → EventManager.isValidTime e = true →
      s.length = e.length →
        ∃ ms me, minutesOfDay s = some ms ∧ minutesOfDay e = some me ∧
          (strGe s e = true ↔ me ≤ ms))) :=
  ⟨rfl, validated_times_ordered asciiHost standup rfl⟩

namespace ICSGenerator

theorem firstFailure {α : Type} (m1 m2 m3 m4 m5 m6 m7 m8 : α)
    (hnd : [m1, m2, m3, m4, m5, m6, m7, m8].Nodup) (c1 c2 c3 c4 c5 c6 c7 c8 : Bool)
    (r : Except α Unit)
    (hr : r = if c1 then .error m1 else if c2 then .error m2 else if c3 then .error m3
      else if c4 then .error m4 else if c5 then .error m5 else if c6 then .error m6
      else if c7 then .error m7 else if c8 then .error m8 else .ok ()) :
    (r = .error m5 ↔
      c1 = false ∧ c2 = false ∧ c3 = false ∧ c4 = false ∧ c5 = true) ∧
    (r = .error m7 ↔
      c1 = false ∧ c2 = false ∧ c3 = false ∧ c4 = false ∧ c5 = false ∧ c6 = false ∧
        c7 = true) ∧
    (r = .error m8 ↔
      c1 = false ∧ c2 = false ∧ c3 = false ∧ c4 = false ∧ c5 = false ∧ c6 = false ∧
        c7 = false ∧ c8 = true) := by
  subst hr
  simp only [List.nodup_cons, List.mem_cons, List.mem_singleton, not_or, List.not_mem_nil,
    not_false_eq_true, List.nodup_nil, and_true] at hnd
  obtain ⟨⟨h12, h13, h14, h15, h16, h17, h18⟩, ⟨h23, h24, h25, h26, h27, h28⟩,
    ⟨h34, h35, h36, h37, h38⟩, ⟨h45, h46, h47, h48⟩, ⟨h56, h57, h58⟩, ⟨h67, h68⟩, h78⟩ := hnd
  cases c1
  swap
  · simp [*]
  cases c2
  swap
  · simp [*]
  cases c3
  swap
  · simp [*]
  cases c4
  swap
  · simp [*]
  cases c5
  swap
  · simp [*]
  cases c6
  swap
  · simp [*, Ne.symm]
  cases c7
  swap
  · simp [*, Ne.symm]
  cases c8 <;> simp [*, Ne.symm]

theorem validateEvent_failures (h : Host) (event : Event) :
    (validateEvent h event = .error (lit "Invalid start time format") ↔
      (truthy event.title = true ∧ trim (str event.title) ≠ []) ∧
      (truthy event.date = true ∧ isValidDate h (str event.date) = true) ∧
      truthy event.startTime = true ∧ isValidTime (str event.startTime) = false) ∧
    (validateEvent h event = .error (lit "Invalid end time format") ↔
      (truthy event.title = true ∧ trim (str event.title) ≠ []) ∧
      (truthy event.date = true ∧ isValidDate h (str event.date) = true) ∧
      (truthy event.startTime = true ∧ isValidTime (str event.startTime) = true) ∧
      truthy event.endTime = true ∧ isValidTime (str event.endTime) = false) ∧
    (validateEvent h event = .error (lit "End time must be after start time") ↔
      (truthy event.title = true ∧ trim (str event.title) ≠ []) ∧
      (truthy event.date = true ∧ isValidDate h (str event.date) = true) ∧
      (truthy event.startTime = true ∧ isValidTime (str event.startTime) = true) ∧
      (truthy event.endTime = true ∧ isValidTime (str event.endTime) = true) ∧
      strGe (str event.startTime) (str event.endTime) = true) := by
  obtain ⟨h5, h7, h8⟩ := firstFailure _ _ _ _ _ _ _ _ (by decide) _ _ _ _ _ _ _ _
    (validateEvent h event) rfl
  refine ⟨?_, ?_, ?_⟩
  · rw [h5]; simp [and_assoc]
  · rw [h7]; simp [and_assoc]
  · rw [h8]; simp [and_assoc]

end ICSGenerator

/-- C9: in both classes `isValidTime` accepts a string exactly when the whole string
is in the language of the pattern `([01]?[0-9]|2[0-3]):[0-5][0-9]`, that is, when it
reads as an hour of one or two digits from 0 to 23, a colon and a two-digit minute from
00 to 59, with nothing before or after; a present time that fails this gives 'Invalid start time
format', respectively 'Invalid end time format', in the validator's list, and is what
the encoder throws once the earlier rules have passed. -/
theorem isValidTime_iff_hour_colon_minute (h : Host) (event : Event) (s : JSString) :
    (EventManager.isValidTime s = true ↔ timeRegex.Matches s) ∧
    (ICSGenerator.isValidTime s = true ↔ timeRegex.Matches s) ∧
    (EventManager.isValidTime s = true ↔
      ∃ hr mn, readClock s = some (hr, mn) ∧ hr ≤ 23 ∧ mn ≤ 59) ∧
    (ICSGenerator.isValidTime s = true ↔
      ∃ hr mn, readClock s = some (hr, mn) ∧ hr ≤ 23 ∧ mn ≤ 59) ∧
    (lit "Invalid start time format" ∈ (EventManager.validateEvent h event).errors ↔
      truthy event.startTime = true ∧
        EventManager.isValidTime (str event.startTime) = false) ∧
    (lit "Invalid end time format" ∈ (EventManager.validateEvent h event).errors ↔
      truthy event.endTime = true ∧ EventManager.isValidTime (str event.endTime) = false) ∧
    (ICSGenerator.validateEvent h event = .error (lit "Invalid start time format") ↔
      (truthy event.title = true ∧ trim (str event.title) ≠ []) ∧
      (truthy event.date = true ∧ ICSGenerator.isValidDate h (str event.date) = true) ∧
      truthy event.startTime = true ∧
        ICSGenerator.isValidTime (str event.startTime) = false) ∧
    (ICSGenerator.validateEvent h event = .error (lit "Invalid end time format") ↔
      (truthy event.title = true ∧ trim (str event.title) ≠ []) ∧
      (truthy event.date = true ∧ ICSGenerator.isValidDate h (str event.date) = true) ∧
      (truthy event.startTime = true ∧
        ICSGenerator.isValidTime (str event.startTime) = true) ∧
      truthy event.endTime = true ∧ ICSGenerator.isValidTime (str event.endTime) = false) := by
  obtain ⟨-, -, -, -, -, h5, -, h7, -⟩ :=
    EventManager.collected _ _ _ _ _ _ _ _ (by decide) _ _ _ _ _ _ _ _ _
      (EventManager.errors_eq h event)
  obtain ⟨k5, k7, -⟩ := ICSGenerator.validateEvent_failures h event
  refine ⟨Regex.test_iff_matches _ s, Regex.test_iff_matches _ s,
    timeRegex_test_iff_readClock s, timeRegex_test_iff_readClock s, ?_, ?_, k5, k7⟩
  · rw [h5]; simp
  · rw [h7]; simp

/-- C10: a candidate with a valid title and date whose startTime and endTime are the
same valid time fails validation with 'End time must be after start time' (the
encoder throws it when the date also passes its own check); with startTime '09:00'
and endTime '10:00' instead, the candidate passes with an empty error list. -/
theorem equal_times_rejected (h : Host) (event : Event) (s : JSString)
    (htitle : truthy event.title = true ∧ trim (str event.title) ≠ [])
    (hdate : truthy event.date = true ∧ EventManager.isValidDate h (str event.date) = true)
    (hstart : event.startTime = some s) (hend : event.endTime = some s)
    (htime : EventManager.isValidTime s = true) :
    (EventManager.validateEvent h event).valid = false ∧
    lit "End time must be after start time" ∈ (EventManager.validateEvent h event).errors ∧
    (EventManager.validateEvent h event).errors = [lit "End time must be after start time"] ∧
    (ICSGenerator.isValidDate h (str event.date) = true →
      ICSGenerator.validateEvent h event =
        .error (lit "End time must be after start time")) ∧
    (EventManager.validateEvent h
        { event with startTime := some (lit "09:00"), endTime := some (lit "10:00") }).valid
      = true ∧
    (EventManager.validateEvent h
        { event with startTime := some (lit "09:00"), endTime := some (lit "10:00") }).errors
      = [] := by
  have hts : truthy (some s) = true := truthy_of_test htime
  have herr : (EventManager.validateEvent h event).errors =
      [lit "End time must be after start time"] := by
    rw [EventManager.errors_eq]
    have hstr : str (some s) = s := rfl
    simp [htitle.1, htitle.2, hdate.1, hdate.2, hstart, hend, hts, hstr, htime, strGe,
      strLt_irrefl]
  have hok : (EventManager.validateEvent h
      { event with startTime := some (lit "09:00"), endTime := some (lit "10:00") }).valid
      = true := by
    rw [EventManager.valid_iff_rules]
    exact ⟨htitle, hdate, ⟨rfl, rfl⟩, ⟨rfl, rfl⟩, rfl⟩
  refine ⟨?_, ?_, herr, fun hd => ?_, hok, (EventManager.valid_iff _ _).mp hok⟩
  · cases hv : (EventManager.validateEvent h event).valid
    · rfl
    · rw [(EventManager.valid_iff h event).mp hv] at herr
      exact absurd herr (by simp)
  · rw [herr]; exact List.mem_singleton_self _
  · rw [(ICSGenerator.validateEvent_failures h event).2.2]
    refine ⟨htitle, ⟨hdate.1, hd⟩, ?_, ?_, ?_⟩
    · rw [hstart]; exact ⟨hts, htime⟩
    · rw [hend]; exact ⟨hts, htime⟩
    · rw [hstart, hend]; simp [strGe, strLt_irrefl]

/-- Witness for C10: the stand-up with both times set to '09:00', on `asciiHost`. -/
theorem equal_times_rejected_witness :
    (truthy standup.title = true ∧ trim (str standup.title) ≠ []) ∧
    (truthy standup.date = true ∧
      EventManager.isValidDate asciiHost (str standup.date) = true) ∧
    EventManager.isValidTime (lit "09:00") = true ∧
    (EventManager.validateEvent asciiHost
        { standup with endTime := some (lit "09:00") }).errors =
      [lit "End time must be after start time"] ∧
    ICSGenerator.validateEvent asciiHost { standup with endTime := some (lit "09:00") } =
      .error (lit "End time must be after start time") ∧
    (EventManager.validateEvent asciiHost
        { standup with startTime := some (lit "09:00"), endTime := some (lit "10:00") }).errors
      = [] := by
  have hw := equal_times_rejected asciiHost { standup with endTime := some (lit "09:00") }
    (lit "09:00") ⟨rfl, by decide⟩ ⟨rfl, rfl⟩ rfl rfl rfl
  exact ⟨⟨rfl, by decide⟩, ⟨rfl, rfl⟩, rfl, hw.2.2.1, hw.2.2.2.1 rfl, hw.2.2.2.2.2⟩

/-! ## Ordering rule, batch report, escaping and VEVENT lines -/

/-- C11, counterexample: for the candidate `malformedTimes`, neither of whose times
matches the time pattern, the validator's list holds 'End time must be after start
time' after the two format errors. -/
theorem validateEvent_orders_malformed_times :
    EventManager.isValidTime (lit "zz") = false ∧
    EventManager.isValidTime (lit "aa") = false ∧
    (EventManager.validateEvent asciiHost malformedTimes).errors =
      [lit "Invalid start time format", lit "Invalid end time format",
       lit "End time must be after start time"] :=
  ⟨rfl, rfl, rfl⟩

/-- C11, amended: `EventManager.validateEvent` reports 'End time must be after start
time' exactly when startTime and endTime are both present (non-empty) and
startTime >= endTime in string order, whether or not they match the time pattern; it
is never reported when one of the times is missing. -/
theorem ordering_error_iff_present_and_not_below (h : Host) (event : Event) :
    (lit "End time must be after start time" ∈ (EventManager.validateEvent h event).errors ↔
      truthy event.startTime = true ∧ truthy event.endTime = true ∧
        strGe (str event.startTime) (str event.endTime) = true) ∧
    (truthy event.startTime = false ∨ truthy event.endTime = false →
      lit "End time must be after start time" ∉ (EventManager.validateEvent h event).errors) := by
  obtain ⟨-, -, -, -, -, -, -, -, h8⟩ :=
    EventManager.collected _ _ _ _ _ _ _ _ (by decide) _ _ _ _ _ _ _ _ _
      (EventManager.errors_eq h event)
  have hiff : lit "End time must be after start time" ∈
      (EventManager.validateEvent h event).errors ↔
      truthy event.startTime = true ∧ truthy event.endTime = true ∧
        strGe (str event.startTime) (str event.endTime) = true := by
    rw [h8]; simp [and_assoc]
  refine ⟨hiff, fun hmiss hmem => ?_⟩
  obtain ⟨h1, h2, -⟩ := hiff.mp hmem
  rcases hmiss with hm | hm
  · rw [h1] at hm; cases hm
  · rw [h2] at hm; cases hm

/-- Witness for C11, amended: the stand-up without its end time gets no ordering
error, and the stand-up ending when it starts gets it. -/
theorem ordering_error_iff_present_and_not_below_witness :
    (truthy ({ standup with endTime := none } : Event).startTime = false ∨
      truthy ({ standup with endTime := none } : Event).endTime = false) ∧
    lit "End time must be after start time" ∉
      (EventManager.validateEvent asciiHost { standup with endTime := none }).errors ∧
    lit "End time must be after start time" ∈
      (EventManager.validateEvent asciiHost
        { standup with endTime := some (lit "09:00") }).errors :=
  ⟨Or.inr rfl,
    (ordering_error_iff_present_and_not_below asciiHost { standup with endTime := none }).2
      (Or.inr rfl),
    (ordering_error_iff_present_and_not_below asciiHost
      { standup with endTime := some (lit "09:00") }).1.mpr ⟨rfl, rfl, rfl⟩⟩

namespace EventManager

theorem validateAllEventsFrom_eq (h : Host) (events : List Event) (i : Nat)
    (acc : List EventErrors) :
    validateAllEventsFrom h events i acc =
      acc ++ ((events.enumFrom i).filter fun p => !(validateEvent h p.2).valid).map
        fun p => { index := p.1, title := p.2.title, errors := (validateEvent h p.2).errors } := by
  induction events generalizing i acc with
  | nil => simp [validateAllEventsFrom]
  | cons e es ih =>
    rw [validateAllEventsFrom]
    cases hv : (validateEvent h e).valid <;> simp [ih, List.enumFrom, hv]

end EventManager

/-- C12: `validateAllEvents` returns one record `{index, title, errors}` for each event
that `validateEvent` reports invalid and none for a valid event, in ascending index
order; `index` is the event's position, `title` its title and `errors` the error list
of `validateEvent` for it; the manager's collection is left as it was. -/
theorem validateAllEvents_reports_invalid_events (h : Host) (self : EventManager) :
    (EventManager.validateAllEvents h self).1 =
      ((self.events.enum.filter fun p => !(EventManager.validateEvent h p.2).valid).map
        fun p => { index := p.1, title := p.2.title,
                   errors := (EventManager.validateEvent h p.2).errors }) ∧
    (∀ r, r ∈ (EventManager.validateAllEvents h self).1 ↔
      ∃ i e, self.events[i]? = some e ∧ (EventManager.validateEvent h e).valid = false ∧
        r = { index := i, title := e.title,
              errors := (EventManager.validateEvent h e).errors }) ∧
    ((EventManager.validateAllEvents h self).1.map fun r => r.index).Pairwise (· < ·) ∧
    (EventManager.validateAllEvents h self).2 = self := by
  have heq : (EventManager.validateAllEvents h self).1 =
      ((self.events.enum.filter fun p => !(EventManager.validateEvent h p.2).valid).map
        fun p => { index := p.1, title := p.2.title,
                   errors := (EventManager.validateEvent h p.2).errors }) := by
    simp [EventManager.validateAllEvents, EventManager.validateAllEventsFrom_eq, List.enum]
  refine ⟨heq, fun r => ?_, ?_, rfl⟩
  · rw [heq]
    simp only [List.mem_map, List.mem_filter, List.mem_enum_iff_getElem?, Bool.not_eq_true',
      Prod.exists]
    constructor
    · rintro ⟨i, e, ⟨hie, hv⟩, rfl⟩
      exact ⟨i, e, hie, hv, rfl⟩
    · rintro ⟨i, e, hie, hv, rfl⟩
      exact ⟨i, e, ⟨hie, hv⟩, rfl⟩
  · rw [heq, List.map_map]
    have hsub : ((self.events.enum.filter
        fun p => !(EventManager.validateEvent h p.2).valid).map Prod.fst).Sublist
        (self.events.enum.map Prod.fst) := (List.filter_sublist _).map _
    rw [List.enum_map_fst] at hsub
    exact List.Pairwise.sublist hsub (List.pairwise_lt_range _)

theorem replaceAll_nil (c : Nat) (r : JSString) : replaceAll c r [] = [] := rfl

theorem replaceAll_cons (c : Nat) (r : JSString) (x : Nat) (s : JSString) :
    replaceAll c r (x :: s) = (if x = c then r else [x]) ++ replaceAll c r s := by
  simp [replaceAll]

theorem replaceAll_append (c : Nat) (r a b : JSString) :
    replaceAll c r (a ++ b) = replaceAll c r a ++ replaceAll c r b := by
  simp [replaceAll]

theorem escape_steps_unit (c : Nat) :
    replaceAll 13 [] (replaceAll 10 (lit "\\n") (replaceAll 44 (lit "\\,")
      (replaceAll 59 (lit "\\;") (if c = 92 then lit "\\\\" else [c])))) = escapeUnit c := by
  have e1 : lit "\\n" = [92, 110] := rfl
  have e2 : lit "\\," = [92, 44] := rfl
  have e3 : lit "\\;" = [92, 59] := rfl
  have e4 : lit "\\\\" = [92, 92] := rfl
  rw [e1, e2, e3, e4]
  unfold escapeUnit
  by_cases h92 : c = 92
  · subst h92; simp [replaceAll]
  by_cases h59 : c = 59
  · subst h59; simp [replaceAll]
  by_cases h44 : c = 44
  · subst h44; simp [replaceAll]
  by_cases h10 : c = 10
  · subst h10; simp [replaceAll]
  by_cases h13 : c = 13
  · subst h13; simp [replaceAll]
  simp [replaceAll, h92, h59, h44, h10, h13]

theorem escape_steps_eq (v : JSString) :
    replaceAll 13 [] (replaceAll 10 (lit "\\n") (replaceAll 44 (lit "\\,")
      (replaceAll 59 (lit "\\;") (replaceAll 92 (lit "\\\\") v)))) =
      (v.map escapeUnit).flatten := by
  induction v with
  | nil => rfl
  | cons c cs ih =>
    rw [replaceAll_cons, replaceAll_append, replaceAll_append, replaceAll_append,
      replaceAll_append, ih, escape_steps_unit]
    simp

namespace ICSGenerator

theorem escapeICSValue_eq (value : Option JSString) :
    escapeICSValue value = (((str value).map escapeUnit).flatten).take 75 := by
  unfold escapeICSValue
  cases ht : truthy value
  · rcases value with _ | ⟨_ | ⟨c, cs⟩⟩
    · rfl
    · rfl
    · simp [truthy] at ht
  · simp [escape_steps_eq]

end ICSGenerator

/-- C14: `escapeICSValue` returns the empty string for an absent or empty value;
in every case its result is the first 75 code units of the text obtained by the five
replacements in source order, which is the text in which each code unit is replaced
once by its entry in the escape table; the result is never longer than 75, and it is
the input when the input has at most 75 code units and none of backslash, semicolon,
comma, line feed, carriage return. -/
theorem escapeICSValue_is_truncated_escape (value : Option JSString) :
    ICSGenerator.escapeICSValue none = [] ∧
    ICSGenerator.escapeICSValue (some []) = [] ∧
    ICSGenerator.escapeICSValue value =
      (replaceAll 13 [] (replaceAll 10 (lit "\\n") (replaceAll 44 (lit "\\,")
        (replaceAll 59 (lit "\\;") (replaceAll 92 (lit "\\\\") (str value)))))).take 75 ∧
    ICSGenerator.escapeICSValue value = (((str value).map escapeUnit).flatten).take 75 ∧
    (ICSGenerator.escapeICSValue value).length ≤ 75 ∧
    ((str value).length ≤ 75 →
      (∀ c ∈ str value, c ≠ 92 ∧ c ≠ 59 ∧ c ≠ 44 ∧ c ≠ 10 ∧ c ≠ 13) →
      ICSGenerator.escapeICSValue value = str value) := by
  have heq := ICSGenerator.escapeICSValue_eq value
  refine ⟨rfl, rfl, ?_, heq, ?_, fun hlen hord => ?_⟩
  · rw [heq, escape_steps_eq]
  · rw [heq]; simp
  · have hid : ((str value).map escapeUnit).flatten = str value := by
      generalize str value = v at hord
      induction v with
      | nil => rfl
      | cons c cs ih =>
        obtain ⟨h1, h2, h3, h4, h5⟩ := hord c (List.mem_cons_self _ _)
        have hc : escapeUnit c = [c] := by simp [escapeUnit, h1, h2, h3, h4, h5]
        simp only [List.map_cons, List.flatten_cons, hc, List.singleton_append, List.cons.injEq,
          true_and]
        exact ih fun x hx => hord x (List.mem_cons_of_mem _ hx)
    rw [heq, hid]
    exact List.take_of_length_le hlen

/-- Witness for C14: the title 'Standup' has seven ordinary code units and is returned
as it is. -/
theorem escapeICSValue_is_truncated_escape_witness :
    (str (some (lit "Standup"))).length ≤ 75 ∧
    (∀ c ∈ str (some (lit "Standup")), c ≠ 92 ∧ c ≠ 59 ∧ c ≠ 44 ∧ c ≠ 10 ∧ c ≠ 13) ∧
    ICSGenerator.escapeICSValue (some (lit "Standup")) = lit "Standup" :=
  ⟨by decide, by decide,
    (escapeICSValue_is_truncated_escape (some (lit "Standup"))).2.2.2.2.2 (by decide)
      (by decide)⟩

theorem wellEscaped_cons_ordinary {c : Nat} (hc : c ≠ 92 ∧ c ≠ 59 ∧ c ≠ 44 ∧ c ≠ 10)
    (s : JSString) : wellEscaped (c :: s) = wellEscaped s := by
  cases s with
  | nil => simp [wellEscaped, hc.1, hc.2.1, hc.2.2.1, hc.2.2.2]
  | cons d rest => simp [wellEscaped, hc.1, hc.2.1, hc.2.2.1, hc.2.2.2]

theorem wellEscaped_cons_pair {d : Nat} (hd : d = 92 ∨ d = 59 ∨ d = 44 ∨ d = 110)
    (s : JSString) : wellEscaped (92 :: d :: s) = wellEscaped s := by
  rcases hd with rfl | rfl | rfl | rfl <;> simp [wellEscaped]

theorem take_pair_escaped {d : Nat} (hd : d = 92 ∨ d = 59 ∨ d = 44 ∨ d = 110)
    (rest : JSString)
    (ih : ∀ m, wellEscaped (rest.take m) = true ∨
      ∃ w, rest.take m = w ++ [92] ∧ wellEscaped w = true ∧ (rest.take m).length = m)
    (n : Nat) :
    wellEscaped ((92 :: d :: rest).take n) = true ∨
      ∃ w, (92 :: d :: rest).take n = w ++ [92] ∧ wellEscaped w = true ∧
        ((92 :: d :: rest).take n).length = n := by
  rcases n with _ | _ | m
  · exact Or.inl rfl
  · exact Or.inr ⟨[], rfl, rfl, rfl⟩
  · rcases ih m with hw | ⟨w, hw, hwe, hlen⟩
    · left
      simpa [wellEscaped_cons_pair hd] using hw
    · right
      refine ⟨92 :: d :: w, by simp [hw], by simpa [wellEscaped_cons_pair hd] using hwe, ?_⟩
      simp only [List.take_succ_cons, List.length_cons, hlen]

theorem take_ordinary_escaped {c : Nat} (hc : c ≠ 92 ∧ c ≠ 59 ∧ c ≠ 44 ∧ c ≠ 10)
    (rest : JSString)
    (ih : ∀ m, wellEscaped (rest.take m) = true ∨
      ∃ w, rest.take m = w ++ [92] ∧ wellEscaped w = true ∧ (rest.take m).length = m)
    (n : Nat) :
    wellEscaped ((c :: rest).take n) = true ∨
      ∃ w, (c :: rest).take n = w ++ [92] ∧ wellEscaped w = true ∧
        ((c :: rest).take n).length = n := by
  rcases n with _ | m
  · exact Or.inl rfl
  · rcases ih m with hw | ⟨w, hw, hwe, hlen⟩
    · left
      simpa [wellEscaped_cons_ordinary hc] using hw
    · right
      refine ⟨c :: w, by simp [hw], by simpa [wellEscaped_cons_ordinary hc] using hwe, ?_⟩
      simp only [List.take_succ_cons, List.length_cons, hlen]

theorem take_escaped (v : JSString) (n : Nat) :
    wellEscaped (((v.map escapeUnit).flatten).take n) = true ∨
      ∃ w, ((v.map escapeUnit).flatten).take n = w ++ [92] ∧ wellEscaped w = true ∧
        (((v.map escapeUnit).flatten).take n).length = n := by
  induction v generalizing n with
  | nil => exact Or.inl (by simp [wellEscaped])
  | cons c cs ih =>
    simp only [List.map_cons, List.flatten_cons]
    unfold escapeUnit
    split_ifs with h92 h59 h44 h10 h13
    · exact take_pair_escaped (Or.inl rfl) _ ih n
    · exact take_pair_escaped (Or.inr (Or.inl rfl)) _ ih n
    · exact take_pair_escaped (Or.inr (Or.inr (Or.inl rfl))) _ ih n
    · exact take_pair_escaped (Or.inr (Or.inr (Or.inr rfl))) _ ih n
    · exact ih n
    · exact take_ordinary_escaped ⟨h92, h59, h44, h10⟩ _ ih n

theorem not_mem_escapeUnit (c : Nat) : 13 ∉ escapeUnit c ∧ 10 ∉ escapeUnit c := by
  unfold escapeUnit
  split_ifs with h92 h59 h44 h10 h13 <;> simp
  exact ⟨fun h => h13 h.symm, fun h => h10 h.symm⟩

theorem not_mem_escapeICSValue (value : Option JSString) :
    13 ∉ ICSGenerator.escapeICSValue value ∧ 10 ∉ ICSGenerator.escapeICSValue value := by
  rw [ICSGenerator.escapeICSValue_eq]
  constructor
  · intro hm
    obtain ⟨l, hl, hx⟩ := List.mem_flatten.mp (List.mem_of_mem_take hm)
    obtain ⟨c, -, rfl⟩ := List.mem_map.mp hl
    exact (not_mem_escapeUnit c).1 hx
  · intro hm
    obtain ⟨l, hl, hx⟩ := List.mem_flatten.mp (List.mem_of_mem_take hm)
    obtain ⟨c, -, rfl⟩ := List.mem_map.mp hl
    exact (not_mem_escapeUnit c).2 hx

theorem crlfLinesFrom_clean (s : JSString) (hs : 13 ∉ s) (rest cur : JSString) :
    crlfLinesFrom (s ++ 13 :: 10 :: rest) cur = (cur ++ s) :: crlfLinesFrom rest [] := by
  induction s generalizing cur with
  | nil => simp [crlfLinesFrom]
  | cons c cs ih =>
    have hc : c ≠ 13 := fun h => hs (h ▸ List.mem_cons_self _ _)
    have hcs : 13 ∉ cs := fun h => hs (List.mem_cons_of_mem _ h)
    have hstep : crlfLinesFrom (c :: (cs ++ 13 :: 10 :: rest)) cur =
        crlfLinesFrom (cs ++ 13 :: 10 :: rest) (cur ++ [c]) := by
      rw [crlfLinesFrom]
      intro r h1
      exact absurd h1 hc
    rw [List.cons_append, hstep, ih hcs]
    simp

namespace ICSGenerator

theorem generateVEvent_eq (h : Host) (event : Event) (index : Nat) (timestamp : JSString)
    (hv : validateEvent h event = .ok ()) :
    generateVEvent h event index timestamp =
      .ok (veventHead event index timestamp ++ categoriesLine h event ++
        descriptionLine event ++ alarmBlock event ++ lit "END:VEVENT\r\n") := by
  unfold generateVEvent
  rw [hv]
  simp only [veventHead, categoriesLine, descriptionLine, alarmBlock]
  cases hd : (truthy event.description && trim (str event.description) != []) <;>
    cases hr : (truthy event.reminder && str event.reminder != lit "0") <;>
    simp [List.append_assoc]

theorem generateAlarm_eq (reminderMinutes : JSString) (eventTitle : Option JSString) :
    generateAlarm reminderMinutes eventTitle =
      lit "BEGIN:VALARM\r\n" ++ (lit "TRIGGER:-PT" ++ reminderMinutes ++ lit "M\r\n") ++
      lit "ACTION:DISPLAY\r\n" ++
      (lit "DESCRIPTION:Reminder: " ++ escapeICSValue eventTitle ++ lit "\r\n") ++
      lit "END:VALARM\r\n" := rfl

end ICSGenerator

/-- C13, at the failing input: the candidate `oneDigitHour`, from '9:00' to '9:15',
passes the encoder's validation and its VEVENT has the lines DTSTART:20240301T90000 and
DTEND:20240301T91500, whose time part has five digits. -/
theorem generateVEvent_one_digit_hour :
    ICSGenerator.validateEvent asciiHost oneDigitHour = .ok () ∧
    ∃ doc, ICSGenerator.generateVEvent asciiHost oneDigitHour 0 (lit "20240301T120000Z") =
        .ok doc ∧
      (crlfLines doc)[3]? = some (lit "DTSTART:20240301T90000") ∧
      (crlfLines doc)[4]? = some (lit "DTEND:20240301T91500") ∧
      (lit "20240301T90000").length = 14 :=
  ⟨rfl, _, rfl, rfl, rfl, rfl⟩

/-- C15, counterexample: for the title `longTitle` the escaped text has 76 code units
and the value kept is seventy-four letters followed by a lone backslash; it is the
SUMMARY line of the event's VEVENT. -/
theorem escapeICSValue_cuts_escape_sequence :
    ICSGenerator.escapeICSValue (some longTitle) = List.replicate 74 97 ++ [92] ∧
    wellEscaped (ICSGenerator.escapeICSValue (some longTitle)) = false ∧
    ICSGenerator.validateEvent asciiHost { standup with title := some longTitle } = .ok () ∧
    ∃ doc, ICSGenerator.generateVEvent asciiHost { standup with title := some longTitle } 0
        (lit "20240301T120000Z") = .ok doc ∧
      (crlfLines doc)[5]? = some (lit "SUMMARY:" ++ List.replicate 74 97 ++ [92]) :=
  ⟨rfl, rfl, rfl, _, rfl, rfl⟩

/-- C15, amended: for every title the SUMMARY value `escapeICSValue(title)` is either a
sequence of ordinary code units and complete two-character escape sequences (always so
when it is shorter than 75), or it has exactly 75 code units and is such a sequence
followed by one backslash, where the truncation fell inside an escape sequence. -/
theorem summary_value_escaped_up_to_cut (title : Option JSString) :
    (wellEscaped (ICSGenerator.escapeICSValue title) = true ∨
      ∃ w, ICSGenerator.escapeICSValue title = w ++ [92] ∧ wellEscaped w = true ∧
        (ICSGenerator.escapeICSValue title).length = 75) ∧
    ((ICSGenerator.escapeICSValue title).length < 75 →
      wellEscaped (ICSGenerator.escapeICSValue title) = true) ∧
    (∀ (h : Host) (event : Event) (index : Nat) (timestamp : JSString),
      event.title = title → ICSGenerator.validateEvent h event = .ok () →
      ∃ front back, ICSGenerator.generateVEvent h event index timestamp =
        .ok (front ++ (lit "SUMMARY:" ++ ICSGenerator.escapeICSValue title ++ lit "\r\n") ++
          back)) := by
  have hcut : wellEscaped (ICSGenerator.escapeICSValue title) = true ∨
      ∃ w, ICSGenerator.escapeICSValue title = w ++ [92] ∧ wellEscaped w = true ∧
        (ICSGenerator.escapeICSValue title).length = 75 := by
    rw [ICSGenerator.escapeICSValue_eq]
    exact take_escaped (str title) 75
  refine ⟨hcut, fun hlt => ?_, fun h event index timestamp ht hv => ?_⟩
  · rcases hcut with hw | ⟨w, -, -, hlen⟩
    · exact hw
    · omega
  · subst ht
    refine ⟨lit "BEGIN:VEVENT\r\n" ++
      (lit "UID:" ++ (lit "event-" ++ lit (Nat.repr index) ++ lit "-" ++ timestamp ++
        lit "@aischeduler.com") ++ lit "\r\n") ++
      (lit "DTSTAMP:" ++ timestamp ++ lit "\r\n") ++
      (lit "DTSTART:" ++ (replaceAll 45 [] (str event.date) ++ lit "T" ++
        removeFirst 58 (str event.startTime) ++ lit "00") ++ lit "\r\n") ++
      (lit "DTEND:" ++ (replaceAll 45 [] (str event.date) ++ lit "T" ++
        removeFirst 58 (str event.endTime) ++ lit "00") ++ lit "\r\n"),
      categoriesLine h event ++ descriptionLine event ++ alarmBlock event ++
        lit "END:VEVENT\r\n", ?_⟩
    rw [ICSGenerator.generateVEvent_eq h event index timestamp hv, veventHead]
    simp only [List.append_assoc]

/-- Witness for C15, amended: the title 'Standup' of the stand-up is shorter than 75
and well escaped, and it is the value of the SUMMARY line of the event's VEVENT. -/
theorem summary_value_escaped_up_to_cut_witness :
    (ICSGenerator.escapeICSValue (some (lit "Standup"))).length < 75 ∧
    wellEscaped (ICSGenerator.escapeICSValue (some (lit "Standup"))) = true ∧
    standup.title = some (lit "Standup") ∧
    ICSGenerator.validateEvent asciiHost standup = .ok () ∧
    ∃ front back, ICSGenerator.generateVEvent asciiHost standup 0 (lit "20240301T120000Z") =
      .ok (front ++
        (lit "SUMMARY:" ++ ICSGenerator.escapeICSValue (some (lit "Standup")) ++ lit "\r\n") ++
        back) :=
  have hw := summary_value_escaped_up_to_cut (some (lit "Standup"))
  ⟨by decide, hw.2.1 (by decide), rfl, rfl,
    hw.2.2 asciiHost standup 0 (lit "20240301T120000Z") rfl rfl⟩

/-- C16: the result of `escapeICSValue` contains neither a carriage return nor a line
feed, so the SUMMARY line, the DESCRIPTION line and the alarm's DESCRIPTION line built
from it are each one line of the document. -/
theorem escapeICSValue_has_no_line_break (value : Option JSString) :
    13 ∉ ICSGenerator.escapeICSValue value ∧
    10 ∉ ICSGenerator.escapeICSValue value ∧
    crlfLines (lit "SUMMARY:" ++ ICSGenerator.escapeICSValue value ++ lit "\r\n") =
      [lit "SUMMARY:" ++ ICSGenerator.escapeICSValue value] ∧
    crlfLines (lit "DESCRIPTION:" ++ ICSGenerator.escapeICSValue value ++ lit "\r\n") =
      [lit "DESCRIPTION:" ++ ICSGenerator.escapeICSValue value] ∧
    crlfLines (lit "DESCRIPTION:Reminder: " ++ ICSGenerator.escapeICSValue value ++
        lit "\r\n") =
      [lit "DESCRIPTION:Reminder: " ++ ICSGenerator.escapeICSValue value] := by
  obtain ⟨h13, h10⟩ := not_mem_escapeICSValue value
  have hline : ∀ p : JSString, 13 ∉ p →
      crlfLines (p ++ ICSGenerator.escapeICSValue value ++ lit "\r\n") =
        [p ++ ICSGenerator.escapeICSValue value] := by
    intro p hp
    have hcr : lit "\r\n" = 13 :: 10 :: [] := rfl
    have hclean : 13 ∉ p ++ ICSGenerator.escapeICSValue value := by
      simp only [List.mem_append, not_or]
      exact ⟨hp, h13⟩
    rw [crlfLines, hcr, crlfLinesFrom_clean _ hclean]
    simp [crlfLinesFrom]
  exact ⟨h13, h10, hline _ (by decide), hline _ (by decide), hline _ (by decide)⟩

/-! ## The lines of a VEVENT -/

theorem digitChar_digit {d : Nat} (hd : d < 10) :
    48 ≤ (Nat.digitChar d).toNat ∧ (Nat.digitChar d).toNat ≤ 57 := by
  interval_cases d <;> decide

theorem toDigitsCore_digits (f n : Nat) (ds : List Char)
    (hds : ∀ c ∈ ds, 48 ≤ c.toNat ∧ c.toNat ≤ 57) :
    ∀ c ∈ Nat.toDigitsCore 10 f n ds, 48 ≤ c.toNat ∧ c.toNat ≤ 57 := by
  induction f generalizing n ds with
  | zero => simpa [Nat.toDigitsCore] using hds
  | succ f ih =>
    have hd : ∀ c ∈ Nat.digitChar (n % 10) :: ds, 48 ≤ c.toNat ∧ c.toNat ≤ 57 := by
      intro c hc
      rcases List.mem_cons.mp hc with rfl | hc
      · exact digitChar_digit (Nat.mod_lt _ (by decide))
      · exact hds c hc
    simp only [Nat.toDigitsCore]
    split_ifs
    · exact hd
    · exact ih _ _ hd

theorem lit_repr_digits (n : Nat) : ∀ u ∈ lit (Nat.repr n), 48 ≤ u ∧ u ≤ 57 := by
  intro u hu
  simp only [lit, List.mem_flatten, List.mem_map] at hu
  obtain ⟨l, ⟨c, hc, rfl⟩, hu⟩ := hu
  have hc' : c ∈ Nat.toDigitsCore 10 (n + 1) n [] := hc
  have hb := toDigitsCore_digits (n + 1) n [] (by simp) c hc'
  have : utf16Char c = [c.toNat] := by
    unfold utf16Char
    rw [if_pos (by omega)]
  rw [this] at hu
  simp only [List.mem_singleton] at hu
  subst hu
  exact hb

theorem dateRegex_shape {s : JSString} (hs : dateRegex.test s = true) :
    ∃ y1 y2 y3 y4 m1 m2 d1 d2, s = [y1, y2, y3, y4, 45, m1, m2, 45, d1, d2] ∧
      (48 ≤ y1 ∧ y1 ≤ 57) ∧ (48 ≤ y2 ∧ y2 ≤ 57) ∧ (48 ≤ y3 ∧ y3 ≤ 57) ∧
      (48 ≤ y4 ∧ y4 ≤ 57) ∧ (48 ≤ m1 ∧ m1 ≤ 57) ∧ (48 ≤ m2 ∧ m2 ≤ 57) ∧
      (48 ≤ d1 ∧ d1 ≤ 57) ∧ (48 ≤ d2 ∧ d2 ≤ 57) := by
  simp only [Regex.test_iff, dateRegex, Regex.char, Regex.digit, Regex.mem_run_seq,
    Regex.mem_run_range] at hs
  obtain ⟨_, ⟨y1, rfl, h1⟩, _, ⟨y2, rfl, h2⟩, _, ⟨y3, rfl, h3⟩, _, ⟨y4, rfl, h4⟩,
    _, ⟨c5, rfl, h5⟩, _, ⟨m1, rfl, h6⟩, _, ⟨m2, rfl, h7⟩, _, ⟨c8, rfl, h8⟩,
    _, ⟨d1, rfl, h9⟩, ⟨d2, rfl, h10⟩⟩ := hs
  obtain rfl : c5 = 45 := by omega
  obtain rfl : c8 = 45 := by omega
  exact ⟨y1, y2, y3, y4, m1, m2, d1, d2, rfl, h1, h2, h3, h4, h6, h7, h9, h10⟩

theorem crlfLines_join (ls : List JSString) (hls : ∀ l ∈ ls, 13 ∉ l) :
    crlfLines ((ls.map fun l => l ++ lit "\r\n").flatten) = ls := by
  unfold crlfLines
  induction ls with
  | nil => simp [crlfLinesFrom]
  | cons l rest ih =>
    have hcr : lit "\r\n" = 13 :: 10 :: [] := rfl
    simp only [List.map_cons, List.flatten_cons, hcr, List.append_assoc, List.cons_append,
      List.nil_append]
    rw [crlfLinesFrom_clean l (hls l (List.mem_cons_self _ _))]
    simp only [List.nil_append, List.cons.injEq, true_and]
    have := ih fun x hx => hls x (List.mem_cons_of_mem _ hx)
    simpa [hcr] using this

namespace ICSGenerator

theorem generateVEvent_eq_join (h : Host) (event : Event) (index : Nat)
    (timestamp : JSString) (hv : validateEvent h event = .ok ()) :
    generateVEvent h event index timestamp =
      .ok (((veventLines h event index timestamp).map fun l => l ++ lit "\r\n").flatten) := by
  rw [generateVEvent_eq h event index timestamp hv]
  have hcr : lit "\r\n" = 13 :: 10 :: [] := rfl
  have e1 : lit "BEGIN:VEVENT\r\n" = lit "BEGIN:VEVENT" ++ lit "\r\n" := rfl
  have e2 : lit "END:VEVENT\r\n" = lit "END:VEVENT" ++ lit "\r\n" := rfl
  have e3 : lit "BEGIN:VALARM\r\n" = lit "BEGIN:VALARM" ++ lit "\r\n" := rfl
  have e4 : lit "M\r\n" = lit "M" ++ lit "\r\n" := rfl
  have e5 : lit "ACTION:DISPLAY\r\n" = lit "ACTION:DISPLAY" ++ lit "\r\n" := rfl
  have e6 : lit "END:VALARM\r\n" = lit "END:VALARM" ++ lit "\r\n" := rfl
  simp only [veventHead, categoriesLine, descriptionLine, alarmBlock, veventLines,
    generateAlarm_eq, e1, e2, e3, e4, e5, e6]
  cases hd : (truthy event.description && trim (str event.description) != []) <;>
    cases hr : (truthy event.reminder && str event.reminder != lit "0") <;>
    simp [List.append_assoc]

end ICSGenerator

theorem not_cr_of_digits {s : JSString} (hs : ∀ u ∈ s, (48 ≤ u ∧ u ≤ 57) ∨ u = 45 ∨ u = 58) :
    13 ∉ s := by
  intro h
  rcases hs 13 h with h1 | h1 | h1 <;> omega

theorem valid_time_units {s : JSString} (hs : timeRegex.test s = true) :
    ∀ u ∈ s, (48 ≤ u ∧ u ≤ 57) ∨ u = 45 ∨ u = 58 := by
  rw [timeRegex_test_iff_shape] at hs
  obtain ⟨m1, m2, h1, h2, h3, h4, ⟨a, rfl, ha⟩ | ⟨a, b, rfl, hab⟩⟩ := hs
  · intro u hu
    simp only [List.mem_cons, List.mem_singleton, List.not_mem_nil, or_false] at hu
    rcases hu with rfl | rfl | rfl | rfl <;> omega
  · intro u hu
    simp only [List.mem_cons, List.mem_singleton, List.not_mem_nil, or_false] at hu
    rcases hu with rfl | rfl | rfl | rfl | rfl <;> omega

theorem valid_date_units {s : JSString} (hs : dateRegex.test s = true) :
    ∀ u ∈ s, (48 ≤ u ∧ u ≤ 57) ∨ u = 45 ∨ u = 58 := by
  obtain ⟨y1, y2, y3, y4, m1, m2, d1, d2, rfl, h⟩ := dateRegex_shape hs
  intro u hu
  simp only [List.mem_cons, List.mem_singleton, List.not_mem_nil, or_false] at hu
  rcases hu with rfl | rfl | rfl | rfl | rfl | rfl | rfl | rfl | rfl | rfl <;> omega

theorem mem_replaceAll_nil {c x : Nat} {s : JSString} (hx : x ∈ replaceAll c [] s) : x ∈ s := by
  simp only [replaceAll, List.mem_flatten, List.mem_map] at hx
  obtain ⟨l, ⟨y, hy, rfl⟩, hx⟩ := hx
  split_ifs at hx with hyc
  · simp at hx
  · simp only [List.mem_singleton] at hx
    exact hx ▸ hy

theorem mem_removeFirst {c x : Nat} {s : JSString} (hx : x ∈ removeFirst c s) : x ∈ s :=
  List.mem_of_mem_erase hx

theorem veventLines_clean (h : Host) (event : Event) (index : Nat) (timestamp : JSString)
    (hv : ICSGenerator.validateEvent h event = .ok ())
    (ht : 13 ∉ timestamp)
    (hc : 13 ∉ h.toUpperCase
      (if truthy event.category then str event.category else lit "other"))
    (hr : 13 ∉ str event.reminder) :
    ∀ l ∈ veventLines h event index timestamp, 13 ∉ l := by
  obtain ⟨-, ⟨-, hd⟩, ⟨-, hs⟩, ⟨-, he⟩, -⟩ := (ICSGenerator.validateEvent_ok_iff h event).mp hv
  have hd' : dateRegex.test (str event.date) = true := by
    simp only [ICSGenerator.isValidDate, Bool.and_eq_true] at hd
    exact hd.2
  have hdate : 13 ∉ replaceAll 45 [] (str event.date) :=
    fun hx => not_cr_of_digits (valid_date_units hd') (mem_replaceAll_nil hx)
  have hst : 13 ∉ removeFirst 58 (str event.startTime) :=
    fun hx => not_cr_of_digits (valid_time_units hs) (mem_removeFirst hx)
  have het : 13 ∉ removeFirst 58 (str event.endTime) :=
    fun hx => not_cr_of_digits (valid_time_units he) (mem_removeFirst hx)
  have hidx : 13 ∉ lit (Nat.repr index) := fun hx => by
    have := lit_repr_digits index 13 hx
    omega
  have h1 := (not_mem_escapeICSValue event.title).1
  have h2 := (not_mem_escapeICSValue event.description).1
  have l1 : 13 ∉ lit "BEGIN:VEVENT" := by decide
  have l2 : 13 ∉ lit "UID:" := by decide
  have l3 : 13 ∉ lit "event-" := by decide
  have l4 : 13 ∉ lit "-" := by decide
  have l5 : 13 ∉ lit "@aischeduler.com" := by decide
  have l6 : 13 ∉ lit "DTSTAMP:" := by decide
  have l7 : 13 ∉ lit "DTSTART:" := by decide
  have l8 : 13 ∉ lit "T" := by decide
  have l9 : 13 ∉ lit "00" := by decide
  have l10 : 13 ∉ lit "DTEND:" := by decide
  have l11 : 13 ∉ lit "SUMMARY:" := by decide
  have l12 : 13 ∉ lit "CATEGORIES:" := by decide
  have l13 : 13 ∉ lit "DESCRIPTION:" := by decide
  have l14 : 13 ∉ lit "BEGIN:VALARM" := by decide
  have l15 : 13 ∉ lit "TRIGGER:-PT" := by decide
  have l16 : 13 ∉ lit "M" := by decide
  have l17 : 13 ∉ lit "ACTION:DISPLAY" := by decide
  have l18 : 13 ∉ lit "DESCRIPTION:Reminder: " := by decide
  have l19 : 13 ∉ lit "END:VALARM" := by decide
  have l20 : 13 ∉ lit "END:VEVENT" := by decide
  intro l hl
  simp only [veventLines, List.mem_append, List.mem_cons, List.mem_singleton,
    List.not_mem_nil, or_false] at hl
  rcases hl with ((hl | hl) | hl) | hl
  · rcases hl with rfl | rfl | rfl | rfl | rfl | rfl | rfl <;>
      (try simp only [List.mem_append, not_or]) <;> tauto
  · split_ifs at hl
    · simp only [List.mem_singleton] at hl
      subst hl
      simp only [List.mem_append, not_or]; tauto
    · simp at hl
  · split_ifs at hl
    · simp only [List.mem_cons, List.mem_singleton, List.not_mem_nil, or_false] at hl
      rcases hl with rfl | rfl | rfl | rfl | rfl <;>
        (try simp only [List.mem_append, not_or]) <;> tauto
    · simp at hl
  · subst hl
    exact l20

theorem generateVEvent_lines (h : Host) (event : Event) (index : Nat) (timestamp : JSString)
    (hv : ICSGenerator.validateEvent h event = .ok ())
    (ht : 13 ∉ timestamp)
    (hc : 13 ∉ h.toUpperCase
      (if truthy event.category then str event.category else lit "other"))
    (hr : 13 ∉ str event.reminder) :
    ∃ doc, ICSGenerator.generateVEvent h event index timestamp = .ok doc ∧
      crlfLines doc = veventLines h event index timestamp :=
  ⟨_, ICSGenerator.generateVEvent_eq_join h event index timestamp hv,
    crlfLines_join _ (veventLines_clean h event index timestamp hv ht hc hr)⟩

theorem heads_eq {a b : JSString} (e : a = b) {x y : Nat} (ha : a.head? = some x)
    (hb : b.head? = some y) : x = y := by
  rw [e, hb] at ha
  exact (Option.some.inj ha).symm

theorem veventLines_no_alarm (h : Host) (event : Event) (index : Nat) (timestamp : JSString)
    (hr : ¬(truthy event.reminder = true ∧ str event.reminder ≠ lit "0")) :
    lit "BEGIN:VALARM" ∉ veventLines h event index timestamp ∧
    lit "END:VALARM" ∉ veventLines h event index timestamp := by
  have hr' : (truthy event.reminder && str event.reminder != lit "0") = false := by
    cases ht : truthy event.reminder
    · rfl
    · have : str event.reminder = lit "0" := by
        by_contra hne
        exact hr ⟨ht, hne⟩
      simp [this]
  simp only [veventLines, hr', Bool.false_eq_true, if_false, List.append_nil]
  constructor
  · intro hm
    simp only [List.mem_append, List.mem_cons, List.mem_singleton, List.not_mem_nil,
      or_false] at hm
    rcases hm with (hm | hm) | hm
    · rcases hm with hm | hm | hm | hm | hm | hm | hm
      · exact absurd hm (by decide)
      all_goals exact absurd (heads_eq hm rfl rfl) (by decide)
    · split_ifs at hm
      · simp only [List.mem_singleton] at hm
        exact absurd (heads_eq hm rfl rfl) (by decide)
      · simp at hm
    · exact absurd hm (by decide)
  · intro hm
    simp only [List.mem_append, List.mem_cons, List.mem_singleton, List.not_mem_nil,
      or_false] at hm
    rcases hm with (hm | hm) | hm
    · rcases hm with hm | hm | hm | hm | hm | hm | hm
      · exact absurd hm (by decide)
      all_goals exact absurd (heads_eq hm rfl rfl) (by decide)
    · split_ifs at hm
      · simp only [List.mem_singleton] at hm
        exact absurd (heads_eq hm rfl rfl) (by decide)
      · simp at hm
    · exact absurd hm (by decide)

theorem veventLines_categories (h : Host) (event : Event) (index : Nat)
    (timestamp : JSString) :
    ((veventLines h event index timestamp).filter
      fun l => (lit "CATEGORIES:").isPrefixOf l) =
      [lit "CATEGORIES:" ++
        h.toUpperCase (if truthy event.category then str event.category else lit "other")] ∧
    (veventLines h event index timestamp)[6]? =
      some (lit "CATEGORIES:" ++
        h.toUpperCase (if truthy event.category then str event.category else lit "other")) := by
  have f0 : (lit "CATEGORIES:").isPrefixOf (lit "BEGIN:VEVENT") = false := rfl
  have f1 : ∀ x : JSString, (lit "CATEGORIES:").isPrefixOf (lit "UID:" ++ x) = false :=
    fun _ => rfl
  have f2 : ∀ x : JSString, (lit "CATEGORIES:").isPrefixOf (lit "DTSTAMP:" ++ x) = false :=
    fun _ => rfl
  have f3 : ∀ x : JSString, (lit "CATEGORIES:").isPrefixOf (lit "DTSTART:" ++ x) = false :=
    fun _ => rfl
  have f4 : ∀ x : JSString, (lit "CATEGORIES:").isPrefixOf (lit "DTEND:" ++ x) = false :=
    fun _ => rfl
  have f5 : ∀ x : JSString, (lit "CATEGORIES:").isPrefixOf (lit "SUMMARY:" ++ x) = false :=
    fun _ => rfl
  have f6 : ∀ x : JSString, (lit "CATEGORIES:").isPrefixOf (lit "CATEGORIES:" ++ x) = true :=
    fun x => List.isPrefixOf_iff_prefix.mpr (List.prefix_append _ _)
  have f7 : ∀ x : JSString,
      (lit "CATEGORIES:").isPrefixOf (lit "DESCRIPTION:" ++ x) = false := fun _ => rfl
  have f8 : (lit "CATEGORIES:").isPrefixOf (lit "BEGIN:VALARM") = false := rfl
  have f9 : ∀ x : JSString,
      (lit "CATEGORIES:").isPrefixOf (lit "TRIGGER:-PT" ++ x) = false := fun _ => rfl
  have f10 : (lit "CATEGORIES:").isPrefixOf (lit "ACTION:DISPLAY") = false := rfl
  have f11 : ∀ x : JSString,
      (lit "CATEGORIES:").isPrefixOf (lit "DESCRIPTION:Reminder: " ++ x) = false :=
    fun _ => rfl
  have f12 : (lit "CATEGORIES:").isPrefixOf (lit "END:VALARM") = false := rfl
  have f13 : (lit "CATEGORIES:").isPrefixOf (lit "END:VEVENT") = false := rfl
  simp only [veventLines]
  cases (truthy event.description && trim (str event.description) != []) <;>
    cases (truthy event.reminder && str event.reminder != lit "0") <;>
    refine ⟨?_, rfl⟩ <;>
    simp only [Bool.false_eq_true, if_false, if_true, List.append_nil, List.cons_append,
      List.nil_append, List.filter_cons, List.filter_nil, f0, f1, f2, f3, f4, f5, f6, f7, f8,
      f9, f10, f11, f12, f13, List.append_assoc, List.length_cons, List.length_nil]

theorem veventLines_description (h : Host) (event : Event) (index : Nat)
    (timestamp : JSString) :
    (truthy event.description = true ∧ trim (str event.description) ≠ [] →
      (veventLines h event index timestamp)[7]? =
        some (lit "DESCRIPTION:" ++ ICSGenerator.escapeICSValue event.description)) ∧
    (¬(truthy event.description = true ∧ trim (str event.description) ≠ []) →
      ∀ x, (veventLines h event index timestamp)[7]? ≠ some (lit "DESCRIPTION:" ++ x)) := by
  constructor
  · intro hd
    have hd' : (truthy event.description && trim (str event.description) != []) = true := by
      simp [hd.1, hd.2]
    simp only [veventLines, hd', if_true]
    cases (truthy event.reminder && str event.reminder != lit "0") <;> rfl
  · intro hd x
    have hd' : (truthy event.description && trim (str event.description) != []) = false := by
      cases ht : truthy event.description
      · rfl
      · have : trim (str event.description) = [] := by
          by_contra hne
          exact hd ⟨ht, hne⟩
        simp [this]
    simp only [veventLines, hd', Bool.false_eq_true, if_false, List.append_nil]
    cases (truthy event.reminder && str event.reminder != lit "0")
    · intro he
      have he' : some (lit "END:VEVENT") = some (lit "DESCRIPTION:" ++ x) := he
      exact absurd (heads_eq (Option.some.inj he') rfl rfl) (by decide)
    · intro he
      have he' : some (lit "BEGIN:VALARM") = some (lit "DESCRIPTION:" ++ x) := he
      exact absurd (heads_eq (Option.some.inj he') rfl rfl) (by decide)

/-- C17: for an event that passes the encoder's validation, `generateVEvent` writes an
alarm block exactly when the reminder is present (a non-empty string) and is not '0';
the block is the five lines BEGIN:VALARM, TRIGGER:-PT<reminder>M, ACTION:DISPLAY,
DESCRIPTION:Reminder: <escaped title>, END:VALARM, placed right before END:VEVENT;
otherwise END:VEVENT follows the DESCRIPTION or CATEGORIES line directly.  The text
before the block does not depend on the reminder.  When timestamp, upper-cased category
and reminder hold no carriage return, the lines of the VEVENT are its segments, and
without a reminder none of them is BEGIN:VALARM or END:VALARM. -/
theorem generateVEvent_alarm_iff_reminder (h : Host) (event : Event) (index : Nat)
    (timestamp : JSString) (hv : ICSGenerator.validateEvent h event = .ok ()) :
    (truthy event.reminder = true ∧ str event.reminder ≠ lit "0" →
      ICSGenerator.generateVEvent h event index timestamp =
        .ok (veventHead event index timestamp ++ categoriesLine h event ++
          descriptionLine event ++
          (lit "BEGIN:VALARM\r\n" ++ (lit "TRIGGER:-PT" ++ str event.reminder ++ lit "M\r\n") ++
            lit "ACTION:DISPLAY\r\n" ++
            (lit "DESCRIPTION:Reminder: " ++ ICSGenerator.escapeICSValue event.title ++
              lit "\r\n") ++
            lit "END:VALARM\r\n") ++
          lit "END:VEVENT\r\n")) ∧
    (¬(truthy event.reminder = true ∧ str event.reminder ≠ lit "0") →
      ICSGenerator.generateVEvent h event index timestamp =
        .ok (veventHead event index timestamp ++ categoriesLine h event ++
          descriptionLine event ++ lit "END:VEVENT\r\n")) ∧
    (∀ r, veventHead { event with reminder := r } index timestamp =
        veventHead event index timestamp ∧
      categoriesLine h { event with reminder := r } = categoriesLine h event ∧
      descriptionLine { event with reminder := r } = descriptionLine event) ∧
    (13 ∉ timestamp →
      13 ∉ h.toUpperCase
        (if truthy event.category then str event.category else lit "other") →
      13 ∉ str event.reminder →
      ∃ doc, ICSGenerator.generateVEvent h event index timestamp = .ok doc ∧
        crlfLines doc = veventLines h event index timestamp ∧
        (¬(truthy event.reminder = true ∧ str event.reminder ≠ lit "0") →
          lit "BEGIN:VALARM" ∉ crlfLines doc ∧ lit "END:VALARM" ∉ crlfLines doc)) := by
  have heq := ICSGenerator.generateVEvent_eq h event index timestamp hv
  refine ⟨fun hr => ?_, fun hr => ?_, fun r => ⟨rfl, rfl, rfl⟩, fun ht hc hcr => ?_⟩
  · have ha : alarmBlock event =
        ICSGenerator.generateAlarm (str event.reminder) event.title := by
      simp [alarmBlock, hr.1, hr.2]
    rw [heq, ha, ICSGenerator.generateAlarm_eq]
  · have ha : alarmBlock event = [] := by
      simp only [alarmBlock]
      rw [if_neg]
      simpa using hr
    rw [heq, ha, List.append_nil]
  · obtain ⟨doc, hdoc, hl⟩ := generateVEvent_lines h event index timestamp hv ht hc hcr
    refine ⟨doc, hdoc, hl, fun hn => ?_⟩
    rw [hl]
    exact veventLines_no_alarm h event index timestamp hn

/-- Witness for C17: the stand-up, whose reminder is '15', has the line TRIGGER:-PT15M
in its alarm block, right before END:VEVENT. -/
theorem generateVEvent_alarm_iff_reminder_witness :
    ICSGenerator.validateEvent asciiHost standup = .ok () ∧
    (truthy standup.reminder = true ∧ str standup.reminder ≠ lit "0") ∧
    ICSGenerator.generateVEvent asciiHost standup 0 (lit "20240301T120000Z") =
      .ok (veventHead standup 0 (lit "20240301T120000Z") ++ categoriesLine asciiHost standup ++
        descriptionLine standup ++
        (lit "BEGIN:VALARM\r\n" ++ (lit "TRIGGER:-PT" ++ lit "15" ++ lit "M\r\n") ++
          lit "ACTION:DISPLAY\r\n" ++
          (lit "DESCRIPTION:Reminder: " ++ lit "Standup" ++ lit "\r\n") ++
          lit "END:VALARM\r\n") ++
        lit "END:VEVENT\r\n") ∧
    (∃ doc, ICSGenerator.generateVEvent asciiHost standup 0 (lit "20240301T120000Z") =
        .ok doc ∧
      crlfLines doc =
        [lit "BEGIN:VEVENT", lit "UID:event-0-20240301T120000Z@aischeduler.com",
         lit "DTSTAMP:20240301T120000Z", lit "DTSTART:20240301T090000",
         lit "DTEND:20240301T091500", lit "SUMMARY:Standup", lit "CATEGORIES:MEETING",
         lit "BEGIN:VALARM", lit "TRIGGER:-PT15M", lit "ACTION:DISPLAY",
         lit "DESCRIPTION:Reminder: Standup", lit "END:VALARM", lit "END:VEVENT"]) := by
  have hw := generateVEvent_alarm_iff_reminder asciiHost standup 0 (lit "20240301T120000Z") rfl
  refine ⟨rfl, ⟨rfl, by decide⟩, hw.1 ⟨rfl, by decide⟩, ?_⟩
  obtain ⟨doc, hdoc, hl, -⟩ := hw.2.2.2 (by decide) (by decide) (by decide)
  exact ⟨doc, hdoc, hl⟩

/-- C18, counterexample: the candidate `wordReminder`, whose reminder is 'soon', passes
the encoder's validation and its VEVENT has the line TRIGGER:-PTsoonM. -/
theorem generateVEvent_trigger_not_a_number :
    ICSGenerator.validateEvent asciiHost wordReminder = .ok () ∧
    ∃ doc, ICSGenerator.generateVEvent asciiHost wordReminder 0 (lit "20240301T120000Z") =
        .ok doc ∧
      (crlfLines doc)[8]? = some (lit "TRIGGER:-PTsoonM") :=
  ⟨rfl, _, rfl, rfl⟩

/-- C18, amended: in every alarm block that the encoder writes, the TRIGGER line is
TRIGGER:-PT<r>M where r is the event's reminder text, copied as it is, whatever it is;
r is neither empty nor '0', so whenever r is the numeral that a natural number N
prints as (digits only, no leading zero), N is positive, and whenever r is the numeral
that an integer N prints as (the same with a minus sign for a negative one), N is not
zero. -/
theorem trigger_copies_reminder (h : Host) (event : Event) (index : Nat)
    (timestamp : JSString) (hv : ICSGenerator.validateEvent h event = .ok ())
    (hr : truthy event.reminder = true ∧ str event.reminder ≠ lit "0") :
    (∃ front back, ICSGenerator.generateVEvent h event index timestamp =
      .ok (front ++ lit "BEGIN:VALARM\r\n" ++
        (lit "TRIGGER:-PT" ++ str event.reminder ++ lit "M\r\n") ++ back)) ∧
    str event.reminder ≠ [] ∧
    str event.reminder ≠ lit "0" ∧
    (∀ n : Nat, str event.reminder = lit (Nat.repr n) → 0 < n) ∧
    (∀ z : Int, str event.reminder = lit (toString z) → z ≠ 0) := by
  refine ⟨⟨veventHead event index timestamp ++ categoriesLine h event ++
      descriptionLine event,
    lit "ACTION:DISPLAY\r\n" ++
      (lit "DESCRIPTION:Reminder: " ++ ICSGenerator.escapeICSValue event.title ++
        lit "\r\n") ++ lit "END:VALARM\r\n" ++ lit "END:VEVENT\r\n", ?_⟩, ?_, hr.2, ?_, ?_⟩
  · have ha : alarmBlock event =
        ICSGenerator.generateAlarm (str event.reminder) event.title := by
      simp [alarmBlock, hr.1, hr.2]
    rw [ICSGenerator.generateVEvent_eq h event index timestamp hv, ha,
      ICSGenerator.generateAlarm_eq]
    simp only [List.append_assoc]
  · intro he
    rcases hrem : event.reminder with _ | ⟨_ | ⟨c, cs⟩⟩
    · simp [hrem, truthy] at hr
    · simp [hrem, truthy] at hr
    · simp [hrem, str] at he
  · intro n hn
    rcases n with _ | n
    · exact absurd hn hr.2
    · exact Nat.succ_pos n
  · intro z hz h0
    subst h0
    exact hr.2 hz

/-- Witness for C18, amended: the stand-up, whose reminder is '15'. -/
theorem trigger_copies_reminder_witness :
    ICSGenerator.validateEvent asciiHost standup = .ok () ∧
    (truthy standup.reminder = true ∧ str standup.reminder ≠ lit "0") ∧
    (∃ front back, ICSGenerator.generateVEvent asciiHost standup 0 (lit "20240301T120000Z") =
      .ok (front ++ lit "BEGIN:VALARM\r\n" ++
        (lit "TRIGGER:-PT" ++ lit "15" ++ lit "M\r\n") ++ back)) ∧
    (∀ n : Nat, lit "15" = lit (Nat.repr n) → 0 < n) :=
  have hw := trigger_copies_reminder asciiHost standup 0 (lit "20240301T120000Z") rfl
    ⟨rfl, by decide⟩
  ⟨rfl, ⟨rfl, by decide⟩, hw.1, hw.2.2.2.1⟩

/-- C19: for an event that passes the encoder's validation, `generateVEvent` writes one
CATEGORIES line, after SUMMARY, whose value is the category upper-cased, or 'other'
upper-cased (OTHER) when the category is absent or empty.  Both validators and the
success of `generateVEvent` are the same for two events that differ only in category.
When timestamp, upper-cased category and reminder hold no carriage return, the lines of
the VEVENT are its segments and exactly one of them starts with CATEGORIES:. -/
theorem generateVEvent_categories_line (h : Host) (event : Event) (index : Nat)
    (timestamp : JSString) (hv : ICSGenerator.validateEvent h event = .ok ()) :
    (truthy event.category = true →
      ICSGenerator.generateVEvent h event index timestamp =
        .ok (veventHead event index timestamp ++
          (lit "CATEGORIES:" ++ h.toUpperCase (str event.category) ++ lit "\r\n") ++
          descriptionLine event ++ alarmBlock event ++ lit "END:VEVENT\r\n")) ∧
    (truthy event.category = false →
      ICSGenerator.generateVEvent h event index timestamp =
        .ok (veventHead event index timestamp ++
          (lit "CATEGORIES:" ++ h.toUpperCase (lit "other") ++ lit "\r\n") ++
          descriptionLine event ++ alarmBlock event ++ lit "END:VEVENT\r\n")) ∧
    (truthy event.category = false → h.toUpperCase (lit "other") = lit "OTHER" →
      ICSGenerator.generateVEvent h event index timestamp =
        .ok (veventHead event index timestamp ++ lit "CATEGORIES:OTHER\r\n" ++
          descriptionLine event ++ alarmBlock event ++ lit "END:VEVENT\r\n")) ∧
    (∀ c : Option JSString,
      ICSGenerator.validateEvent h { event with category := c } =
        ICSGenerator.validateEvent h event ∧
      EventManager.validateEvent h { event with category := c } =
        EventManager.validateEvent h event ∧
      ((∃ b, ICSGenerator.generateVEvent h { event with category := c } index timestamp =
          .ok b) ↔
        ∃ b, ICSGenerator.generateVEvent h event index timestamp = .ok b) ∧
      veventHead { event with category := c } index timestamp =
        veventHead event index timestamp ∧
      descriptionLine { event with category := c } = descriptionLine event ∧
      alarmBlock { event with category := c } = alarmBlock event) ∧
    (13 ∉ timestamp →
      13 ∉ h.toUpperCase
        (if truthy event.category then str event.category else lit "other") →
      13 ∉ str event.reminder →
      ∃ doc, ICSGenerator.generateVEvent h event index timestamp = .ok doc ∧
        crlfLines doc = veventLines h event index timestamp ∧
        ((crlfLines doc).filter fun l => (lit "CATEGORIES:").isPrefixOf l) =
          [lit "CATEGORIES:" ++ h.toUpperCase
            (if truthy event.category then str event.category else lit "other")] ∧
        (crlfLines doc)[6]? =
          some (lit "CATEGORIES:" ++ h.toUpperCase
            (if truthy event.category then str event.category else lit "other"))) := by
  have heq := ICSGenerator.generateVEvent_eq h event index timestamp hv
  refine ⟨fun hc => ?_, fun hc => ?_, fun hc hup => ?_,
    fun c => ⟨rfl, rfl, ?_, rfl, rfl, rfl⟩, fun ht hc hcr => ?_⟩
  · rw [heq, categoriesLine, hc]; rfl
  · rw [heq, categoriesLine, hc]; rfl
  · rw [heq, categoriesLine, hc]
    simp only [Bool.false_eq_true, if_false, hup]
    rfl
  · rw [ICSGenerator.generateVEvent_ok_iff, ICSGenerator.generateVEvent_ok_iff]
    exact Iff.rfl
  · obtain ⟨doc, hdoc, hl⟩ := generateVEvent_lines h event index timestamp hv ht hc hcr
    refine ⟨doc, hdoc, hl, ?_, ?_⟩
    · rw [hl]; exact (veventLines_categories h event index timestamp).1
    · rw [hl]; exact (veventLines_categories h event index timestamp).2

/-- Witness for C19: the stand-up, whose category 'meeting' gives CATEGORIES:MEETING,
and the same event without category, which gives CATEGORIES:OTHER. -/
theorem generateVEvent_categories_line_witness :
    ICSGenerator.validateEvent asciiHost standup = .ok () ∧
    ICSGenerator.validateEvent asciiHost { standup with category := none } = .ok () ∧
    asciiHost.toUpperCase (lit "other") = lit "OTHER" ∧
    ICSGenerator.generateVEvent asciiHost standup 0 (lit "20240301T120000Z") =
      .ok (veventHead standup 0 (lit "20240301T120000Z") ++
        (lit "CATEGORIES:" ++ lit "MEETING" ++ lit "\r\n") ++
        descriptionLine standup ++ alarmBlock standup ++ lit "END:VEVENT\r\n") ∧
    ICSGenerator.generateVEvent asciiHost { standup with category := none } 0
        (lit "20240301T120000Z") =
      .ok (veventHead { standup with category := none } 0 (lit "20240301T120000Z") ++
        lit "CATEGORIES:OTHER\r\n" ++
        descriptionLine { standup with category := none } ++
        alarmBlock { standup with category := none } ++ lit "END:VEVENT\r\n") ∧
    (∃ doc, ICSGenerator.generateVEvent asciiHost standup 0 (lit "20240301T120000Z") =
        .ok doc ∧
      ((crlfLines doc).filter fun l => (lit "CATEGORIES:").isPrefixOf l) =
        [lit "CATEGORIES:MEETING"]) := by
  have hw := generateVEvent_categories_line asciiHost standup 0 (lit "20240301T120000Z") rfl
  refine ⟨rfl, rfl, rfl, hw.1 rfl,
    (generateVEvent_categories_line asciiHost { standup with category := none } 0
      (lit "20240301T120000Z") rfl).2.2.1 rfl rfl, ?_⟩
  obtain ⟨doc, hdoc, -, hf, -⟩ := hw.2.2.2.2 (by decide) (by decide) (by decide)
  exact ⟨doc, hdoc, hf⟩

/-- C20: for an event that passes the encoder's validation, `generateVEvent` writes an
event-level DESCRIPTION line, between the CATEGORIES line and the alarm block or
END:VEVENT, exactly when the description is present and not empty after trimming; its
value is `escapeICSValue(description)`.  When timestamp, upper-cased category and
reminder hold no carriage return, the lines of the VEVENT are its segments: line 6 is
the CATEGORIES line and line 7 is the DESCRIPTION line exactly in that case. -/
theorem generateVEvent_description_line (h : Host) (event : Event) (index : Nat)
    (timestamp : JSString) (hv : ICSGenerator.validateEvent h event = .ok ()) :
    (truthy event.description = true ∧ trim (str event.description) ≠ [] →
      ICSGenerator.generateVEvent h event index timestamp =
        .ok (veventHead event index timestamp ++ categoriesLine h event ++
          (lit "DESCRIPTION:" ++ ICSGenerator.escapeICSValue event.description ++
            lit "\r\n") ++
          alarmBlock event ++ lit "END:VEVENT\r\n")) ∧
    (¬(truthy event.description = true ∧ trim (str event.description) ≠ []) →
      ICSGenerator.generateVEvent h event index timestamp =
        .ok (veventHead event index timestamp ++ categoriesLine h event ++
          alarmBlock event ++ lit "END:VEVENT\r\n")) ∧
    (∀ d, veventHead { event with description := d } index timestamp =
        veventHead event index timestamp ∧
      categoriesLine h { event with description := d } = categoriesLine h event ∧
      alarmBlock { event with description := d } = alarmBlock event) ∧
    (13 ∉ timestamp →
      13 ∉ h.toUpperCase
        (if truthy event.category then str event.category else lit "other") →
      13 ∉ str event.reminder →
      ∃ doc, ICSGenerator.generateVEvent h event index timestamp = .ok doc ∧
        crlfLines doc = veventLines h event index timestamp ∧
        (crlfLines doc)[6]? =
          some (lit "CATEGORIES:" ++ h.toUpperCase
            (if truthy event.category then str event.category else lit "other")) ∧
        (truthy event.description = true ∧ trim (str event.description) ≠ [] →
          (crlfLines doc)[7]? =
            some (lit "DESCRIPTION:" ++ ICSGenerator.escapeICSValue event.description)) ∧
        (¬(truthy event.description = true ∧ trim (str event.description) ≠ []) →
          ∀ x, (crlfLines doc)[7]? ≠ some (lit "DESCRIPTION:" ++ x))) := by
  have heq := ICSGenerator.generateVEvent_eq h event index timestamp hv
  refine ⟨fun hd => ?_, fun hd => ?_, fun d => ⟨rfl, rfl, rfl⟩, fun ht hc hcr => ?_⟩
  · have hl : descriptionLine event =
        lit "DESCRIPTION:" ++ ICSGenerator.escapeICSValue event.description ++ lit "\r\n" := by
      simp [descriptionLine, hd.1, hd.2]
    rw [heq, hl]
  · have hl : descriptionLine event = [] := by
      simp only [descriptionLine]
      rw [if_neg]
      simpa using hd
    rw [heq, hl, List.append_nil]
  · obtain ⟨doc, hdoc, hl⟩ := generateVEvent_lines h event index timestamp hv ht hc hcr
    refine ⟨doc, hdoc, hl, ?_, ?_, ?_⟩
    · rw [hl]; exact (veventLines_categories h event index timestamp).2
    · rw [hl]; exact (veventLines_description h event index timestamp).1
    · rw [hl]; exact (veventLines_description h event index timestamp).2

/-- Witness for C20: the candidate `teamLunch`, whose description
'Team lunch; bring badge' gives the line DESCRIPTION:Team lunch\; bring badge after the
CATEGORIES line. -/
theorem generateVEvent_description_line_witness :
    ICSGenerator.validateEvent asciiHost teamLunch = .ok () ∧
    (truthy teamLunch.description = true ∧ trim (str teamLunch.description) ≠ []) ∧
    ICSGenerator.generateVEvent asciiHost teamLunch 2 (lit "20240301T120000Z") =
      .ok (veventHead teamLunch 2 (lit "20240301T120000Z") ++
        categoriesLine asciiHost teamLunch ++
        (lit "DESCRIPTION:" ++ lit "Team lunch\\; bring badge" ++ lit "\r\n") ++
        alarmBlock teamLunch ++ lit "END:VEVENT\r\n") ∧
    (∃ doc, ICSGenerator.generateVEvent asciiHost teamLunch 2 (lit "20240301T120000Z") =
        .ok doc ∧
      (crlfLines doc)[6]? = some (lit "CATEGORIES:OTHER") ∧
      (crlfLines doc)[7]? = some (lit "DESCRIPTION:Team lunch\\; bring badge") ∧
      (crlfLines doc)[8]? = some (lit "END:VEVENT")) := by
  have hw := generateVEvent_description_line asciiHost teamLunch 2 (lit "20240301T120000Z") rfl
  refine ⟨rfl, ⟨rfl, by decide⟩, hw.1 ⟨rfl, by decide⟩, ?_⟩
  obtain ⟨doc, hdoc, hl, h6, h7, -⟩ := hw.2.2.2 (by decide) (by decide) (by decide)
  refine ⟨doc, hdoc, h6, h7 ⟨rfl, by decide⟩, ?_⟩
  rw [hl]
  rfl

/-! ## Unique identifiers -/

theorem decode_toDigitsCore (f n : Nat) (ds : List Char) (hn : n < f) :
    List.foldl (fun a u => a * 10 + (u - 48)) 0
        ((Nat.toDigitsCore 10 f n ds).map utf16Char).flatten =
      List.foldl (fun a u => a * 10 + (u - 48)) n (ds.map utf16Char).flatten := by
  induction f generalizing n ds with
  | zero => omega
  | succ f ih =>
    have hd : utf16Char (Nat.digitChar (n % 10)) = [48 + n % 10] := by
      have hlt : n % 10 < 10 := Nat.mod_lt _ (by decide)
      generalize n % 10 = d at hlt
      interval_cases d <;> decide
    simp only [Nat.toDigitsCore]
    split_ifs with h0
    · simp only [List.map_cons, List.flatten_cons, hd, List.singleton_append, List.foldl_cons]
      congr 1
      omega
    · rw [ih (n / 10) _ (by omega)]
      simp only [List.map_cons, List.flatten_cons, hd, List.singleton_append, List.foldl_cons]
      congr 1
      omega

theorem decode_repr (n : Nat) :
    List.foldl (fun a u => a * 10 + (u - 48)) 0 (lit (Nat.repr n)) = n := by
  have h := decode_toDigitsCore (n + 1) n [] (Nat.lt_succ_self n)
  simpa [lit, Nat.repr, Nat.toDigits] using h

theorem lit_repr_injective {i j : Nat} (h : lit (Nat.repr i) = lit (Nat.repr j)) : i = j := by
  have hi := decode_repr i
  rw [h, decode_repr j] at hi
  exact hi.symm

theorem eventUid_injective {i j : Nat} {t : JSString} (h : eventUid i t = eventUid j t) :
    i = j := by
  unfold eventUid at h
  simp only [List.append_assoc] at h
  exact lit_repr_injective (List.append_cancel_right (List.append_cancel_left h))

theorem blocks_eq_valid (h : Host) (t : JSString) (l : List (Nat × Event)) :
    l.filterMap (fun p => (ICSGenerator.generateVEvent h p.2 p.1 t).toOption) =
      (l.filter fun p => (ICSGenerator.validateEvent h p.2).toBool).map
        fun p => ((veventLines h p.2 p.1 t).map fun s => s ++ lit "\r\n").flatten := by
  induction l with
  | nil => rfl
  | cons p rest ih =>
    cases hv : ICSGenerator.validateEvent h p.2 with
    | error m =>
      have hg : ICSGenerator.generateVEvent h p.2 p.1 t = .error m := by
        unfold ICSGenerator.generateVEvent
        rw [hv]
      simp only [List.filterMap_cons, hg, Except.toOption, List.filter_cons, hv, Except.toBool]
      simpa using ih
    | ok u =>
      have hg := ICSGenerator.generateVEvent_eq_join h p.2 p.1 t hv
      simp only [List.filterMap_cons, hg, Except.toOption, List.filter_cons, hv, Except.toBool]
      simpa using ih

theorem generateICS_eq_valid (h : Host) (events : List Event) (t : JSString)
    (hne : events ≠ []) :
    ICSGenerator.generateICS h (.array events) t =
      .ok (calendarHeader ++
        ((events.enum.filter fun p => (ICSGenerator.validateEvent h p.2).toBool).map
          fun p => ((veventLines h p.2 p.1 t).map fun s => s ++ lit "\r\n").flatten).flatten ++
        lit "END:VCALENDAR\r\n") := by
  cases events with
  | nil => exact absurd rfl hne
  | cons e es =>
    simp only [ICSGenerator.generateICS, ICSGenerator.forEachEvent_eq]
    have hh : lit "BEGIN:VCALENDAR\r\n" ++ lit "VERSION:2.0\r\n" ++
        (lit "PRODID:" ++ ICSGenerator.productId ++ lit "\r\n") ++
        lit "CALSCALE:GREGORIAN\r\n" ++ lit "METHOD:PUBLISH\r\n" = calendarHeader := by
      decide
    rw [hh, ← blocks_eq_valid]
    rfl

theorem flatten_map_flatten {α β : Type} (f : α → List β) (blocks : List (List α)) :
    (blocks.map fun b => (b.map f).flatten).flatten = (blocks.flatten.map f).flatten := by
  induction blocks with
  | nil => rfl
  | cons b bs ih => simp [ih]

theorem document_lines (blocks : List (List JSString)) :
    calendarHeader ++
        (blocks.map fun b => (b.map fun s => s ++ lit "\r\n").flatten).flatten ++
        lit "END:VCALENDAR\r\n" =
      ((headerLines ++ blocks.flatten ++ [lit "END:VCALENDAR"]).map
        fun s => s ++ lit "\r\n").flatten := by
  have hh : calendarHeader = (headerLines.map fun s => s ++ lit "\r\n").flatten := by decide
  have he : lit "END:VCALENDAR\r\n" = lit "END:VCALENDAR" ++ lit "\r\n" := rfl
  rw [hh, he, flatten_map_flatten]
  simp only [List.map_append, List.flatten_append, List.map_cons, List.map_nil,
    List.flatten_cons, List.flatten_nil, List.append_nil]

/-- C21: for a non-empty array of events and generation timestamp `t`, the document of
`generateICS` holds one block for each event that passes the encoder's validation, in
input order; in the block of the event at input position `i` the segment after
BEGIN:VEVENT is `UID:event-<i>-<t>@aischeduler.com` and the next one is `DTSTAMP:<t>`,
with the same `t` in every block; different positions give different UID values, so
the UID values of the document are pairwise distinct.  When the timestamp and the
upper-cased category and the reminder of every valid event hold no carriage return, the
lines of the document are the header lines, these segments and END:VCALENDAR. -/
theorem generateICS_uids_distinct (h : Host) (events : List Event) (t : JSString)
    (hne : events ≠ []) :
    ∃ valid : List (Nat × Event),
      valid = events.enum.filter (fun p => (ICSGenerator.validateEvent h p.2).toBool) ∧
      ICSGenerator.generateICS h (.array events) t =
        .ok (calendarHeader ++
          (valid.map fun p =>
            ((veventLines h p.2 p.1 t).map fun s => s ++ lit "\r\n").flatten).flatten ++
          lit "END:VCALENDAR\r\n") ∧
      (∀ p ∈ valid, events[p.1]? = some p.2 ∧
        ICSGenerator.validateEvent h p.2 = .ok () ∧
        (veventLines h p.2 p.1 t)[0]? = some (lit "BEGIN:VEVENT") ∧
        (veventLines h p.2 p.1 t)[1]? = some (lit "UID:" ++ eventUid p.1 t) ∧
        (veventLines h p.2 p.1 t)[2]? = some (lit "DTSTAMP:" ++ t)) ∧
      (valid.map fun p => eventUid p.1 t).Nodup ∧
      (∀ i j, eventUid i t = eventUid j t → i = j) ∧
      (13 ∉ t →
        (∀ p ∈ valid, 13 ∉ h.toUpperCase
            (if truthy p.2.category then str p.2.category else lit "other") ∧
          13 ∉ str p.2.reminder) →
        ∃ doc, ICSGenerator.generateICS h (.array events) t = .ok doc ∧
          crlfLines doc =
            headerLines ++ (valid.map fun p => veventLines h p.2 p.1 t).flatten ++
              [lit "END:VCALENDAR"]) := by
  have hvalid : ∀ p ∈ events.enum.filter
      (fun p => (ICSGenerator.validateEvent h p.2).toBool),
      events[p.1]? = some p.2 ∧ ICSGenerator.validateEvent h p.2 = .ok () := by
    intro p hp
    obtain ⟨hm, hv⟩ := List.mem_filter.mp hp
    refine ⟨List.mk_mem_enum_iff_getElem?.mp hm, ?_⟩
    cases hv2 : ICSGenerator.validateEvent h p.2 with
    | error m => simp [hv2, Except.toBool] at hv
    | ok u => rfl
  refine ⟨_, rfl, generateICS_eq_valid h events t hne, fun p hp => ?_, ?_,
    fun i j hij => eventUid_injective hij, fun ht hclean => ?_⟩
  · exact ⟨(hvalid p hp).1, (hvalid p hp).2, rfl, rfl, rfl⟩
  · have hfst : ((events.enum.filter
        fun p => (ICSGenerator.validateEvent h p.2).toBool).map Prod.fst).Nodup := by
      refine List.Nodup.sublist (List.Sublist.map _ (List.filter_sublist _)) ?_
      rw [List.enum_map_fst]
      exact List.nodup_range _
    have := List.Nodup.map (f := fun i => eventUid i t)
      (fun i j hij => eventUid_injective hij) hfst
    simpa [List.map_map, Function.comp_def] using this
  · refine ⟨_, generateICS_eq_valid h events t hne, ?_⟩
    have hd := document_lines
      ((events.enum.filter fun p => (ICSGenerator.validateEvent h p.2).toBool).map
        fun p => veventLines h p.2 p.1 t)
    simp only [List.map_map, Function.comp_def] at hd
    rw [hd]
    apply crlfLines_join
    intro l hl
    simp only [List.mem_append, List.mem_flatten, List.mem_map, List.mem_singleton] at hl
    rcases hl with (hl | ⟨ls, ⟨p, hp, rfl⟩, hl⟩) | rfl
    · revert l
      decide
    · exact veventLines_clean h p.2 p.1 t (hvalid p hp).2 ht (hclean p hp).1 (hclean p hp).2 l hl
    · decide

/-- Witness for C21: in the document of the batch of three, whose second candidate is
not valid, the UID lines are those of positions 0 and 2. -/
theorem generateICS_uids_distinct_witness :
    batchOfThree ≠ [] ∧
    ∃ doc, ICSGenerator.generateICS asciiHost (.array batchOfThree) (lit "20240301T120000Z") =
        .ok doc ∧
      (crlfLines doc).filter (fun l => (lit "UID:").isPrefixOf l) =
        [lit "UID:event-0-20240301T120000Z@aischeduler.com",
         lit "UID:event-2-20240301T120000Z@aischeduler.com"] ∧
      (crlfLines doc).filter (fun l => (lit "DTSTAMP:").isPrefixOf l) =
        [lit "DTSTAMP:20240301T120000Z", lit "DTSTAMP:20240301T120000Z"] := by
  refine ⟨by simp [batchOfThree], ?_⟩
  obtain ⟨valid, hv, -, -, -, -, hl⟩ :=
    generateICS_uids_distinct asciiHost batchOfThree (lit "20240301T120000Z")
      (by simp [batchOfThree])
  subst hv
  obtain ⟨doc, hdoc, hlines⟩ := hl (by decide) (by decide)
  refine ⟨doc, hdoc, ?_⟩
  rw [hlines]
  decide

/-! ## Sorting -/

theorem orderedInsert_congr {α : Type} (r s : α → α → Prop) [DecidableRel r] [DecidableRel s]
    (a : α) (l : List α) (h : ∀ b ∈ l, (r a b ↔ s a b)) :
    l.orderedInsert r a = l.orderedInsert s a := by
  induction l with
  | nil => rfl
  | cons b l ih =>
    have hb := h b (List.mem_cons_self _ _)
    have ih := ih fun c hc => h c (List.mem_cons_of_mem _ hc)
    by_cases hr : r a b
    · simp [List.orderedInsert, hr, hb.mp hr]
    · have hs : ¬s a b := fun hs => hr (hb.mpr hs)
      simp [List.orderedInsert, hr, hs, ih]

theorem insertionSort_congr {α : Type} (r s : α → α → Prop) [DecidableRel r] [DecidableRel s]
    (l : List α) (h : ∀ a ∈ l, ∀ b ∈ l, (r a b ↔ s a b)) :
    l.insertionSort r = l.insertionSort s := by
  induction l with
  | nil => rfl
  | cons a l ih =>
    have ih := ih fun x hx y hy => h x (List.mem_cons_of_mem _ hx) y (List.mem_cons_of_mem _ hy)
    simp only [List.insertionSort, ih]
    apply orderedInsert_congr
    intro b hb
    exact h a (List.mem_cons_self _ _) b
      (List.mem_cons_of_mem _ ((List.mem_insertionSort s).mp hb))

theorem compareEvents_le_iff (timeValue : JSString → Option Int) (a b : Event)
    (ha : (startValue timeValue a).isSome) (hb : (startValue timeValue b).isSome) :
    (EventManager.compareEvents timeValue a b).getD 0 ≤ 0 ↔
      (startValue timeValue a).getD 0 ≤ (startValue timeValue b).getD 0 := by
  unfold startValue at ha hb ⊢
  unfold EventManager.compareEvents
  cases hx : timeValue (interpolate a.date ++ lit "T" ++ interpolate a.startTime) with
  | none =>
    rw [hx] at ha
    cases ha
  | some x =>
    cases hy : timeValue (interpolate b.date ++ lit "T" ++ interpolate b.startTime) with
    | none =>
      rw [hy] at hb
      cases hb
    | some y => simp

theorem arraySort_eq_of_valid (timeValue : JSString → Option Int) (l : List Event)
    (hvalid : ∀ e ∈ l, (startValue timeValue e).isSome) :
    arraySort (EventManager.compareEvents timeValue) l =
      l.insertionSort
        fun a b => (startValue timeValue a).getD 0 ≤ (startValue timeValue b).getD 0 := by
  unfold arraySort
  apply insertionSort_congr
  intro a ha b hb
  exact compareEvents_le_iff timeValue a b (hvalid a ha) (hvalid b hb)

theorem sorted_by_value (timeValue : JSString → Option Int) (l : List Event) :
    (l.insertionSort
      fun a b => (startValue timeValue a).getD 0 ≤ (startValue timeValue b).getD 0).Pairwise
      fun a b => (startValue timeValue a).getD 0 ≤ (startValue timeValue b).getD 0 := by
  haveI : IsTotal Event
      (fun a b => (startValue timeValue a).getD 0 ≤ (startValue timeValue b).getD 0) :=
    ⟨fun a b => le_total _ _⟩
  haveI : IsTrans Event
      (fun a b => (startValue timeValue a).getD 0 ≤ (startValue timeValue b).getD 0) :=
    ⟨fun a b c hab hbc => le_trans hab hbc⟩
  exact List.sorted_insertionSort _ l

theorem compareEvents_eq (timeValue : JSString → Option Int) (a b : Event) :
    EventManager.compareEvents timeValue a b =
      match startValue timeValue a, startValue timeValue b with
      | some x, some y => some (x - y)
      | _, _ => none := rfl

/-- C22, counterexample: on a host in New York the events `skippedHour` (02:45) and
`afterChange` (03:15) of 10 March 2024, both valid, come out of `sortEvents` with the
03:15 event first, although '02:45' is below '03:15' as a string: the skipped local
time 02:45 reads as 07:45 UTC, after 03:15 local, which is 07:15 UTC. -/
theorem sortEvents_across_clock_change :
    ((EventManager.mk [skippedHour, afterChange]).sortEvents newYorkTimeValue).events =
      [afterChange, skippedHour] ∧
    startsNoLater afterChange skippedHour = false ∧
    startsNoLater skippedHour afterChange = true ∧
    (EventManager.validateEvent asciiHost skippedHour).valid = true ∧
    (EventManager.validateEvent asciiHost afterChange).valid = true ∧
    startValue newYorkTimeValue skippedHour = some 1710056700000 ∧
    startValue newYorkTimeValue afterChange = some 1710054900000 := by
  decide

/-- C22, amended: when the date and startTime of every event give a valid `Date`,
`sortEvents` leaves a permutation of the collection that is in ascending order of
the time values of `new Date(date + 'T' + startTime)`, and events with equal time
values, in particular with equal date and startTime, keep their relative order.  The
result is in ascending order of date and then startTime as strings whenever, among
the events of the collection, a time value that is not greater goes with a date and
startTime that are not greater. -/
theorem sortEvents_orders_by_time_value (timeValue : JSString → Option Int)
    (self : EventManager)
    (hvalid : ∀ e ∈ self.events, (startValue timeValue e).isSome) :
    (self.sortEvents timeValue).events.Perm self.events ∧
    (self.sortEvents timeValue).events.Pairwise
      (fun a b => notAfter timeValue a b = true) ∧
    (∀ a b, [a, b].Sublist self.events →
      startValue timeValue a = startValue timeValue b →
      [a, b].Sublist (self.sortEvents timeValue).events) ∧
    (∀ a b, [a, b].Sublist self.events → a.date = b.date → a.startTime = b.startTime →
      [a, b].Sublist (self.sortEvents timeValue).events) ∧
    ((∀ a ∈ self.events, ∀ b ∈ self.events,
        notAfter timeValue a b = true → startsNoLater a b = true) →
      (self.sortEvents timeValue).events.Pairwise fun a b => startsNoLater a b = true) := by
  have hperm : (self.sortEvents timeValue).events.Perm self.events :=
    List.perm_insertionSort _ _
  have hmem : ∀ e ∈ (self.sortEvents timeValue).events, e ∈ self.events :=
    fun e he => hperm.mem_iff.mp he
  have hsorted : (self.sortEvents timeValue).events.Pairwise
      (fun a b => notAfter timeValue a b = true) := by
    have hs := sorted_by_value timeValue self.events
    rw [← arraySort_eq_of_valid timeValue self.events hvalid] at hs
    refine List.Pairwise.imp_of_mem ?_ hs
    intro a b ha hb hab
    have hva := hvalid a (hmem a ha)
    have hvb := hvalid b (hmem b hb)
    unfold notAfter
    cases hx : startValue timeValue a with
    | none => simp [hx] at hva
    | some x =>
      cases hy : startValue timeValue b with
      | none => simp [hy] at hvb
      | some y => simpa [hx, hy] using hab
  have hstable : ∀ a b, [a, b].Sublist self.events →
      startValue timeValue a = startValue timeValue b →
      [a, b].Sublist (self.sortEvents timeValue).events := by
    intro a b hsub heq
    refine List.pair_sublist_insertionSort ?_ hsub
    rw [compareEvents_eq, heq]
    cases startValue timeValue b <;> simp
  refine ⟨hperm, hsorted, hstable, fun a b hsub hd ht => hstable a b hsub ?_, fun hmono => ?_⟩
  · unfold startValue
    rw [hd, ht]
  · refine List.Pairwise.imp_of_mem ?_ hsorted
    intro a b ha hb hab
    exact hmono a (hmem a ha) b (hmem b hb) hab

/-- Witness for C22: on a host whose local time is UTC, the lunch of 2 March followed by
the stand-up of 1 March is sorted into stand-up, lunch. -/
theorem sortEvents_orders_by_time_value_witness :
    (∀ e ∈ (EventManager.mk [teamLunch, standup]).events,
      (startValue utcTimeValue e).isSome) ∧
    ((EventManager.mk [teamLunch, standup]).sortEvents utcTimeValue).events =
      [standup, teamLunch] ∧
    ((EventManager.mk [teamLunch, standup]).sortEvents utcTimeValue).events.Pairwise
      (fun a b => startsNoLater a b = true) := by
  have hv : ∀ e ∈ (EventManager.mk [teamLunch, standup]).events,
      (startValue utcTimeValue e).isSome := by decide
  have hw := sortEvents_orders_by_time_value utcTimeValue (EventManager.mk [teamLunch, standup]) hv
  exact ⟨hv, by decide, hw.2.2.2.2 (by decide)⟩

theorem arraySort_sorted (timeValue : JSString → Option Int) (l : List Event)
    (hvalid : ∀ e ∈ l, (startValue timeValue e).isSome) :
    (arraySort (EventManager.compareEvents timeValue) l).Pairwise
      (fun a b => notAfter timeValue a b = true) := by
  have hmem : ∀ e ∈ arraySort (EventManager.compareEvents timeValue) l, e ∈ l :=
    fun e he => (List.perm_insertionSort _ l).mem_iff.mp he
  have hs := sorted_by_value timeValue l
  rw [← arraySort_eq_of_valid timeValue l hvalid] at hs
  refine List.Pairwise.imp_of_mem ?_ hs
  intro a b ha hb hab
  have hva := hvalid a (hmem a ha)
  have hvb := hvalid b (hmem b hb)
  unfold notAfter
  cases hx : startValue timeValue a with
  | none =>
    rw [hx] at hva
    cases hva
  | some x =>
    cases hy : startValue timeValue b with
    | none =>
      rw [hy] at hvb
      cases hvb
    | some y => simpa [hx, hy] using hab

theorem compare_of_notAfter (timeValue : JSString → Option Int) (a b : Event)
    (h : notAfter timeValue a b = true) :
    (EventManager.compareEvents timeValue a b).getD 0 ≤ 0 := by
  rw [compareEvents_eq]
  unfold notAfter at h
  generalize startValue timeValue a = x at h ⊢
  generalize startValue timeValue b = y at h ⊢
  cases x <;> cases y <;> simp at h ⊢
  omega

theorem arraySort_of_sorted (timeValue : JSString → Option Int) (l : List Event)
    (h : l.Pairwise fun a b => notAfter timeValue a b = true) :
    arraySort (EventManager.compareEvents timeValue) l = l := by
  unfold arraySort
  induction l with
  | nil => rfl
  | cons a l ih =>
    rw [List.pairwise_cons] at h
    rw [List.insertionSort, ih h.2]
    cases l with
    | nil => rfl
    | cons b rest =>
      have hab := compare_of_notAfter timeValue a b (h.1 b (List.mem_cons_self _ _))
      simp only [List.orderedInsert, if_pos hab]

/-- C23: when the date and startTime of every event give a valid `Date`, so that the
comparator is consistent and the language fixes the result of the sort, `sortEvents`
applied to a collection that `sortEvents` has produced returns the same collection,
sort(sort(events)) = sort(events).  The collection it produces again holds valid
dates only and is in ascending order of time values, and every collection that is in
ascending order of time values is left unchanged. -/
theorem sortEvents_idempotent (timeValue : JSString → Option Int) (self : EventManager)
    (hvalid : ∀ e ∈ self.events, (startValue timeValue e).isSome) :
    (self.sortEvents timeValue).sortEvents timeValue = self.sortEvents timeValue ∧
    (∀ e ∈ (self.sortEvents timeValue).events, (startValue timeValue e).isSome) ∧
    (self.sortEvents timeValue).events.Pairwise
      (fun a b => notAfter timeValue a b = true) ∧
    (self.events.Pairwise (fun a b => notAfter timeValue a b = true) →
      self.sortEvents timeValue = self) := by
  have hsorted := arraySort_sorted timeValue self.events hvalid
  refine ⟨?_, fun e he => ?_, hsorted, fun hp => ?_⟩
  · have := arraySort_of_sorted timeValue _ hsorted
    unfold EventManager.sortEvents
    simp only [this]
  · exact hvalid e ((List.perm_insertionSort _ self.events).mem_iff.mp he)
  · have := arraySort_of_sorted timeValue _ hp
    unfold EventManager.sortEvents
    simp only [this]

/-- Witness for C23: on a host whose local time is UTC, the lunch of 2 March followed
by the stand-up of 1 March, both with valid dates, is sorted into stand-up, lunch, and
sorting that again gives the same. -/
theorem sortEvents_idempotent_witness :
    (∀ e ∈ (EventManager.mk [teamLunch, standup]).events,
      (startValue utcTimeValue e).isSome) ∧
    ((EventManager.mk [teamLunch, standup]).sortEvents utcTimeValue).events =
      [standup, teamLunch] ∧
    ((EventManager.mk [teamLunch, standup]).sortEvents utcTimeValue).sortEvents utcTimeValue =
      (EventManager.mk [teamLunch, standup]).sortEvents utcTimeValue := by
  have hv : ∀ e ∈ (EventManager.mk [teamLunch, standup]).events,
      (startValue utcTimeValue e).isSome := by decide
  have hw := sortEvents_idempotent utcTimeValue (EventManager.mk [teamLunch, standup]) hv
  exact ⟨hv, by decide, hw.1⟩

/-! ## JSON round trip -/

theorem hexValue_hexDigit {n : Nat} (hn : n < 16) : hexValue (hexDigit n) = some n := by
  interval_cases n <;> decide

theorem parseChars_quote (rest : JSString) : parseChars (34 :: rest) = some ([], rest) := by
  rw [parseChars.eq_def]
  simp

theorem parseChars_plain {c : Nat} (h34 : c ≠ 34) (h92 : c ≠ 92) (h32 : ¬c < 32)
    (rest : JSString) :
    parseChars (c :: rest) = (parseChars rest).map fun p => (c :: p.1, p.2) := by
  rw [parseChars.eq_def]
  simp [h34, h92, h32]

theorem parseChars_escape {e u : Nat} (he : escapeValue e = some u) (rest : JSString) :
    parseChars (92 :: e :: rest) = (parseChars rest).map fun p => (u :: p.1, p.2) := by
  have h117 : e ≠ 117 := by
    rintro rfl
    simp [escapeValue] at he
  rw [parseChars.eq_3 92 e rest (fun _ _ _ _ _ h _ => h117 h)]
  simp [he]

theorem parseChars_unicodeEscape {c : Nat} (hc : c < 65536) {rest s r : JSString}
    (h : parseChars rest = some (s, r)) :
    parseChars (unicodeEscape c ++ rest) = some (c :: s, r) := by
  have h1 := hexValue_hexDigit (n := c / 4096 % 16) (Nat.mod_lt _ (by decide))
  have h2 := hexValue_hexDigit (n := c / 256 % 16) (Nat.mod_lt _ (by decide))
  have h3 := hexValue_hexDigit (n := c / 16 % 16) (Nat.mod_lt _ (by decide))
  have h4 := hexValue_hexDigit (n := c % 16) (Nat.mod_lt _ (by decide))
  have hsum : c / 4096 % 16 * 4096 + c / 256 % 16 * 256 + c / 16 % 16 * 16 + c % 16 = c := by
    omega
  simp only [unicodeEscape, List.cons_append, List.nil_append]
  rw [parseChars.eq_2]
  simp [h1, h2, h3, h4, h, hsum]

theorem parseChars_quoteUnit (c : Nat) {rest s r : JSString}
    (h : parseChars rest = some (s, r)) :
    parseChars (quoteUnit c ++ rest) = some (c :: s, r) := by
  unfold quoteUnit
  split_ifs with h8 h9 h10 h12 h13 h34 h92 hesc
  · subst h8; simp [parseChars_escape (e := 98) (u := 8) rfl, h]
  · subst h9; simp [parseChars_escape (e := 116) (u := 9) rfl, h]
  · subst h10; simp [parseChars_escape (e := 110) (u := 10) rfl, h]
  · subst h12; simp [parseChars_escape (e := 102) (u := 12) rfl, h]
  · subst h13; simp [parseChars_escape (e := 114) (u := 13) rfl, h]
  · subst h34; simp [parseChars_escape (e := 34) (u := 34) rfl, h]
  · subst h92; simp [parseChars_escape (e := 92) (u := 92) rfl, h]
  · refine parseChars_unicodeEscape ?_ h
    simp only [isHighSurrogate, isLowSurrogate, Bool.or_eq_true, Bool.and_eq_true,
      decide_eq_true_eq] at hesc
    omega
  · simp only [isHighSurrogate, isLowSurrogate, Bool.or_eq_true, Bool.and_eq_true,
      decide_eq_true_eq, not_or, not_and, not_lt, not_le] at hesc
    have h32 : ¬c < 32 := by omega
    simp [parseChars_plain h34 h92 h32, h]

theorem parseChars_quoteUnits (s rest : JSString) :
    parseChars (quoteUnits s ++ 34 :: rest) = some (s, rest) := by
  induction s using quoteUnits.induct with
  | case1 => simp [quoteUnits, parseChars_quote]
  | case2 c =>
    rw [quoteUnits]
    exact parseChars_quoteUnit c (parseChars_quote rest)
  | case3 c d tail hpair ih =>
    rw [quoteUnits, if_pos hpair]
    simp only [isHighSurrogate, isLowSurrogate, Bool.and_eq_true, decide_eq_true_eq] at hpair
    have hc34 : c ≠ 34 := by omega
    have hc92 : c ≠ 92 := by omega
    have hc32 : ¬c < 32 := by omega
    have hd34 : d ≠ 34 := by omega
    have hd92 : d ≠ 92 := by omega
    have hd32 : ¬d < 32 := by omega
    simp [parseChars_plain hc34 hc92 hc32, parseChars_plain hd34 hd92 hd32, ih]
  | case4 c d tail hpair ih =>
    rw [quoteUnits, if_neg hpair, List.append_assoc]
    exact parseChars_quoteUnit c ih

theorem parseChars_quoted (s rest : JSString) :
    parseChars ((quoteJSONString s).drop 1 ++ rest) = some (s, rest) := by
  simp [quoteJSONString, parseChars_quoteUnits]

theorem skipSpace_cons {c : Nat} (hc : isJsonSpace c = false) (rest : JSString) :
    skipSpace (c :: rest) = c :: rest := by
  simp [skipSpace, List.dropWhile, hc]

theorem skipSpace_space {c : Nat} (hc : isJsonSpace c = true) (rest : JSString) :
    skipSpace (c :: rest) = skipSpace rest := by
  simp [skipSpace, List.dropWhile, hc]

theorem skipSpace_idem (s : JSString) : skipSpace (skipSpace s) = skipSpace s := by
  induction s with
  | nil => rfl
  | cons c rest ih =>
    cases hc : isJsonSpace c
    · rw [skipSpace_cons hc, skipSpace_cons hc]
    · rw [skipSpace_space hc, ih]

theorem parseValue_skip (fuel : Nat) (s : JSString) :
    parseValue fuel (skipSpace s) = parseValue fuel s := by
  cases fuel with
  | zero => simp [parseValue]
  | succ f => rw [parseValue, parseValue, skipSpace_idem]

theorem parseMembers_skip (fuel : Nat) (s : JSString) :
    parseMembers fuel (skipSpace s) = parseMembers fuel s := by
  cases fuel with
  | zero => simp [parseMembers]
  | succ f => rw [parseMembers, parseMembers, skipSpace_idem]

theorem parseElements_skip (fuel : Nat) (s : JSString) :
    parseElements fuel (skipSpace s) = parseElements fuel s := by
  cases fuel with
  | zero => simp [parseElements]
  | succ f => rw [parseElements, parseElements, parseValue_skip]

theorem parseValue_quoted (fuel : Nat) (v rest : JSString) :
    parseValue (fuel + 1) (quoteJSONString v ++ rest) = some (Json.string v, rest) := by
  have hq : quoteJSONString v ++ rest = 34 :: (quoteUnits v ++ 34 :: rest) := by
    simp [quoteJSONString]
  rw [hq, parseValue, skipSpace_cons (by decide)]
  simp [parseChars_quoteUnits]

/-- The text of a member: the quoted key, a colon and a space, the quoted value. -/
theorem parseMembers_member (fuel : Nat) (k v tail : JSString) :
    parseMembers (fuel + 2) (quoteJSONString k ++ lit ": " ++ quoteJSONString v ++ tail) =
      match skipSpace tail with
      | [] => none
      | c :: rest =>
        if c = 44 then
          (parseMembers (fuel + 1) rest).map fun p => ((k, Json.string v) :: p.1, p.2)
        else if c = 125 then some ([(k, Json.string v)], rest)
        else none := by
  have hq : quoteJSONString k ++ lit ": " ++ quoteJSONString v ++ tail =
      34 :: (quoteUnits k ++ 34 :: (58 :: 32 :: (quoteJSONString v ++ tail))) := by
    have : lit ": " = [58, 32] := rfl
    simp [quoteJSONString, this]
  rw [hq, parseMembers, skipSpace_cons (by decide)]
  simp only [if_true, parseChars_quoteUnits, skipSpace_cons (c := 58) (by decide)]
  rw [← parseValue_skip, skipSpace_space (by decide), parseValue_skip, parseValue_quoted]

/-- The text of a member as `jsonProperty` writes it. -/
theorem jsonProperty_eq (key : JSString) (value : Option JSString) :
    jsonProperty key value =
      (value.toList.map fun v => (key, v)).map
        fun p => quoteJSONString p.1 ++ lit ": " ++ quoteJSONString p.2 := by
  cases value <;> rfl

theorem jsonMember_eq (key : JSString) (value : Option JSString) :
    jsonMember key value =
      (value.toList.map fun v => (key, v)).map fun p => (p.1, Json.string p.2) := by
  cases value <;> rfl

theorem parseMembers_joined (kvs : List (JSString × JSString)) (hne : kvs ≠ [])
    (fuel : Nat) (hfuel : kvs.length + 1 ≤ fuel) (rest : JSString) :
    parseMembers fuel
        (joinWith (lit ",\n    ")
          (kvs.map fun p => quoteJSONString p.1 ++ lit ": " ++ quoteJSONString p.2) ++
          (lit "\n  \x7d" ++ rest)) =
      some (kvs.map fun p => (p.1, Json.string p.2), rest) := by
  induction kvs generalizing fuel with
  | nil => exact absurd rfl hne
  | cons kv tail ih =>
    obtain ⟨f, rfl⟩ : ∃ f, fuel = f + 2 := ⟨fuel - 2, by simp at hfuel; omega⟩
    cases tail with
    | nil =>
      simp only [List.map_cons, List.map_nil, joinWith]
      rw [parseMembers_member]
      have : lit "\n  \x7d" ++ rest = 10 :: 32 :: 32 :: 125 :: rest := rfl
      rw [this, skipSpace_space (by decide), skipSpace_space (by decide),
        skipSpace_space (by decide), skipSpace_cons (by decide)]
      simp
    | cons kv2 tail2 =>
      have ih2 := ih (by simp) (f + 1) (by simp at hfuel ⊢; omega)
      simp only [List.map_cons, joinWith, List.append_assoc] at ih2 ⊢
      rw [← List.append_assoc, ← List.append_assoc, parseMembers_member]
      have : ∀ x : JSString, lit ",\n    " ++ x = 44 :: 10 :: 32 :: 32 :: 32 :: 32 :: x :=
        fun _ => rfl
      rw [this, skipSpace_cons (by decide)]
      simp only [if_true]
      rw [← parseMembers_skip, skipSpace_space (by decide), skipSpace_space (by decide),
        skipSpace_space (by decide), skipSpace_space (by decide), skipSpace_space (by decide),
        parseMembers_skip, ih2]
      rfl

theorem stringifyEvent_eq (event : Event) :
    stringifyEvent event =
      if (presentFields event).isEmpty then lit "\x7b\x7d"
      else lit "\x7b\n    " ++ joinWith (lit ",\n    ")
        ((presentFields event).map
          fun p => quoteJSONString p.1 ++ lit ": " ++ quoteJSONString p.2) ++ lit "\n  \x7d" := by
  simp only [stringifyEvent, jsonProperty_eq, presentFields, List.map_append, List.isEmpty_eq_true,
    List.map_eq_nil_iff, List.append_eq_nil, List.isEmpty_iff]

theorem ofEvent_eq (event : Event) :
    Json.ofEvent event =
      Json.object ((presentFields event).map fun p => (p.1, Json.string p.2)) := by
  simp only [Json.ofEvent, jsonMember_eq, presentFields, List.map_append]

theorem length_presentFields (event : Event) : (presentFields event).length ≤ 7 := by
  have h : ∀ (o : Option JSString) (k : JSString),
      (o.toList.map fun v => (k, v)).length ≤ 1 := by
    intro o k
    cases o <;> simp
  simp only [presentFields, List.length_append]
  have h1 := h event.title (lit "title")
  have h2 := h event.date (lit "date")
  have h3 := h event.startTime (lit "startTime")
  have h4 := h event.endTime (lit "endTime")
  have h5 := h event.category (lit "category")
  have h6 := h event.description (lit "description")
  have h7 := h event.reminder (lit "reminder")
  omega

theorem head_joinWith {sep : JSString} {l : List JSString} {x : JSString} {c : Nat}
    (hl : l.head? = some x) (hx : x.head? = some c) : (joinWith sep l).head? = some c := by
  cases l with
  | nil => simp at hl
  | cons a t =>
    simp only [List.head?_cons, Option.some.injEq] at hl
    subst hl
    cases t with
    | nil => simpa [joinWith] using hx
    | cons b t2 =>
      cases a with
      | nil => simp at hx
      | cons a0 a1 => simpa [joinWith] using hx

theorem open_brace (body rest : JSString) :
    lit "\x7b\n    " ++ body ++ lit "\n  \x7d" ++ rest =
      123 :: 10 :: 32 :: 32 :: 32 :: 32 :: (body ++ (lit "\n  \x7d" ++ rest)) := by
  have : lit "\x7b\n    " = [123, 10, 32, 32, 32, 32] := rfl
  rw [this]
  simp only [List.append_assoc, List.cons_append, List.nil_append]

theorem skipSpace_of_head {text : JSString} {c : Nat} (h : text.head? = some c)
    (hc : isJsonSpace c = false) : skipSpace text = text := by
  cases text with
  | nil => simp at h
  | cons d t =>
    simp only [List.head?_cons, Option.some.injEq] at h
    subst h
    exact skipSpace_cons hc t

theorem parseValue_object (f : Nat) (body : JSString)
    (h : (skipSpace body).head? ≠ some 125) :
    parseValue (f + 1) (123 :: body) =
      (parseMembers f body).map fun p => (Json.object p.1, p.2) := by
  rw [parseValue, skipSpace_cons (by decide)]
  simp only [if_neg (show (123 : Nat) ≠ 34 by decide), if_neg (show (123 : Nat) ≠ 91 by decide),
    if_true, if_neg h]

theorem parseValue_array (f : Nat) (body : JSString)
    (h : (skipSpace body).head? ≠ some 93) :
    parseValue (f + 1) (91 :: body) =
      (parseElements f body).map fun p => (Json.array p.1, p.2) := by
  rw [parseValue, skipSpace_cons (by decide)]
  simp only [if_neg (show (91 : Nat) ≠ 34 by decide), if_true, if_neg h]

theorem parseValue_stringifyEvent (event : Event) (fuel : Nat) (hfuel : 9 ≤ fuel)
    (rest : JSString) :
    parseValue fuel (stringifyEvent event ++ rest) = some (Json.ofEvent event, rest) := by
  obtain ⟨f, rfl⟩ : ∃ f, fuel = f + 1 := ⟨fuel - 1, by omega⟩
  rw [stringifyEvent_eq, ofEvent_eq]
  have hlen := length_presentFields event
  cases hk : presentFields event with
  | nil =>
    have : lit "\x7b\x7d" ++ rest = 123 :: 125 :: rest := rfl
    simp only [List.isEmpty_nil, if_true, this, List.map_nil]
    rw [parseValue, skipSpace_cons (by decide)]
    simp [skipSpace_cons (c := 125) (by decide)]
  | cons kv tail =>
    rw [hk] at hlen
    have hm := parseMembers_joined (kv :: tail) (by simp) f (by simp at hlen ⊢; omega) rest
    have hhead : (joinWith (lit ",\n    ")
        ((kv :: tail).map fun p => quoteJSONString p.1 ++ lit ": " ++ quoteJSONString p.2) ++
        (lit "\n  \x7d" ++ rest)).head? = some 34 := by
      rw [List.head?_append]
      rw [head_joinWith (x := quoteJSONString kv.1 ++ lit ": " ++ quoteJSONString kv.2)
        (c := 34) (by simp) (by simp [quoteJSONString])]
      rfl
    rw [if_neg (by simp), open_brace]
    generalize joinWith (lit ",\n    ")
        ((kv :: tail).map fun p => quoteJSONString p.1 ++ lit ": " ++ quoteJSONString p.2) ++
        (lit "\n  \x7d" ++ rest) = text at hm hhead
    have hskip : skipSpace (10 :: 32 :: 32 :: 32 :: 32 :: text) = text := by
      rw [skipSpace_space (by decide), skipSpace_space (by decide), skipSpace_space (by decide),
        skipSpace_space (by decide), skipSpace_space (by decide),
        skipSpace_of_head hhead (by decide)]
    rw [parseValue_object _ _ (by rw [hskip, hhead]; decide), ← parseMembers_skip, hskip, hm]
    rfl

theorem parseElements_step (f : Nat) (event : Event) (hf : 9 ≤ f) (tail : JSString) :
    parseElements (f + 1) (stringifyEvent event ++ tail) =
      match skipSpace tail with
      | [] => none
      | c :: rest =>
        if c = 44 then
          (parseElements f rest).map fun p => (Json.ofEvent event :: p.1, p.2)
        else if c = 93 then some ([Json.ofEvent event], rest)
        else none := by
  rw [parseElements, parseValue_stringifyEvent event f hf]

theorem parseElements_joined (events : List Event) (hne : events ≠ [])
    (fuel : Nat) (hfuel : events.length + 9 ≤ fuel) (rest : JSString) :
    parseElements fuel
        (joinWith (lit ",\n  ") (events.map stringifyEvent) ++ (lit "\n]" ++ rest)) =
      some (events.map Json.ofEvent, rest) := by
  induction events generalizing fuel with
  | nil => exact absurd rfl hne
  | cons e tail ih =>
    obtain ⟨f, rfl⟩ : ∃ f, fuel = f + 1 := ⟨fuel - 1, by simp at hfuel; omega⟩
    cases tail with
    | nil =>
      simp only [List.map_cons, List.map_nil, joinWith]
      rw [parseElements_step f e (by simp at hfuel; omega)]
      have : lit "\n]" ++ rest = 10 :: 93 :: rest := rfl
      rw [this, skipSpace_space (by decide), skipSpace_cons (by decide)]
      simp
    | cons e2 tail2 =>
      have ih2 := ih (by simp) f (by simp at hfuel ⊢; omega)
      simp only [List.map_cons, joinWith, List.append_assoc] at ih2 ⊢
      rw [parseElements_step f e (by simp at hfuel; omega)]
      have : ∀ x : JSString, lit ",\n  " ++ x = 44 :: 10 :: 32 :: 32 :: x := fun _ => rfl
      rw [this, skipSpace_cons (by decide)]
      simp only [if_true]
      rw [← parseElements_skip, skipSpace_space (by decide), skipSpace_space (by decide),
        skipSpace_space (by decide), parseElements_skip, ih2]
      rfl

theorem length_joinWith (sep : JSString) (l : List JSString) (hl : ∀ x ∈ l, 1 ≤ x.length) :
    l.length ≤ (joinWith sep l).length := by
  induction l with
  | nil => simp
  | cons a t ih =>
    cases t with
    | nil => simpa [joinWith] using hl a (by simp)
    | cons b t2 =>
      have ha := hl a (by simp)
      have iht := ih fun x hx => hl x (List.mem_cons_of_mem _ hx)
      simp only [joinWith, List.length_append, List.length_cons] at iht ⊢
      omega

theorem length_stringifyEvent (event : Event) : 1 ≤ (stringifyEvent event).length := by
  rw [stringifyEvent_eq]
  split_ifs
  · decide
  · have : (lit "\x7b\n    ").length = 6 := rfl
    simp only [List.length_append, this]
    omega

theorem jsonParse_jsonStringify (events : List Event) :
    jsonParse (jsonStringify events) = some (Json.array (events.map Json.ofEvent)) := by
  cases events with
  | nil => rfl
  | cons e tail =>
    have hlen : (e :: tail).length ≤
        (joinWith (lit ",\n  ") ((e :: tail).map stringifyEvent)).length := by
      have := length_joinWith (lit ",\n  ") ((e :: tail).map stringifyEvent) (by
        intro x hx
        obtain ⟨ev, -, rfl⟩ := List.mem_map.mp hx
        exact length_stringifyEvent ev)
      simpa using this
    have htext : jsonStringify (e :: tail) =
        91 :: 10 :: 32 :: 32 ::
          (joinWith (lit ",\n  ") ((e :: tail).map stringifyEvent) ++ (lit "\n]" ++ [])) := by
      have h1 : lit "[\n  " = [91, 10, 32, 32] := rfl
      simp only [jsonStringify, List.isEmpty_cons, Bool.false_eq_true, if_false, h1,
        List.append_nil, List.cons_append, List.nil_append]
    have hhead : (joinWith (lit ",\n  ") ((e :: tail).map stringifyEvent) ++
        (lit "\n]" ++ [])).head? = some 123 := by
      rw [List.head?_append]
      rw [head_joinWith (x := stringifyEvent e) (c := 123) (by simp) (by
        rw [stringifyEvent_eq]
        split_ifs <;> rfl)]
      rfl
    have hfuel : (e :: tail).length + 9 ≤ 2 * (jsonStringify (e :: tail)).length + 2 - 1 := by
      rw [htext]
      simp only [List.length_cons, List.length_append] at hlen ⊢
      omega
    have hp := parseElements_joined (e :: tail) (by simp) _ hfuel []
    unfold jsonParse
    obtain ⟨F, hF⟩ : ∃ F, 2 * (jsonStringify (e :: tail)).length + 2 = F + 1 := ⟨_, rfl⟩
    rw [hF]
    have hF2 : 2 * (jsonStringify (e :: tail)).length + 2 - 1 = F := by omega
    rw [hF2] at hp
    rw [htext]
    generalize joinWith (lit ",\n  ") ((e :: tail).map stringifyEvent) ++ (lit "\n]" ++ []) =
      text at hp hhead
    have hskip : skipSpace (10 :: 32 :: 32 :: text) = text := by
      rw [skipSpace_space (by decide), skipSpace_space (by decide), skipSpace_space (by decide),
        skipSpace_of_head hhead (by decide)]
    rw [parseValue_array _ _ (by rw [hskip, hhead]; decide), ← parseElements_skip, hskip, hp]
    rfl

theorem find_jsonMember_self (k : JSString) (v : Option JSString) :
    (jsonMember k v).reverse.find? (fun p => p.1 == k) =
      v.map fun s => (k, Json.string s) := by
  cases v <;> simp [jsonMember]

theorem find_jsonMember_ne {k key : JSString} (h : k ≠ key) (v : Option JSString) :
    (jsonMember k v).reverse.find? (fun p => p.1 == key) = none := by
  cases v <;> simp [jsonMember, h]

theorem find_members_none (ps : List (JSString × Option JSString)) (key : JSString)
    (h : key ∉ ps.map Prod.fst) :
    (ps.flatMap fun p => jsonMember p.1 p.2).reverse.find? (fun p => p.1 == key) = none := by
  induction ps with
  | nil => rfl
  | cons p t ih =>
    simp only [List.map_cons, List.mem_cons, not_or] at h
    simp only [List.flatMap_cons, List.reverse_append, List.find?_append, ih h.2,
      find_jsonMember_ne (Ne.symm h.1), Option.or_none]

theorem find_members (ps : List (JSString × Option JSString)) (hk : (ps.map Prod.fst).Nodup)
    (key : JSString) (v : Option JSString) (h : (key, v) ∈ ps) :
    (ps.flatMap fun p => jsonMember p.1 p.2).reverse.find? (fun p => p.1 == key) =
      v.map fun s => (key, Json.string s) := by
  induction ps with
  | nil => simp at h
  | cons p t ih =>
    simp only [List.map_cons, List.nodup_cons] at hk
    simp only [List.flatMap_cons, List.reverse_append, List.find?_append]
    rcases List.mem_cons.mp h with rfl | ht
    · rw [find_members_none t key hk.1, find_jsonMember_self]
      rfl
    · have hne : p.1 ≠ key := by
        rintro rfl
        exact hk.1 (List.mem_map.mpr ⟨_, ht, rfl⟩)
      rw [ih hk.2 ht, find_jsonMember_ne hne, Option.or_none]

theorem field_members (ps : List (JSString × Option JSString)) (hk : (ps.map Prod.fst).Nodup)
    (key : JSString) (v : Option JSString) (h : (key, v) ∈ ps) :
    Json.field (ps.flatMap fun p => jsonMember p.1 p.2) key = v := by
  unfold Json.field
  rw [find_members ps hk key v h]
  cases v <;> rfl

theorem toEvent_ofEvent (event : Event) : Json.toEvent (Json.ofEvent event) = event := by
  have hm : Json.ofEvent event = Json.object
      ([(lit "title", event.title), (lit "date", event.date),
        (lit "startTime", event.startTime), (lit "endTime", event.endTime),
        (lit "category", event.category), (lit "description", event.description),
        (lit "reminder", event.reminder)].flatMap fun p => jsonMember p.1 p.2) := by
    simp [Json.ofEvent, List.flatMap_cons]
  have hk : ([(lit "title", event.title), (lit "date", event.date),
        (lit "startTime", event.startTime), (lit "endTime", event.endTime),
        (lit "category", event.category), (lit "description", event.description),
        (lit "reminder", event.reminder)].map Prod.fst).Nodup := by
    simp only [List.map_cons, List.map_nil]
    decide
  rw [hm]
  simp only [Json.toEvent]
  rw [field_members _ hk _ event.title (by simp), field_members _ hk _ event.date (by simp),
    field_members _ hk _ event.startTime (by simp),
    field_members _ hk _ event.endTime (by simp),
    field_members _ hk _ event.category (by simp),
    field_members _ hk _ event.description (by simp),
    field_members _ hk _ event.reminder (by simp)]

/-! ## Import from JSON -/

namespace EventManager

theorem importFromJSON_eq (parse : JSString → Option Json) (self : EventManager)
    (jsonString : JSString) :
    (parse jsonString = none ∧ self.importFromJSON parse jsonString =
      ({ success := false, error := some (lit "Failed to parse JSON") }, self)) ∨
    ((∃ v, parse jsonString = some v ∧ ∀ items, v ≠ .array items) ∧
      self.importFromJSON parse jsonString =
        ({ success := false, error := some (lit "Invalid JSON format") }, self)) ∨
    (∃ items, parse jsonString = some (.array items) ∧
      self.importFromJSON parse jsonString =
        ({ success := true, error := none },
          { self with events := items.map Json.toEvent })) := by
  unfold importFromJSON
  cases hp : parse jsonString with
  | none => exact Or.inl ⟨rfl, rfl⟩
  | some v =>
    cases v with
    | array items => exact Or.inr (Or.inr ⟨items, rfl, rfl⟩)
    | null => exact Or.inr (Or.inl ⟨⟨_, rfl, fun _ h => by cases h⟩, rfl⟩)
    | bool b => exact Or.inr (Or.inl ⟨⟨_, rfl, fun _ h => by cases h⟩, rfl⟩)
    | number t => exact Or.inr (Or.inl ⟨⟨_, rfl, fun _ h => by cases h⟩, rfl⟩)
    | string s => exact Or.inr (Or.inl ⟨⟨_, rfl, fun _ h => by cases h⟩, rfl⟩)
    | object m => exact Or.inr (Or.inl ⟨⟨_, rfl, fun _ h => by cases h⟩, rfl⟩)

end EventManager

/-- C25: `importFromJSON` always returns a record: `{success: false, error: 'Failed to
parse JSON'}` when `JSON.parse` throws, `{success: false, error: 'Invalid JSON format'}`
when the text parses to a value that is not an array, `{success: true}` when it parses
to an array, whatever its elements are; so success is true exactly when the text parses
to an array. -/
theorem importFromJSON_three_outcomes (parse : JSString → Option Json)
    (self : EventManager) (jsonString : JSString) :
    (parse jsonString = none →
      (self.importFromJSON parse jsonString).1 =
        { success := false, error := some (lit "Failed to parse JSON") }) ∧
    (∀ v, parse jsonString = some v → (∀ items, v ≠ .array items) →
      (self.importFromJSON parse jsonString).1 =
        { success := false, error := some (lit "Invalid JSON format") }) ∧
    (∀ items, parse jsonString = some (.array items) →
      (self.importFromJSON parse jsonString).1 = { success := true, error := none }) ∧
    ((self.importFromJSON parse jsonString).1.success = true ↔
      ∃ items, parse jsonString = some (.array items)) := by
  rcases EventManager.importFromJSON_eq parse self jsonString with
    ⟨hp, hr⟩ | ⟨⟨v, hp, hv⟩, hr⟩ | ⟨items, hp, hr⟩
  · refine ⟨fun _ => by rw [hr], fun v hv => ?_, fun items hi => ?_, ?_⟩
    · rw [hp] at hv; cases hv
    · rw [hp] at hi; cases hi
    · rw [hr, hp]; simp
  · refine ⟨fun hn => ?_, fun _ _ _ => by rw [hr], fun items hi => ?_, ?_⟩
    · rw [hp] at hn; cases hn
    · rw [hp] at hi
      exact absurd (Option.some.inj hi) (hv items)
    · rw [hr, hp]
      simp only [Bool.false_eq_true, Option.some.injEq, false_iff, not_exists]
      exact hv
  · refine ⟨fun hn => ?_, fun v hv hne => ?_, fun _ _ => by rw [hr], ?_⟩
    · rw [hp] at hn; cases hn
    · rw [hp] at hv
      exact absurd (Option.some.inj hv).symm (hne items)
    · rw [hr, hp]; simp

/-- C29: when `importFromJSON` returns success = false the manager is what it was before
the call; the manager changes only when success = true; and when the text parses to an
array, success is true and the collection is that array, element for element. -/
theorem importFromJSON_atomic_on_failure (parse : JSString → Option Json)
    (self : EventManager) (jsonString : JSString) :
    ((self.importFromJSON parse jsonString).1.success = false →
      (self.importFromJSON parse jsonString).2 = self ∧
      (parse jsonString = none ∨ ∃ v, parse jsonString = some v ∧ ∀ items, v ≠ .array items)) ∧
    ((self.importFromJSON parse jsonString).2 ≠ self →
      (self.importFromJSON parse jsonString).1.success = true) ∧
    (∀ items, parse jsonString = some (.array items) →
      (self.importFromJSON parse jsonString).1.success = true ∧
      (self.importFromJSON parse jsonString).2.events = items.map Json.toEvent) := by
  rcases EventManager.importFromJSON_eq parse self jsonString with
    ⟨hp, hr⟩ | ⟨⟨v, hp, hv⟩, hr⟩ | ⟨items, hp, hr⟩
  · refine ⟨fun _ => ⟨by rw [hr], Or.inl hp⟩, fun hne => ?_, fun items hi => ?_⟩
    · rw [hr] at hne; exact absurd rfl hne
    · rw [hp] at hi; cases hi
  · refine ⟨fun _ => ⟨by rw [hr], Or.inr ⟨v, hp, hv⟩⟩, fun hne => ?_, fun items hi => ?_⟩
    · rw [hr] at hne; exact absurd rfl hne
    · rw [hp] at hi
      exact absurd (Option.some.inj hi) (hv items)
  · refine ⟨fun hs => ?_, fun _ => by rw [hr], fun items2 hi => ?_⟩
    · rw [hr] at hs; cases hs
    · rw [hp] at hi
      cases hi
      rw [hr]
      exact ⟨rfl, rfl⟩

/-- C24: the text that `exportToJSON` returns for a collection, given to
`importFromJSON` of any manager (the same one included), parses to an array; the call
returns success and the manager then holds exactly the events that were exported: as
many, in the same order, each with the same title, date, startTime, endTime, category,
description and reminder. -/
theorem import_of_export_restores_events (self other : EventManager) :
    other.importFromJSON jsonParse (self.exportToJSON jsonStringify) =
      ({ success := true, error := none }, self) ∧
    self.importFromJSON jsonParse (self.exportToJSON jsonStringify) =
      ({ success := true, error := none }, self) ∧
    (jsonParse (jsonStringify self.events)).bind Json.events = some self.events ∧
    (other.importFromJSON jsonParse (self.exportToJSON jsonStringify)).2.events.length =
      self.events.length ∧
    (∀ i : Nat, (other.importFromJSON jsonParse (self.exportToJSON jsonStringify)).2.events[i]? =
      self.events[i]?) := by
  have hmap : (self.events.map Json.ofEvent).map Json.toEvent = self.events := by
    rw [List.map_map]
    conv_rhs => rw [← List.map_id self.events]
    exact List.map_congr_left fun e _ => toEvent_ofEvent e
  have himp : ∀ m : EventManager,
      m.importFromJSON jsonParse (self.exportToJSON jsonStringify) =
        ({ success := true, error := none }, self) := by
    intro m
    unfold EventManager.importFromJSON EventManager.exportToJSON
    rw [jsonParse_jsonStringify]
    simp only [hmap]
  refine ⟨himp other, himp self, ?_, ?_, fun i => ?_⟩
  · rw [jsonParse_jsonStringify]
    simp only [Option.bind, Json.events, hmap]
  · rw [himp other]
  · rw [himp other]

/-- Witness for C25: a text that is not JSON, the text of an object and the text of an
array of a number and null. -/
theorem importFromJSON_three_outcomes_witness :
    ((EventManager.mk [standup]).importFromJSON jsonParse (lit "[1, ")).1 =
      { success := false, error := some (lit "Failed to parse JSON") } ∧
    ((EventManager.mk [standup]).importFromJSON jsonParse (lit "\x7b\"events\": []\x7d")).1 =
      { success := false, error := some (lit "Invalid JSON format") } ∧
    ((EventManager.mk [standup]).importFromJSON jsonParse (lit "[1, null]")).1 =
      { success := true, error := none } :=
  ⟨(importFromJSON_three_outcomes jsonParse (EventManager.mk [standup]) (lit "[1, ")).1 rfl,
   (importFromJSON_three_outcomes jsonParse (EventManager.mk [standup])
      (lit "\x7b\"events\": []\x7d")).2.1 _ rfl (fun _ h => by cases h),
   (importFromJSON_three_outcomes jsonParse (EventManager.mk [standup])
      (lit "[1, null]")).2.2.1 _ rfl⟩

/-- Witness for C29: after a text that is not JSON the manager still holds the stand-up;
after the text of an array with one record it holds that record. -/
theorem importFromJSON_atomic_on_failure_witness :
    ((EventManager.mk [standup]).importFromJSON jsonParse (lit "[1, ")).2 =
      EventManager.mk [standup] ∧
    ((EventManager.mk [standup]).importFromJSON jsonParse
      (lit "[\x7b\"title\": \"Lunch\"\x7d]")).2.events = [{ title := some (lit "Lunch") }] := by
  refine ⟨((importFromJSON_atomic_on_failure jsonParse (EventManager.mk [standup])
      (lit "[1, ")).1 rfl).1, ?_⟩
  have hw := (importFromJSON_atomic_on_failure jsonParse (EventManager.mk [standup])
      (lit "[\x7b\"title\": \"Lunch\"\x7d]")).2.2 _ rfl
  rw [hw.2]
  rfl

/-! ## The preview text -/

namespace ICSGenerator

theorem forEachPreview_eq (events : List Event) (index : Nat) (preview : JSString) :
    forEachPreview events index preview =
      preview ++ ((events.enumFrom index).map fun p => previewEntry p.2 p.1).flatten := by
  induction events generalizing index preview with
  | nil => simp [forEachPreview]
  | cons e es ih =>
    rw [forEachPreview]
    simp only [ih, List.enumFrom_cons, List.map_cons, List.flatten_cons, previewEntry]
    cases hd : truthy e.description <;>
      cases hr : (truthy e.reminder && str e.reminder != lit "0") <;>
      simp_all [List.append_assoc]

end ICSGenerator

/-- C27: `generatePreview(events, N)` always returns a text (and only a text: it has no
access to the collection beyond reading it).  For an absent or empty collection the
text is 'No events to preview'.  Otherwise it is the heading with the number of
events, then one entry for each of the first min(N, count) events, in order and
numbered from 1, then '... and K more event(s)' with K = count - N exactly when count
exceeds N.  An entry holds the title, Date, Time and Category lines, the Description
line exactly when the description is a non-empty string, and the Reminder line exactly
when the reminder is a non-empty string other than '0'.  Without a limit, N is 5. -/
theorem generatePreview_lists_first_events (events : Option (List Event)) (n : Nat) :
    (events = none ∨ events = some [] →
      ICSGenerator.generatePreview events (some n) = lit "No events to preview") ∧
    (∀ l, events = some l → l ≠ [] →
      ICSGenerator.generatePreview events (some n) =
        lit "Calendar Preview (" ++ lit (Nat.repr l.length) ++ lit " event" ++
          (if l.length ≠ 1 then lit "s" else lit "") ++ lit "):\n\n" ++
        ((l.take n).enum.map fun p => previewEntry p.2 p.1).flatten ++
        (if l.length > n then
          lit "... and " ++ lit (Nat.repr (l.length - n)) ++ lit " more event" ++
            (if l.length - n ≠ 1 then lit "s" else lit "")
         else []) ∧
      (l.take n).length = min n l.length ∧
      (∀ i, i < min n l.length → (l.take n)[i]? = l[i]?)) ∧
    (∀ (e : Event) (i : Nat),
      previewEntry e i =
        lit (Nat.repr (i + 1)) ++ lit ". " ++ interpolate e.title ++ lit "\n" ++
        (lit "   Date: " ++ interpolate e.date ++ lit "\n") ++
        (lit "   Time: " ++ interpolate e.startTime ++ lit " - " ++ interpolate e.endTime ++
          lit "\n") ++
        (lit "   Category: " ++ interpolate e.category ++ lit "\n") ++
        (if truthy e.description then
          lit "   Description: " ++ str e.description ++ lit "\n" else []) ++
        (if truthy e.reminder ∧ str e.reminder ≠ lit "0" then
          lit "   Reminder: " ++ ICSGenerator.getReminderText (str e.reminder) ++ lit "\n"
         else []) ++
        lit "\n") ∧
    ICSGenerator.generatePreview events none = ICSGenerator.generatePreview events (some 5) := by
  refine ⟨fun h => ?_, fun l hl hne => ⟨?_, List.length_take _ _, fun i hi => ?_⟩,
    fun e i => rfl, rfl⟩
  · rcases h with rfl | rfl <;> rfl
  · subst hl
    cases l with
    | nil => exact absurd rfl hne
    | cons e es =>
      simp only [ICSGenerator.generatePreview, Option.getD_some,
        ICSGenerator.forEachPreview_eq, List.enum]
      split_ifs <;> simp [List.append_assoc]
  · rw [List.getElem?_take]
    rw [if_pos (by omega)]

/-- Witness for C27: with the limit 2 the preview of the batch of three lists the first
two candidates and ends with '... and 1 more event'. -/
theorem generatePreview_lists_first_events_witness :
    ICSGenerator.generatePreview (some batchOfThree) (some 2) =
      lit "Calendar Preview (3 events):\n\n1. Standup\n   Date: 2024-03-01\n   Time: 09:00 - 09:15\n   Category: meeting\n   Reminder: 15 minutes\n\n2. Review\n   Date: 2024-03-01\n   Time: 11:00 - 10:00\n   Category: undefined\n\n... and 1 more event" := by
  have hw := (generatePreview_lists_first_events (some batchOfThree) 2).2.1 batchOfThree rfl
    (by simp [batchOfThree])
  rw [hw.1]
  decide

/-! ## Removing events and clearing the collection -/

/-- C28: `deleteEvent(i)` returns true exactly when 0 <= i < count.  In that case the
collection becomes the events before position i followed by the events after it: one
event fewer, every position below i holds what it held, every position from i on holds
what the next position held.  Otherwise it returns false and the manager is unchanged.
`clearEvents` leaves the collection empty. -/
theorem deleteEvent_removes_exactly_one (self : EventManager) (index : Int) :
    ((self.deleteEvent index).1 = true ↔ 0 ≤ index ∧ index < self.events.length) ∧
    (0 ≤ index ∧ index < self.events.length →
      (self.deleteEvent index).2.events =
        self.events.take index.toNat ++ self.events.drop (index.toNat + 1) ∧
      (self.deleteEvent index).2.events.length + 1 = self.events.length ∧
      (∀ j, j < index.toNat →
        (self.deleteEvent index).2.events[j]? = self.events[j]?) ∧
      (∀ j, index.toNat ≤ j →
        (self.deleteEvent index).2.events[j]? = self.events[j + 1]?)) ∧
    (¬(0 ≤ index ∧ index < self.events.length) →
      self.deleteEvent index = (false, self)) ∧
    self.clearEvents.events = [] := by
  refine ⟨?_, fun hi => ?_, fun hi => ?_, rfl⟩
  · unfold EventManager.deleteEvent
    split <;> simp_all
  · have hd : self.deleteEvent index =
        (true, { self with events := self.events.eraseIdx index.toNat }) := by
      unfold EventManager.deleteEvent
      rw [if_pos hi]
    have hlt : index.toNat < self.events.length := by omega
    rw [hd]
    refine ⟨List.eraseIdx_eq_take_drop_succ _ _, ?_, fun j hj => ?_, fun j hj => ?_⟩
    · simp only [List.length_eraseIdx, if_pos hlt]
      omega
    · simp only [List.getElem?_eraseIdx, if_pos hj]
    · simp only [List.getElem?_eraseIdx, if_neg (Nat.not_lt.mpr hj)]
  · unfold EventManager.deleteEvent
    rw [if_neg hi]

/-- Witness for C28: deleting position 1 of the batch of three leaves the first and the
third candidate. -/
theorem deleteEvent_removes_exactly_one_witness :
    (0 ≤ (1 : Int) ∧ (1 : Int) < (EventManager.mk batchOfThree).events.length) ∧
    ((EventManager.mk batchOfThree).deleteEvent 1).1 = true ∧
    ((EventManager.mk batchOfThree).deleteEvent 1).2.events = [standup, teamLunch] := by
  have hw := deleteEvent_removes_exactly_one (EventManager.mk batchOfThree) 1
  have hi : 0 ≤ (1 : Int) ∧ (1 : Int) < (EventManager.mk batchOfThree).events.length := by
    decide
  refine ⟨hi, hw.1.mpr hi, ?_⟩
  rw [(hw.2.1 hi).1]
  decide

/-! ## Default values -/

theorem orDefault_of_truthy {v : Option JSString} (hv : truthy v = true) (d : JSString) :
    orDefault v d = v := by
  simp [orDefault, hv]

theorem orDefault_of_falsy {v : Option JSString} (hv : truthy v = false) (d : JSString) :
    orDefault v d = some d := by
  simp [orDefault, hv]

/-- C26, counterexample: the stand-up with the empty string as its reminder has a
reminder in the input, and `setEvents` and `addEvent` store '60' in its place. -/
theorem setEvents_replaces_empty_reminder :
    ({ standup with reminder := some (lit "") } : Event).reminder ≠ none ∧
    ((EventManager.mk []).setEvents [{ standup with reminder := some (lit "") }]).events.map
      (fun e => e.reminder) = [some (lit "60")] ∧
    ((EventManager.mk []).addEvent (lit "2024-03-01")
      { standup with reminder := some (lit "") }).2.events.map
      (fun e => e.reminder) = [some (lit "60")] ∧
    some (lit "60") ≠ ({ standup with reminder := some (lit "") } : Event).reminder := by
  decide

/-- C26, amended: `setEvents` stores one event for each input event, in the same order,
with title, date, startTime, endTime, category and description unchanged; `addEvent`
appends one event and returns its index.  In both the stored reminder is the input's
reminder when that is a non-empty string, the string '0' included, and '60' when the
reminder is absent or the empty string. -/
theorem default_reminder_unless_non_empty (self : EventManager) (events : List Event)
    (today : JSString) (event : Event) :
    (self.setEvents events).events.length = events.length ∧
    (∀ (i : Nat) (e : Event), events[i]? = some e →
      ∃ stored : Event, (self.setEvents events).events[i]? = some stored ∧
        stored.title = e.title ∧ stored.date = e.date ∧ stored.startTime = e.startTime ∧
        stored.endTime = e.endTime ∧ stored.category = e.category ∧
        stored.description = e.description ∧
        (truthy e.reminder = true → stored.reminder = e.reminder) ∧
        (truthy e.reminder = false → stored.reminder = some (lit "60"))) ∧
    (∃ stored : Event, (self.addEvent today event).2.events = self.events ++ [stored] ∧
      (self.addEvent today event).1 = self.events.length ∧
      (truthy event.reminder = true → stored.reminder = event.reminder) ∧
      (truthy event.reminder = false → stored.reminder = some (lit "60"))) ∧
    truthy (some (lit "0")) = true ∧ orDefault (some (lit "0")) (lit "60") = some (lit "0") ∧
    truthy none = false ∧ truthy (some (lit "")) = false := by
  refine ⟨by simp [EventManager.setEvents], fun i e he => ?_, ?_, rfl, rfl, rfl, rfl⟩
  · refine ⟨{ e with reminder := orDefault e.reminder (lit "60") }, ?_, rfl, rfl, rfl, rfl,
      rfl, rfl, fun ht => orDefault_of_truthy ht _, fun hf => orDefault_of_falsy hf _⟩
    simp [EventManager.setEvents, he]
  · refine ⟨_, rfl, ?_, fun ht => orDefault_of_truthy ht _, fun hf => orDefault_of_falsy hf _⟩
    simp [EventManager.addEvent]

/-! ## Quiz grading -/

/-- C30, at the failing input: the quiz `oneQuestionQuiz` passes `validateQuizFormat`, its
true-false question `waterIsWet` has the correct answer 'true', which denotes true, and
`checkAnswer` grades the answer true as wrong and the answer false as right. -/
theorem checkAnswer_ignores_string_answer :
    QuizLoader.validateQuizFormat QuizApp.asciiLower (some QuizApp.oneQuestionQuiz) =
      { isValid := true, error := none } ∧
    QuizApp.waterIsWet.correctAnswer.bind (QuizApp.denotes QuizApp.asciiLower) = some true ∧
    QuestionHandler.checkAnswer QuizApp.asciiLower QuizApp.waterIsWet (.boolean true) =
      some false ∧
    QuestionHandler.checkAnswer QuizApp.asciiLower QuizApp.waterIsWet (.boolean false) =
      some true := by
  decide

end Scheduler
